import Mathlib

/-!
# ClearScript V8 isolate controller (`V8IsolateImpl.cpp`)

A shallow embedding of the per-isolate controller implemented in
`src/ClearScript/V8/ClearScriptV8/V8IsolateImpl.cpp`, together with theorems
about its locked-call scheduler, task runner and delayed tasks, teardown,
resource watchdogs, message loop, debugging members and CPU profile output.

Conventions of the embedding

* The controller object is the record `V8IsolateImpl`; a member function
  `V8IsolateImpl::F(args)` is the Lean function `V8IsolateImpl.F args s`
  returning the updated object.  The three overloads of
  `ProcessCallWithLockQueue` are `ProcessCallWithLockQueue` (no argument),
  `ProcessCallWithLockQueue_lock` (the `std::unique_lock&` overload) and
  `ProcessCallWithLockQueue_queue` (the `std::queue&` overload).
* Pointers are addresses (`Nat`), the null pointer is `0`.  `size_t` has
  `8 * W` bits where `W = sizeof(size_t)` is a parameter of the functions whose
  arithmetic can wrap.
* Closures and engine tasks are identified by values of `Callback` and `TaskId`;
  what a queued closure does when it is invoked is given by an environment
  `Env`: the controller operations of `Op` it performs, which may depend on the
  controller state, and the exception it ends with.  Objects are first order, so
  a controller can hold closures that act on the controller.
* Calls that leave the controller (engine, condition variable, timers) are
  recorded in instrumentation fields of the record, listed after the members.
* The data mutex and the execution lock are not represented: the model is
  sequential, one member function runs at a time.  Debug assertions (`_ASSERTE`)
  have no effect on the state and are stated as propositions where a theorem is
  about them.
* Functions and classes declared in `V8IsolateImpl.h`, which is not part of the
  translated source file, are modelled from the specification and marked so.
* A loop that need not end takes fuel, one unit for each turn, and a blocking
  wait takes the list of its wake-ups; the result is `none` when either runs
  out.
* Text written to a stream is a list of characters; the profile that the engine
  hands to `StopCpuProfiler` is a tree of the values its accessors return.
-/

namespace ClearScript

/-- Identity of a `v8::Task` object. -/
abbrev TaskId := Nat

/-- The `V8Exception::Type` values used by the controller. -/
inductive V8ExceptionType
  | General
  | Interrupt
  | Fatal
deriving DecidableEq, Repr

/-- A `V8Exception(type, engineName, message, executionStarted)`. -/
structure V8Exception where
  type : V8ExceptionType
  engineName : String
  message : String
  executionStarted : Bool
deriving DecidableEq, Repr

/-- What a C++ `throw` can carry out of a closure. -/
inductive Thrown
  | v8 (e : V8Exception)
  | other (code : Nat)
deriving DecidableEq, Repr

/-- A `std::function<void(V8IsolateImpl*)>` held by the locked-call queue.
`host id` is a closure supplied by another component; `runTask t` is the closure
`[spTask] (V8IsolateImpl*) { spTask->Run(); }` built by `RunTaskWithLockAsync`
and `RunTaskWithLockDelayed`. -/
inductive Callback
  | host (id : Nat)
  | runTask (task : TaskId)
deriving DecidableEq, Repr

/-- The controller operations a running closure, or another thread while the
message loop waits, can perform on the controller.  `callWithLockAsync none` is a
submission of an empty `std::function`.  The last three are the bodies of the
closures that the controller itself hands to `CallWithLockNoWait` (lines
1288-1320); a closure whose environment gives one of them is such a closure. -/
inductive Op
  | callWithLockAsync (callback : Option Callback)
  | quitMessageLoopOnPause
  | abortMessageLoop
  /-- The body of the closure that `ConnectDebugClient` builds. -/
  | connectDebugClient
  /-- The body of the closure that `SendDebugCommand(command)` builds. -/
  | sendDebugCommand (command : Nat)
  /-- The body of the closure that `DisconnectDebugClient` builds. -/
  | disconnectDebugClient
deriving DecidableEq, Repr

/-- The heap-watch `Timer` created by `SetUpHeapWatchTimer`; its callback captures
`maxHeapSize`.  The period, a `double` computation, is not represented. -/
structure HeapWatchTimer where
  id : Nat
  maxHeapSize : Nat
  started : Bool
deriving DecidableEq, Repr

/-- A delayed-task `Timer` created by `RunTaskDelayed` (`withLock = false`) or
`RunTaskWithLockDelayed` (`withLock = true`).  `spTask` is the task reference
captured by the timer callback (`none` after `spTask.reset()`); `delay` is the
value of `static_cast<int>(delayInSeconds * 1000)`. -/
structure TaskTimer where
  id : Nat
  delay : Int
  withLock : Bool
  spTask : Option TaskId
  started : Bool
deriving DecidableEq, Repr

/-- The controller object.  Members carry their source names and the initial
values given by the constructor; the fields after `m_CallWithLockQueue` are
instrumentation. -/
structure V8IsolateImpl where
  m_Name : String := ""
  m_DebuggingEnabled : Bool := false
  m_DebugPort : Int := 0
  /-- Address of the debug agent, `0` for none. -/
  m_pvDebugAgent : Nat := 0
  /-- Whether `m_spInspector` holds an inspector. -/
  m_spInspector : Bool := false
  /-- Whether `m_spInspectorSession` holds a session. -/
  m_spInspectorSession : Bool := false
  m_AwaitingDebugger : Bool := false
  m_InMessageLoop : Bool := false
  m_QuitMessageLoop : Bool := false
  m_AbortMessageLoop : Bool := false
  m_ContextPtrs : List Nat := []
  m_MaxHeapSize : Nat := 0
  m_HeapWatchLevel : Nat := 0
  m_spHeapWatchTimer : Option HeapWatchTimer := none
  m_MaxStackUsage : Nat := 0
  m_StackWatchLevel : Nat := 0
  m_pStackLimit : Nat := 0
  m_pExecutionScope : Nat := 0
  m_IsOutOfMemory : Bool := false
  m_IsExecutionTerminating : Bool := false
  m_Released : Bool := false
  /-- Whether `m_pProfiler` is non-null. -/
  m_pProfiler : Bool := false
  m_AsyncTasks : List TaskId := []
  m_TaskTimers : List TaskTimer := []
  m_CallWithLockQueue : List Callback := []
  /-- Closures called, by a drain loop or directly by `CallWithLockNoWait`, in call
  order. -/
  invoked : List Callback := []
  /-- Closures pushed on the queue by `CallWithLockAsync`, in push order. -/
  accepted : List Callback := []
  /-- Number of `RequestInterrupt(ProcessCallWithLockQueue, this)` calls. -/
  interruptRequests : Nat := 0
  /-- Number of `m_CallWithLockQueueChanged.notify_one()` calls. -/
  notifyCalls : Nat := 0
  /-- Tasks whose `Run()` was called, in call order. -/
  taskRuns : List TaskId := []
  /-- Tasks destroyed by an explicit `delete pTask`. -/
  taskDeletes : List TaskId := []
  /-- Tasks whose notification closure was handed to `QueueNativeCallback`. -/
  nativeCallbacks : List TaskId := []
  /-- Number of `Timer` objects created so far; the next timer takes it as id. -/
  timersCreated : Nat := 0
  /-- Arguments of the `m_pIsolate->SetStackLimit` calls, in call order. -/
  setStackLimitCalls : List Nat := []
  /-- Number of `CheckHeapSize` calls. -/
  checkHeapSizeCalls : Nat := 0
  /-- Number of `LowMemoryNotification()` calls. -/
  lowMemoryNotifications : Nat := 0
  /-- Number of `TerminateExecution()` calls. -/
  terminateExecutionCalls : Nat := 0
  /-- Number of `CancelTerminateExecution()` calls. -/
  cancelTerminateExecutionCalls : Nat := 0
  /-- Whether a termination request is pending in the engine. -/
  terminationPending : Bool := false
  /-- Number of heap-watch timers created and started. -/
  heapWatchTimersStarted : Nat := 0
  /-- Number of times `m_spHeapWatchTimer.Empty()` was executed. -/
  heapWatchTimerEmptyCalls : Nat := 0
  /-- Debug agents passed to `HostObjectHelpers::DestroyDebugAgent`. -/
  destroyedDebugAgents : List Nat := []
  /-- The process-wide `s_InstanceCount`. -/
  s_InstanceCount : Nat := 1
  /-- Whether a `WeakRef<V8Isolate>` to this controller still has a target. -/
  weakTargetAlive : Bool := true
  hostObjectHolderKeyDisposed : Bool := false
  beforeCallEnteredCallbackInstalled : Bool := true
  profilerDisposed : Bool := false
  isolateDisposed : Bool := false
  /-- Number of `m_CallWithLockQueueChanged.wait(lock)` calls that returned. -/
  waitCalls : Nat := 0
  /-- Number of `schedulePauseOnNextStatement` calls on the debug session. -/
  scheduledPauses : Nat := 0
  /-- The `(port, remote)` arguments of the `CreateDebugAgent` calls, in call
  order; the agent created by the `n`-th call has address `n`. -/
  createdDebugAgents : List (Int × Bool) := []
  /-- Number of `v8_inspector::V8Inspector::create` calls. -/
  createdInspectors : Nat := 0
  /-- Contexts announced to the inspector by `contextCreated`, in call order. -/
  contextCreatedCalls : List Nat := []
  /-- Contexts announced to the inspector by `contextDestroyed`, in call order. -/
  contextDestroyedCalls : List Nat := []
  /-- Commands handed to `dispatchProtocolMessage`, in call order. -/
  dispatchedCommands : List Nat := []
  /-- Number of debug sessions created by `m_spInspector->connect`. -/
  connectedSessions : Nat := 0
deriving DecidableEq, Repr

/-- What one invocation of a closure does: the controller operations it performs,
in order, and the exception it ends with, if any. -/
structure Outcome where
  ops : List Op := []
  thrown : Option Thrown := none
deriving DecidableEq, Repr

/-- The behaviour of every closure, as a function of the controller state at the
moment the closure is invoked. -/
abbrev Env := Callback → V8IsolateImpl → Outcome

/-- The closures submitted by a list of operations, in order (an empty
`std::function` is not a submission). -/
def submissions : List Op → List Callback
  | [] => []
  | Op.callWithLockAsync (some cb) :: ops => cb :: submissions ops
  | Op.callWithLockAsync none :: ops => submissions ops
  | Op.quitMessageLoopOnPause :: ops => submissions ops
  | Op.abortMessageLoop :: ops => submissions ops
  | Op.connectDebugClient :: ops => submissions ops
  | Op.sendDebugCommand _ :: ops => submissions ops
  | Op.disconnectDebugClient :: ops => submissions ops

namespace V8IsolateImpl

/-- Modelled from the spec: `RequestInterrupt` is declared in the class header; the
spec has it "request an engine-level interrupt so the queue drains at the next
safe point".  The request is counted. -/
def RequestInterrupt (s : V8IsolateImpl) : V8IsolateImpl :=
  { s with interruptRequests := s.interruptRequests + 1 }

/-- `V8IsolateImpl::CallWithLockAsync` (lines 1203-1229). -/
def CallWithLockAsync (callback : Option Callback) (s : V8IsolateImpl) : V8IsolateImpl :=
  match callback with
  | none => s
  | some cb =>
    let s1 := { s with
      m_CallWithLockQueue := s.m_CallWithLockQueue ++ [cb]
      accepted := s.accepted ++ [cb] }
    if s1.m_InMessageLoop then
      { s1 with notifyCalls := s1.notifyCalls + 1 }
    else
      let requestInterrupt := decide (s1.m_CallWithLockQueue.length = 1)
      if requestInterrupt then RequestInterrupt s1 else s1

/-- `V8IsolateImpl::quitMessageLoopOnPause` (lines 790-799). -/
def quitMessageLoopOnPause (s : V8IsolateImpl) : V8IsolateImpl :=
  { s with m_QuitMessageLoop := true }

/-- `V8IsolateImpl::runIfWaitingForDebugger` (lines 803-806). -/
def runIfWaitingForDebugger (s : V8IsolateImpl) : V8IsolateImpl :=
  quitMessageLoopOnPause s

/-- Modelled from the spec: no function of the source file sets
`m_AbortMessageLoop`; the spec has the message loop support an "external Abort
(distinct from Quit)".  The abort request sets the flag; the wake-up that comes
with it is an element of the wake-up list of the loop. -/
def AbortMessageLoop (s : V8IsolateImpl) : V8IsolateImpl :=
  { s with m_AbortMessageLoop := true }

/-- The closure built by `ConnectDebugClient` (lines 1290-1296). -/
def ConnectDebugClient_callback (s : V8IsolateImpl) : V8IsolateImpl :=
  if s.m_spInspector && !s.m_spInspectorSession then
    { s with m_spInspectorSession := true, connectedSessions := s.connectedSessions + 1 }
  else s

/-- The closure built by `SendDebugCommand` (lines 1303-1309); what the engine does
with the command is not represented. -/
def SendDebugCommand_callback (command : Nat) (s : V8IsolateImpl) : V8IsolateImpl :=
  if s.m_spInspectorSession then
    { s with dispatchedCommands := s.dispatchedCommands ++ [command] }
  else s

/-- The closure built by `DisconnectDebugClient` (lines 1316-1319). -/
def DisconnectDebugClient_callback (s : V8IsolateImpl) : V8IsolateImpl :=
  { s with m_spInspectorSession := false }

/-- One controller operation performed by a running closure. -/
def applyOp (op : Op) (s : V8IsolateImpl) : V8IsolateImpl :=
  match op with
  | Op.callWithLockAsync callback => CallWithLockAsync callback s
  | Op.quitMessageLoopOnPause => quitMessageLoopOnPause s
  | Op.abortMessageLoop => AbortMessageLoop s
  | Op.connectDebugClient => ConnectDebugClient_callback s
  | Op.sendDebugCommand command => SendDebugCommand_callback command s
  | Op.disconnectDebugClient => DisconnectDebugClient_callback s

/-- The operations of a closure, performed in order. -/
def applyOps : List Op → V8IsolateImpl → V8IsolateImpl
  | [], s => s
  | op :: ops, s => applyOps ops (applyOp op s)

/-- A call of `Run()` on a task.  The body of a task is engine code; the call
is recorded. -/
def Task_Run (task : TaskId) (s : V8IsolateImpl) : V8IsolateImpl :=
  { s with taskRuns := s.taskRuns ++ [task] }

/-- The call `callWithLockQueue.front()(this)`: the closure is recorded as invoked,
a task wrapper calls `Run()` on its task, and the closure performs its operations;
the second component is the exception leaving the call, if any. -/
def invoke (env : Env) (cb : Callback) (s : V8IsolateImpl) : V8IsolateImpl × Option Thrown :=
  let outcome := env cb s
  let s1 := { s with invoked := s.invoked ++ [cb] }
  let s2 := match cb with
    | Callback.runTask task => Task_Run task s1
    | Callback.host _ => s1
  (applyOps outcome.ops s2, outcome.thrown)

/-- The handler `catch (...) { }`: whatever was raised is discarded. -/
def catchAll (r : V8IsolateImpl × Option Thrown) : V8IsolateImpl × Option Thrown :=
  (r.1, none)

/-- State of a drain when it returns or is left by an exception: the controller,
the local queue and the exception propagating out of the drain, if any. -/
structure Drain where
  self : V8IsolateImpl
  callWithLockQueue : List Callback
  thrown : Option Thrown
deriving DecidableEq, Repr

/-- `V8IsolateImpl::ProcessCallWithLockQueue(std::queue&)` (lines 1270-1284). -/
def ProcessCallWithLockQueue_queue (env : Env) :
    List Callback → V8IsolateImpl → Drain
  | [], s => { self := s, callWithLockQueue := [], thrown := none }
  | cb :: rest, s =>
    match catchAll (invoke env cb s) with
    | (s1, some e) => { self := s1, callWithLockQueue := cb :: rest, thrown := some e }
    | (s1, none) => ProcessCallWithLockQueue_queue env rest s1

/-- `V8IsolateImpl::ProcessCallWithLockQueue()` (lines 1240-1249): the queue is
swapped with an empty local queue, which is then drained once. -/
def ProcessCallWithLockQueue (env : Env) (s : V8IsolateImpl) : Drain :=
  let callWithLockQueue := s.m_CallWithLockQueue
  ProcessCallWithLockQueue_queue env callWithLockQueue { s with m_CallWithLockQueue := [] }

/-- The `while` loop of `ProcessCallWithLockQueue(std::unique_lock&)` entered with
local queue `callWithLockQueue`; one unit of fuel per iteration, `none` when the
fuel runs out before the loop ends. -/
def lockedDrainLoop (env : Env) : Nat → List Callback → V8IsolateImpl → Option Drain
  | _, [], s => some { self := s, callWithLockQueue := [], thrown := none }
  | 0, _ :: _, _ => none
  | fuel + 1, cb :: rest, s =>
    let r := ProcessCallWithLockQueue_queue env (cb :: rest) s
    match r.thrown with
    | some e => some { self := r.self, callWithLockQueue := r.callWithLockQueue, thrown := some e }
    | none =>
      lockedDrainLoop env fuel r.self.m_CallWithLockQueue
        { r.self with m_CallWithLockQueue := [] }

/-- `V8IsolateImpl::ProcessCallWithLockQueue(std::unique_lock&)` (lines 1253-1265).
Moving from `m_CallWithLockQueue` leaves it empty. -/
def ProcessCallWithLockQueue_lock (env : Env) (fuel : Nat) (s : V8IsolateImpl) : Option Drain :=
  lockedDrainLoop env fuel s.m_CallWithLockQueue { s with m_CallWithLockQueue := [] }

end V8IsolateImpl

/-- The total heap sizes returned by the two `GetHeapInfo` reads of one
`CheckHeapSize` call: the first read, and the read after the collection pass. -/
structure HeapReadings where
  beforeCollection : Nat
  afterCollection : Nat
deriving DecidableEq, Repr

/-- The constant `s_StackBreathingRoom` (line 298). -/
def s_StackBreathingRoom : Nat := 16 * 1024

/-- The constant `s_pMinStackLimit` (line 299): the address `sizeof(size_t)`. -/
def s_pMinStackLimit (W : Nat) : Nat := W

/-- Number of values of a `size_t` or of an address. -/
def wordModulus (W : Nat) : Nat := 2 ^ (8 * W)

/-- Pointer arithmetic `p - n` on a `size_t*`: the address moves down by `n` words
and wraps around the address space. -/
def ptrSub (W p n : Nat) : Nat :=
  (p + wordModulus W - (n * W) % wordModulus W) % wordModulus W

/-- The condition of the `_ASSERTE` at line 1374, with the pointer difference
counted in words. -/
def stackLimitSane (W pStackMarker pStackLimit : Nat) : Prop :=
  (pStackMarker - pStackLimit) / W ≥ s_StackBreathingRoom / W

/-- The fields of `V8Context::Options` read by `AddContext`. -/
structure V8ContextOptions where
  EnableDebugging : Bool := false
  EnableRemoteDebugging : Bool := false
  DebugPort : Int := 0
deriving DecidableEq, Repr

/-- The member functions and closures of the controller embedded in this file, as
operations on a controller that exists already. -/
inductive Operation
  | callWithLockAsync (callback : Option Callback)
  | callWithLockNoWait (tryLock : Bool) (callback : Callback)
  | processCallWithLockQueue
  | processCallWithLockQueueLocked (fuel : Nat)
  | runTaskAsync (pTask : TaskId)
  | runTaskAsyncNotification (task : TaskId)
  | runTaskDelayed (pTask : TaskId) (delay : Int)
  | runTaskDelayedCallback (pTimer : TaskTimer)
  | runTaskWithLockAsync (pTask : TaskId)
  | runTaskWithLockDelayed (pTask : TaskId) (delay : Int)
  | runTaskWithLockDelayedCallback (tryLock : Bool) (pTimer : TaskTimer)
  | disableDebugging
  | setMaxHeapSize (value : Nat)
  | setMaxStackUsage (value : Nat)
  | checkHeapSize (maxHeapSize : Nat) (heap : HeapReadings)
  | setUpHeapWatchTimer (maxHeapSize : Nat)
  | enterExecutionScope (W pExecutionScope pStackMarker : Nat) (heap : HeapReadings)
  | exitExecutionScope (W pPreviousExecutionScope : Nat)
  | destructor
  | enableDebugging (port : Int) (remote : Bool)
  | addContext (pContextImpl : Nat) (options : V8ContextOptions)
  | removeContext (pContextImpl : Nat)
  | compile
  | connectDebugClientCallback
  | sendDebugCommandCallback (command : Nat)
  | disconnectDebugClientCallback
  | quitMessageLoopOnPause
  | abortMessageLoop
  | runMessageLoop (fuel : Nat) (awaitingDebugger : Bool) (wakeups : List (List Op))
  | awaitDebuggerAndPause (fuel : Nat) (wakeups : List (List Op))

namespace V8IsolateImpl

/-- Modelled from the spec: the class `Scope` behind `BEGIN_ISOLATE_SCOPE` is
declared in the class header.  The destructor documents (lines 1130-1131) that
entering the isolate scope triggers call-with-lock queue processing; the execution
lock it takes is not represented. -/
def Scope_enter (env : Env) (s : V8IsolateImpl) : V8IsolateImpl :=
  (ProcessCallWithLockQueue env s).self

/-- Modelled from the spec: `NativeScope` behind `BEGIN_ISOLATE_NATIVE_SCOPE` is
declared in the class header; the spec has `CallWithLockNoWait` "enter the
context, run `fn` synchronously, return". -/
def NativeScope_enter (s : V8IsolateImpl) : V8IsolateImpl := s

/-- Modelled from the spec: `LowMemoryNotification` is declared in the class
header; the spec has it "force an exhaustive/low-memory collection pass". -/
def LowMemoryNotification (s : V8IsolateImpl) : V8IsolateImpl :=
  { s with lowMemoryNotifications := s.lowMemoryNotifications + 1 }

/-- Modelled from the spec: `TerminateExecution` is declared in the class header;
the spec has it "request execution termination". -/
def TerminateExecution (s : V8IsolateImpl) : V8IsolateImpl :=
  { s with
    terminateExecutionCalls := s.terminateExecutionCalls + 1
    terminationPending := true }

/-- Modelled from the spec: `CancelTerminateExecution` is declared in the class
header; the spec has exit "cancel any pending terminate-execution request". -/
def CancelTerminateExecution (s : V8IsolateImpl) : V8IsolateImpl :=
  { s with
    cancelTerminateExecutionCalls := s.cancelTerminateExecutionCalls + 1
    terminationPending := false }

/-- `V8IsolateImpl::DisableDebugging` (lines 454-466). -/
def DisableDebugging (s : V8IsolateImpl) : V8IsolateImpl :=
  if s.m_DebuggingEnabled then
    { s with
      m_spInspectorSession := false
      m_spInspector := false
      destroyedDebugAgents := s.destroyedDebugAgents ++ [s.m_pvDebugAgent]
      m_DebuggingEnabled := false }
  else s

/-- `V8IsolateImpl::GetMaxHeapSize` (lines 470-473). -/
def GetMaxHeapSize (s : V8IsolateImpl) : Nat := s.m_MaxHeapSize

/-- `V8IsolateImpl::SetMaxHeapSize` (lines 477-481). -/
def SetMaxHeapSize (value : Nat) (s : V8IsolateImpl) : V8IsolateImpl :=
  { s with m_MaxHeapSize := value, m_IsOutOfMemory := false }

/-- `V8IsolateImpl::SetMaxStackUsage` (lines 506-509). -/
def SetMaxStackUsage (value : Nat) (s : V8IsolateImpl) : V8IsolateImpl :=
  { s with m_MaxStackUsage := value }

/-- `V8IsolateImpl::GetHeapInfo` (lines 573-589), as far as the controller is
concerned: the isolate scope is entered; the statistics read from the engine are
an input of the caller. -/
def GetHeapInfo (env : Env) (s : V8IsolateImpl) : V8IsolateImpl :=
  Scope_enter env s

/-- `V8IsolateImpl::RunTaskAsync` (lines 898-933).  On the queueing branch the
notification closure is handed to `HostObjectHelpers::QueueNativeCallback`. -/
def RunTaskAsync (pTask : TaskId) (s : V8IsolateImpl) : V8IsolateImpl :=
  if s.m_Released then
    let s1 := Task_Run pTask s
    { s1 with taskDeletes := s1.taskDeletes ++ [pTask] }
  else
    { s with
      m_AsyncTasks := s.m_AsyncTasks ++ [pTask]
      nativeCallbacks := s.nativeCallbacks ++ [pTask] }

/-- The notification closure built by `RunTaskAsync` (lines 915-931).
`wrIsolate.GetTarget()` is non-empty while the controller is alive; `wpTask.lock()`
succeeds while the holding list still owns the task. -/
def RunTaskAsync_notification (task : TaskId) (s : V8IsolateImpl) : V8IsolateImpl :=
  if s.weakTargetAlive then
    if task ∈ s.m_AsyncTasks then
      let s1 := Task_Run task s
      { s1 with m_AsyncTasks := s1.m_AsyncTasks.filter (fun t => t ≠ task) }
    else s
  else s

/-- `V8IsolateImpl::RunTaskDelayed` (lines 937-994); `delay` is
`static_cast<int>(delayInSeconds * 1000)`.  The timer is pushed on
`m_TaskTimers` and then started. -/
def RunTaskDelayed (pTask : TaskId) (delay : Int) (s : V8IsolateImpl) : V8IsolateImpl :=
  if s.m_Released then
    { s with taskDeletes := s.taskDeletes ++ [pTask] }
  else
    let spTimer : TaskTimer :=
      { id := s.timersCreated, delay := delay, withLock := false
        spTask := some pTask, started := false }
    { s with
      timersCreated := s.timersCreated + 1
      m_TaskTimers := s.m_TaskTimers ++ [{ spTimer with started := true }] }

/-- The call `spTask->Run()` that a timer callback makes itself (line 955), with
what the task does: the call is recorded, the task performs its operations, and
the second component is the exception leaving the call, if any.  What a task does
is what `env` gives for its wrapper closure
`[spTask] (V8IsolateImpl*) { spTask->Run(); }`, which does nothing but this
call. -/
def runTaskDirect (env : Env) (task : TaskId) (s : V8IsolateImpl) :
    V8IsolateImpl × Option Thrown :=
  let outcome := env (Callback.runTask task) s
  (applyOps outcome.ops (Task_Run task s), outcome.thrown)

/-- The timer callback built by `RunTaskDelayed` (lines 948-977), fired on timer
`pTimer`; returns the timer with its captured task reference updated, the
controller, and the exception leaving the callback, if any.  The callback has no
handler: when `spTask->Run()` raises, `spTask.reset()` and the removal of the
timer are skipped. -/
def RunTaskDelayed_callback (env : Env) (pTimer : TaskTimer) (s : V8IsolateImpl) :
    TaskTimer × V8IsolateImpl × Option Thrown :=
  match pTimer.spTask with
  | none => (pTimer, s, none)
  | some task =>
    if s.weakTargetAlive then
      match runTaskDirect env task s with
      | (s1, some e) => (pTimer, s1, some e)
      | (s1, none) =>
        ({ pTimer with spTask := none },
          { s1 with m_TaskTimers := s1.m_TaskTimers.filter (fun t => t.id ≠ pTimer.id) },
          none)
    else
      ({ pTimer with spTask := none }, s, none)

/-- `V8IsolateImpl::RunTaskWithLockAsync` (lines 998-1013). -/
def RunTaskWithLockAsync (pTask : TaskId) (s : V8IsolateImpl) : V8IsolateImpl :=
  if s.m_Released then
    let s1 := Task_Run pTask s
    { s1 with taskDeletes := s1.taskDeletes ++ [pTask] }
  else
    CallWithLockAsync (some (Callback.runTask pTask)) s

/-- `V8IsolateImpl::RunTaskWithLockDelayed` (lines 1017-1077). -/
def RunTaskWithLockDelayed (pTask : TaskId) (delay : Int) (s : V8IsolateImpl) :
    V8IsolateImpl :=
  if s.m_Released then
    { s with taskDeletes := s.taskDeletes ++ [pTask] }
  else
    let spTimer : TaskTimer :=
      { id := s.timersCreated, delay := delay, withLock := true
        spTask := some pTask, started := false }
    { s with
      timersCreated := s.timersCreated + 1
      m_TaskTimers := s.m_TaskTimers ++ [{ spTimer with started := true }] }

/-- `V8IsolateImpl::CallWithLockNoWait` (lines 1097-1113) for a non-empty
`callback`; `tryLock` is the result of `m_Mutex.TryLock()`.  An exception raised
by the callback on the direct path leaves the function. -/
def CallWithLockNoWait (env : Env) (tryLock : Bool) (callback : Callback)
    (s : V8IsolateImpl) : V8IsolateImpl × Option Thrown :=
  if tryLock then
    invoke env callback (NativeScope_enter s)
  else
    (CallWithLockAsync (some callback) s, none)

/-- The timer callback built by `RunTaskWithLockDelayed` (lines 1028-1060), fired
on timer `pTimer`.  When `CallWithLockNoWait` raises, the statements after it are
skipped. -/
def RunTaskWithLockDelayed_callback (env : Env) (tryLock : Bool) (pTimer : TaskTimer)
    (s : V8IsolateImpl) : TaskTimer × V8IsolateImpl × Option Thrown :=
  match pTimer.spTask with
  | none => (pTimer, s, none)
  | some task =>
    if s.weakTargetAlive then
      match CallWithLockNoWait env tryLock (Callback.runTask task) s with
      | (s1, some e) => (pTimer, s1, some e)
      | (s1, none) =>
        ({ pTimer with spTask := none },
          { s1 with m_TaskTimers := s1.m_TaskTimers.filter (fun t => t.id ≠ pTimer.id) },
          none)
    else
      ({ pTimer with spTask := none }, s, none)

/-- The loop `for (const auto& spTask : asyncTasks) spTask->Run();` of the
destructor (lines 1146-1149). -/
def runAsyncTasks : List TaskId → V8IsolateImpl → V8IsolateImpl
  | [], s => s
  | spTask :: rest, s => runAsyncTasks rest (Task_Run spTask s)

/-- `V8IsolateImpl::~V8IsolateImpl` (lines 1125-1160).  The destructor runs when
the last strong reference is gone, so weak references have no target from its
start on. -/
def Destructor (env : Env) (s : V8IsolateImpl) : V8IsolateImpl :=
  let s1 := { s with
    s_InstanceCount := s.s_InstanceCount - 1
    m_Released := true
    weakTargetAlive := false }
  let s2 := DisableDebugging (Scope_enter env s1)
  let asyncTasks := s2.m_AsyncTasks
  let s3 := { s2 with m_AsyncTasks := [], m_TaskTimers := [] }
  let s4 := runAsyncTasks asyncTasks s3
  { s4 with
    hostObjectHolderKeyDisposed := true
    beforeCallEnteredCallbackInstalled := false
    profilerDisposed := s4.m_pProfiler
    isolateDisposed := true }

/-- `V8IsolateImpl::SetUpHeapWatchTimer` (lines 1449-1478): a new timer replaces
the held one and is started. -/
def SetUpHeapWatchTimer (maxHeapSize : Nat) (s : V8IsolateImpl) : V8IsolateImpl :=
  { s with
    m_spHeapWatchTimer :=
      some { id := s.timersCreated, maxHeapSize := maxHeapSize, started := true }
    timersCreated := s.timersCreated + 1
    heapWatchTimersStarted := s.heapWatchTimersStarted + 1 }

/-- `V8IsolateImpl::CheckHeapSize` (lines 1482-1507); `heap` gives the totals that
the two `GetHeapInfo` calls read. -/
def CheckHeapSize (env : Env) (maxHeapSize : Nat) (heap : HeapReadings)
    (s : V8IsolateImpl) : V8IsolateImpl :=
  let s0 := { s with checkHeapSizeCalls := s.checkHeapSizeCalls + 1 }
  let s1 := GetHeapInfo env s0
  if heap.beforeCollection > maxHeapSize then
    let s2 := LowMemoryNotification s1
    let s3 := GetHeapInfo env s2
    if heap.afterCollection > maxHeapSize then
      TerminateExecution { s3 with m_IsOutOfMemory := true }
    else
      SetUpHeapWatchTimer maxHeapSize s3
  else
    SetUpHeapWatchTimer maxHeapSize s1

/-- The stack address limit computed on outermost entry (lines 1361-1370) from the
stack marker and the configured, non-zero `m_MaxStackUsage`. -/
def stackLimitFor (W pStackMarker maxStackUsage : Nat) : Nat :=
  let maxStackUsage := max maxStackUsage s_StackBreathingRoom
  let pStackLimit := ptrSub W pStackMarker (maxStackUsage / W)
  if pStackLimit < s_pMinStackLimit W ∨ pStackLimit > pStackMarker then
    s_pMinStackLimit W
  else
    pStackLimit

/-- The exception thrown at line 1391. -/
def stackLimitExceeded (s : V8IsolateImpl) : V8Exception :=
  { type := V8ExceptionType.General
    engineName := s.m_Name
    message := "The V8 runtime has exceeded its stack usage limit"
    executionStarted := false }

/-- The heap part of `EnterExecutionScope` (lines 1328-1349). -/
def enterHeapWatch (env : Env) (heap : HeapReadings) (s : V8IsolateImpl) : V8IsolateImpl :=
  if s.m_HeapWatchLevel = 0 then
    let maxHeapSize := s.m_MaxHeapSize
    if maxHeapSize > 0 then
      { CheckHeapSize env maxHeapSize heap s with m_HeapWatchLevel := 1 }
    else s
  else
    { s with m_HeapWatchLevel := s.m_HeapWatchLevel + 1 }

/-- The end of `EnterExecutionScope` (lines 1398-1404). -/
def markExecutionScope (pExecutionScope : Nat) (s : V8IsolateImpl) :
    V8IsolateImpl × Except V8Exception Nat :=
  ({ s with m_IsExecutionTerminating := false, m_pExecutionScope := pExecutionScope },
    Except.ok s.m_pExecutionScope)

/-- `V8IsolateImpl::EnterExecutionScope` (lines 1324-1405).  Returns the controller
and either the previous execution scope or the exception thrown. -/
def EnterExecutionScope (W : Nat) (env : Env) (pExecutionScope pStackMarker : Nat)
    (heap : HeapReadings) (s : V8IsolateImpl) : V8IsolateImpl × Except V8Exception Nat :=
  let s1 := enterHeapWatch env heap s
  if s1.m_StackWatchLevel = 0 then
    let maxStackUsage := s1.m_MaxStackUsage
    if maxStackUsage > 0 then
      let pStackLimit := stackLimitFor W pStackMarker maxStackUsage
      markExecutionScope pExecutionScope
        { s1 with
          setStackLimitCalls := s1.setStackLimitCalls ++ [pStackLimit]
          m_pStackLimit := pStackLimit
          m_StackWatchLevel := 1 }
    else
      markExecutionScope pExecutionScope s1
  else
    if s1.m_pStackLimit ≠ 0 ∧ pStackMarker < s1.m_pStackLimit then
      (s1, Except.error (stackLimitExceeded s1))
    else
      markExecutionScope pExecutionScope
        { s1 with m_StackWatchLevel := s1.m_StackWatchLevel + 1 }

/-- The stack part of `ExitExecutionScope` (lines 1419-1433). -/
def exitStackWatch (W : Nat) (s : V8IsolateImpl) : V8IsolateImpl :=
  if s.m_StackWatchLevel > 0 then
    let s1 : V8IsolateImpl := { s with m_StackWatchLevel := s.m_StackWatchLevel - 1 }
    if s1.m_StackWatchLevel = 0 then
      if s1.m_pStackLimit ≠ 0 then
        { s1 with
          setStackLimitCalls := s1.setStackLimitCalls ++ [s_pMinStackLimit W]
          m_pStackLimit := 0 }
      else s1
    else s1
  else s

/-- The heap part of `ExitExecutionScope` (lines 1435-1444). -/
def exitHeapWatch (s : V8IsolateImpl) : V8IsolateImpl :=
  if s.m_HeapWatchLevel > 0 then
    let s1 : V8IsolateImpl := { s with m_HeapWatchLevel := s.m_HeapWatchLevel - 1 }
    if s1.m_HeapWatchLevel = 0 then
      { s1 with
        m_spHeapWatchTimer := none
        heapWatchTimerEmptyCalls := s1.heapWatchTimerEmptyCalls + 1 }
    else s1
  else s

/-- `V8IsolateImpl::ExitExecutionScope` (lines 1409-1445). -/
def ExitExecutionScope (W : Nat) (pPreviousExecutionScope : Nat) (s : V8IsolateImpl) :
    V8IsolateImpl :=
  exitHeapWatch (exitStackWatch W
    (CancelTerminateExecution { s with m_pExecutionScope := pPreviousExecutionScope }))

/-- `V8IsolateImpl::EnableDebugging` (lines 410-450).  The debug agent created
takes the next free address; the version string passed to it is not represented. -/
def EnableDebugging (port : Int) (remote : Bool) (s : V8IsolateImpl) : V8IsolateImpl :=
  if !s.m_DebuggingEnabled then
    let port := if port < 1 then 9222 else port
    { s with
      m_pvDebugAgent := s.createdDebugAgents.length + 1
      createdDebugAgents := s.createdDebugAgents ++ [(port, remote)]
      m_spInspector := true
      createdInspectors := s.createdInspectors + 1
      m_DebuggingEnabled := true
      m_DebugPort := port }
  else s

/-- The end of `AddContext` (lines 388-391): the inspector, when there is one, is
told of the new context. -/
def announceContext (pContextImpl : Nat) (s : V8IsolateImpl) : V8IsolateImpl :=
  if s.m_spInspector then
    { s with contextCreatedCalls := s.contextCreatedCalls ++ [pContextImpl] }
  else s

/-- `V8IsolateImpl::AddContext` (lines 374-392). -/
def AddContext (pContextImpl : Nat) (options : V8ContextOptions) (s : V8IsolateImpl) :
    V8IsolateImpl :=
  if !options.EnableDebugging then
    announceContext pContextImpl { s with m_ContextPtrs := s.m_ContextPtrs ++ [pContextImpl] }
  else
    announceContext pContextImpl
      (EnableDebugging options.DebugPort options.EnableRemoteDebugging
        { s with m_ContextPtrs := pContextImpl :: s.m_ContextPtrs })

/-- `V8IsolateImpl::RemoveContext` (lines 396-406); `std::list::remove` erases
every element equal to the argument. -/
def RemoveContext (pContextImpl : Nat) (s : V8IsolateImpl) : V8IsolateImpl :=
  let s1 : V8IsolateImpl :=
    if s.m_spInspector then
      { s with contextDestroyedCalls := s.contextDestroyedCalls ++ [pContextImpl] }
    else s
  { s1 with m_ContextPtrs := s1.m_ContextPtrs.filter (fun p => p ≠ pContextImpl) }

/-- The context a `Compile` call compiles in (lines 541, 553, 565): the front of
`m_ContextPtrs`, or `none` for a `new V8ContextImpl(this)` made for the call. -/
def compileContext (s : V8IsolateImpl) : Option Nat :=
  if s.m_ContextPtrs.length > 0 then s.m_ContextPtrs.head? else none

/-- `V8IsolateImpl::Compile` (lines 537-545, and the two overloads after it) as far
as the controller is concerned: the isolate scope is entered and the context to
compile in is chosen; compilation itself is the engine's. -/
def Compile (env : Env) (s : V8IsolateImpl) : V8IsolateImpl × Option Nat :=
  let s1 := Scope_enter env s
  (s1, compileContext s1)

/-- `V8IsolateImpl::ensureDefaultContextInGroup` (lines 810-820): the front context,
or `none` when the call is passed on to the base class. -/
def ensureDefaultContextInGroup (s : V8IsolateImpl) : Option Nat :=
  if s.m_ContextPtrs.length > 0 then s.m_ContextPtrs.head? else none

/-- The `while (true)` loop of `RunMessageLoop` (lines 1180-1189).  Each element of
the wake-up list is one return of `wait(lock)` and lists what other threads did to
the controller while the loop was blocked; when the list is used up the loop
stays blocked and the result is `none`, as it is when a drain runs out of `fuel`. -/
def messageLoop (env : Env) (fuel : Nat) : List (List Op) → V8IsolateImpl → Option Drain
  | [], _ => none
  | wake :: rest, s =>
    let s1 := applyOps wake { s with waitCalls := s.waitCalls + 1 }
    match ProcessCallWithLockQueue_lock env fuel s1 with
    | none => none
    | some r =>
      match r.thrown with
      | some e => some { self := r.self, callWithLockQueue := r.callWithLockQueue, thrown := some e }
      | none =>
        if r.self.m_QuitMessageLoop || r.self.m_AbortMessageLoop then
          some r
        else
          messageLoop env fuel rest r.self

/-- What a `RunMessageLoop` call leaves: the controller, the value returned, and
the exception leaving the call instead, if any. -/
structure LoopRun where
  self : V8IsolateImpl
  result : Bool
  thrown : Option Thrown
deriving DecidableEq, Repr

/-- Modelled from the spec: the macro `END_PULSE_VALUE_SCOPE` is defined outside the
source file; the spec has the flag "restored on exit".  The two scopes of
`RunMessageLoop` end, inner first, and put back the values saved on entry. -/
def endPulseValueScopes (inMessageLoop awaitingDebugger : Bool) (s : V8IsolateImpl) :
    V8IsolateImpl :=
  { { s with m_InMessageLoop := inMessageLoop } with m_AwaitingDebugger := awaitingDebugger }

/-- `V8IsolateImpl::RunMessageLoop` (lines 1164-1199); `none` when the call does not
return. -/
def RunMessageLoop (env : Env) (fuel : Nat) (awaitingDebugger : Bool)
    (wakeups : List (List Op)) (s : V8IsolateImpl) : Option LoopRun :=
  if !s.m_InMessageLoop then
    let s1 : V8IsolateImpl := { s with m_QuitMessageLoop := false, m_AbortMessageLoop := false }
    let awaitingDebuggerSaved := s1.m_AwaitingDebugger
    let s2 : V8IsolateImpl := { s1 with m_AwaitingDebugger := awaitingDebugger }
    let inMessageLoopSaved := s2.m_InMessageLoop
    let s3 : V8IsolateImpl := { s2 with m_InMessageLoop := true }
    match ProcessCallWithLockQueue_lock env fuel s3 with
    | none => none
    | some r0 =>
      match r0.thrown with
      | some e =>
        some { self := endPulseValueScopes inMessageLoopSaved awaitingDebuggerSaved r0.self
               result := false, thrown := some e }
      | none =>
        match messageLoop env fuel wakeups r0.self with
        | none => none
        | some r1 =>
          match r1.thrown with
          | some e =>
            some { self := endPulseValueScopes inMessageLoopSaved awaitingDebuggerSaved r1.self
                   result := false, thrown := some e }
          | none =>
            match ProcessCallWithLockQueue_lock env fuel
                (endPulseValueScopes inMessageLoopSaved awaitingDebuggerSaved r1.self) with
            | none => none
            | some r2 =>
              some { self := r2.self, result := r2.self.m_QuitMessageLoop, thrown := r2.thrown }
  else
    some { self := s, result := false, thrown := none }

/-- `V8IsolateImpl::runMessageLoopOnPause` (lines 786-789). -/
def runMessageLoopOnPause (env : Env) (fuel : Nat) (wakeups : List (List Op))
    (s : V8IsolateImpl) : Option LoopRun :=
  RunMessageLoop env fuel false wakeups s

/-- The exception thrown at line 521. -/
def awaitInterrupted (s : V8IsolateImpl) : V8Exception :=
  { type := V8ExceptionType.Interrupt
    engineName := s.m_Name
    message := "Script execution interrupted by host while awaiting debugger connection"
    executionStarted := false }

/-- Lines 524-529 of `AwaitDebuggerAndPause`: a pause on the next statement is
scheduled when a session exists. -/
def schedulePause (s : V8IsolateImpl) : V8IsolateImpl :=
  if s.m_spInspectorSession then
    { s with scheduledPauses := s.scheduledPauses + 1 }
  else s

/-- `V8IsolateImpl::AwaitDebuggerAndPause` (lines 513-533); `none` when the call
does not return, otherwise the controller and the exception thrown, if any. -/
def AwaitDebuggerAndPause (env : Env) (fuel : Nat) (wakeups : List (List Op))
    (s : V8IsolateImpl) : Option (V8IsolateImpl × Option Thrown) :=
  let s1 := Scope_enter env s
  if s1.m_DebuggingEnabled then
    if !s1.m_spInspectorSession then
      match RunMessageLoop env fuel true wakeups s1 with
      | none => none
      | some r =>
        match r.thrown with
        | some e => some (r.self, some e)
        | none =>
          if !r.result then
            some (r.self, some (Thrown.v8 (awaitInterrupted r.self)))
          else
            some (schedulePause r.self, none)
    else
      some (schedulePause s1, none)
  else
    some (s1, none)

/-- The state `s2` differs from `s1` at most in the scheduler fields: the queue,
the invocation and submission records, the wake-up counters and the task-run
record. -/
def SchedulerFrame (s1 s2 : V8IsolateImpl) : Prop :=
  s2 = { s1 with
    m_CallWithLockQueue := s2.m_CallWithLockQueue
    invoked := s2.invoked
    accepted := s2.accepted
    interruptRequests := s2.interruptRequests
    notifyCalls := s2.notifyCalls
    taskRuns := s2.taskRuns }

/-- The state `s2` differs from `s1` at most in the scheduler fields, in the quit
and abort flags of the message loop, and in the debug session with its records:
what running closures can change. -/
def LoopFrame (s1 s2 : V8IsolateImpl) : Prop :=
  s2 = { s1 with
    m_CallWithLockQueue := s2.m_CallWithLockQueue
    invoked := s2.invoked
    accepted := s2.accepted
    interruptRequests := s2.interruptRequests
    notifyCalls := s2.notifyCalls
    taskRuns := s2.taskRuns
    m_QuitMessageLoop := s2.m_QuitMessageLoop
    m_AbortMessageLoop := s2.m_AbortMessageLoop
    waitCalls := s2.waitCalls
    m_spInspectorSession := s2.m_spInspectorSession
    connectedSessions := s2.connectedSessions
    dispatchedCommands := s2.dispatchedCommands }

/-- Number of interrupts requested outside the message loop while `subs` is pushed
onto `queue`: one, for the push that makes the queue size `1`. -/
def interruptsFor (queue subs : List Callback) : Nat :=
  if queue = [] ∧ subs ≠ [] then 1 else 0

/-- The tasks run by the task wrappers among a list of closures. -/
def tasksOf : List Callback → List TaskId
  | [] => []
  | Callback.runTask task :: rest => task :: tasksOf rest
  | Callback.host _ :: rest => tasksOf rest

/-- Effect of a batch of submissions `subs` on the scheduler fields of `s1`. -/
structure Submitted (s1 s2 : V8IsolateImpl) (subs : List Callback) : Prop where
  queue : s2.m_CallWithLockQueue = s1.m_CallWithLockQueue ++ subs
  accepted : s2.accepted = s1.accepted ++ subs
  notifyCalls : s2.notifyCalls =
    if s1.m_InMessageLoop then s1.notifyCalls + subs.length else s1.notifyCalls
  interruptRequests : s2.interruptRequests =
    if s1.m_InMessageLoop then s1.interruptRequests
    else s1.interruptRequests + interruptsFor s1.m_CallWithLockQueue subs

/-- The controller after an operation; `none` when the message-loop drain does not
return within its fuel. -/
def perform (env : Env) (op : Operation) (s : V8IsolateImpl) : Option V8IsolateImpl :=
  match op with
  | Operation.callWithLockAsync callback => some (CallWithLockAsync callback s)
  | Operation.callWithLockNoWait tryLock callback =>
    some (CallWithLockNoWait env tryLock callback s).1
  | Operation.processCallWithLockQueue => some (ProcessCallWithLockQueue env s).self
  | Operation.processCallWithLockQueueLocked fuel =>
    (ProcessCallWithLockQueue_lock env fuel s).map (fun r => r.self)
  | Operation.runTaskAsync pTask => some (RunTaskAsync pTask s)
  | Operation.runTaskAsyncNotification task => some (RunTaskAsync_notification task s)
  | Operation.runTaskDelayed pTask delay => some (RunTaskDelayed pTask delay s)
  | Operation.runTaskDelayedCallback pTimer => some (RunTaskDelayed_callback env pTimer s).2.1
  | Operation.runTaskWithLockAsync pTask => some (RunTaskWithLockAsync pTask s)
  | Operation.runTaskWithLockDelayed pTask delay => some (RunTaskWithLockDelayed pTask delay s)
  | Operation.runTaskWithLockDelayedCallback tryLock pTimer =>
    some (RunTaskWithLockDelayed_callback env tryLock pTimer s).2.1
  | Operation.disableDebugging => some (DisableDebugging s)
  | Operation.setMaxHeapSize value => some (SetMaxHeapSize value s)
  | Operation.setMaxStackUsage value => some (SetMaxStackUsage value s)
  | Operation.checkHeapSize maxHeapSize heap => some (CheckHeapSize env maxHeapSize heap s)
  | Operation.setUpHeapWatchTimer maxHeapSize => some (SetUpHeapWatchTimer maxHeapSize s)
  | Operation.enterExecutionScope W pExecutionScope pStackMarker heap =>
    some (EnterExecutionScope W env pExecutionScope pStackMarker heap s).1
  | Operation.exitExecutionScope W pPreviousExecutionScope =>
    some (ExitExecutionScope W pPreviousExecutionScope s)
  | Operation.destructor => some (Destructor env s)
  | Operation.enableDebugging port remote => some (EnableDebugging port remote s)
  | Operation.addContext pContextImpl options => some (AddContext pContextImpl options s)
  | Operation.removeContext pContextImpl => some (RemoveContext pContextImpl s)
  | Operation.compile => some (Compile env s).1
  | Operation.connectDebugClientCallback => some (ConnectDebugClient_callback s)
  | Operation.sendDebugCommandCallback command => some (SendDebugCommand_callback command s)
  | Operation.disconnectDebugClientCallback => some (DisconnectDebugClient_callback s)
  | Operation.quitMessageLoopOnPause => some (quitMessageLoopOnPause s)
  | Operation.abortMessageLoop => some (AbortMessageLoop s)
  | Operation.runMessageLoop fuel awaitingDebugger wakeups =>
    (RunMessageLoop env fuel awaitingDebugger wakeups s).map (fun r => r.self)
  | Operation.awaitDebuggerAndPause fuel wakeups =>
    (AwaitDebuggerAndPause env fuel wakeups s).map (fun r => r.1)

/-- The controller after a sequence of operations. -/
def performAll (env : Env) : List Operation → V8IsolateImpl → Option V8IsolateImpl
  | [], s => some s
  | op :: ops, s =>
    match perform env op s with
    | none => none
    | some s1 => performAll env ops s1

/-- The arguments of one `EnterExecutionScope` call together with the heap totals
the engine reports during it. -/
structure Entry where
  pExecutionScope : Nat
  pStackMarker : Nat
  heap : HeapReadings
deriving DecidableEq, Repr

/-- Nested `EnterExecutionScope` calls, one per entry, outermost first; stops at the
first call that throws.  Returns the controller, the number of calls that
returned, and the exception thrown, if any. -/
def enterAll (W : Nat) (env : Env) : List Entry → V8IsolateImpl →
    V8IsolateImpl × Nat × Option V8Exception
  | [], s => (s, 0, none)
  | e :: es, s =>
    match EnterExecutionScope W env e.pExecutionScope e.pStackMarker e.heap s with
    | (s1, Except.error ex) => (s1, 0, some ex)
    | (s1, Except.ok _) =>
      let r := enterAll W env es s1
      (r.1, r.2.1 + 1, r.2.2)

/-- Successive `ExitExecutionScope` calls, one per saved previous scope. -/
def exitAll (W : Nat) : List Nat → V8IsolateImpl → V8IsolateImpl
  | [], s => s
  | pPreviousExecutionScope :: rest, s =>
    exitAll W rest (ExitExecutionScope W pPreviousExecutionScope s)

/-- The debugging members of the controller: whether debugging is enabled, whether
an inspector exists and whether a session is attached. -/
def debugFields (s : V8IsolateImpl) : Bool × Bool × Bool :=
  (s.m_DebuggingEnabled, s.m_spInspector, s.m_spInspectorSession)

/-- While debugging is not enabled there is neither an inspector nor a session. -/
def DebugConsistent (s : V8IsolateImpl) : Prop :=
  s.m_DebuggingEnabled = false → s.m_spInspector = false ∧ s.m_spInspectorSession = false

/-! ### CPU profile output (`writeEscapedString`, `StopCpuProfiler`)

The stream is the list of the characters written so far.  A C string is the list
of the characters found at the pointer; reading stops at the first NUL, and a
list without one stands for a string whose terminator follows its last
character.  A `char` written to the wide stream is widened one to one, which the
model renders as the same `Char`. -/

/-- The characters of a literal as the stream receives them. -/
def text (literal : String) : List Char := literal.data

/-- The decimal text the stream writes for an unsigned number. -/
def decimal (value : Nat) : List Char := (toString value).data

/-- The decimal text the stream writes for a signed number. -/
def decimalInt (value : Int) : List Char := (toString value).data

/-- The terminator of a C string. -/
def NUL : Char := Char.ofNat 0

/-- The double-quote character. -/
def quoteChar : Char := Char.ofNat 34

/-- The backslash character. -/
def backslashChar : Char := Char.ofNat 92

/-- Source lines 637-654: the loop walks `string` up to its terminator; a double
quote is written as backslash and quote, a backslash as two backslashes, every
other character as itself.  The `int` index is the position in the list; it is
not bounded here, which is exact for strings shorter than 2^31 characters. -/
def writeEscapedString (stream : List Char) : List Char → List Char
  | [] => stream
  | c :: string =>
    if c = NUL then stream
    else if c = quoteChar then
      writeEscapedString (stream ++ [backslashChar, quoteChar]) string
    else if c = backslashChar then
      writeEscapedString (stream ++ [backslashChar, backslashChar]) string
    else writeEscapedString (stream ++ [c]) string

/-- The characters of a C string before its terminator. -/
def cString (string : List Char) : List Char := string.takeWhile (fun c => c ≠ NUL)

/-- The escape of one character in the words of the specification. -/
def escapeChar (c : Char) : List Char :=
  if c = quoteChar then [backslashChar, quoteChar]
  else if c = backslashChar then [backslashChar, backslashChar]
  else [c]

/-- The escaped string in the words of the specification: every character
replaced by its escape, in order. -/
def escapeSpec (s : List Char) : List Char := s.flatMap escapeChar

/-- Reading back: a backslash and the character after it are replaced by that
second character; every other character is kept. -/
def unescapeSpec : List Char → List Char
  | [] => []
  | [c] => [c]
  | c :: d :: rest =>
    if c = backslashChar then d :: unescapeSpec rest else c :: unescapeSpec (d :: rest)

/-- One entry of the line-tick buffer (`v8::CpuProfileNode::LineTick`). -/
structure LineTick where
  line : Int
  hit_count : Nat

/-- What `StopCpuProfiler` reads from one `v8::CpuProfileNode` apart from its
children; `GetBailoutReason` is `none` for a null pointer, and `lineTicks` is what
`GetLineTicks` stores in the buffer, `GetHitLineCount` entries. -/
structure CpuProfileNodeInfo where
  GetNodeId : Nat
  GetFunctionNameStr : List Char
  GetScriptId : Int
  GetScriptResourceNameStr : List Char
  GetLineNumber : Int
  GetColumnNumber : Int
  GetHitCount : Nat
  GetBailoutReason : Option (List Char)
  lineTicks : List LineTick

/-- A node of the profile tree with its children in `GetChild` order. -/
inductive CpuProfileNode where
  | mk (info : CpuProfileNodeInfo) (children : List CpuProfileNode)

/-- The data of a node. -/
def CpuProfileNode.info : CpuProfileNode → CpuProfileNodeInfo
  | .mk info _ => info

/-- The children of a node: `GetChild 0`, ..., `GetChild (GetChildrenCount - 1)`. -/
def CpuProfileNode.children : CpuProfileNode → List CpuProfileNode
  | .mk _ children => children

/-- The id of a node. -/
def CpuProfileNode.GetNodeId (node : CpuProfileNode) : Nat := node.info.GetNodeId

mutual
/-- The number of nodes of the tree under a node, the node included. -/
def CpuProfileNode.count : CpuProfileNode → Nat
  | .mk _ children => 1 + countNodes children
/-- The number of nodes of the trees under a list of nodes. -/
def countNodes : List CpuProfileNode → Nat
  | [] => 0
  | node :: rest => node.count + countNodes rest
end

mutual
/-- The number of levels of the tree under a node. -/
def CpuProfileNode.height : CpuProfileNode → Nat
  | .mk _ children => 1 + heightNodes children
/-- The largest height among a list of nodes. -/
def heightNodes : List CpuProfileNode → Nat
  | [] => 0
  | node :: rest => max node.height (heightNodes rest)
end

mutual
/-- Every node of the tree under a node, the node first, then the nodes of each
child tree in turn. -/
def CpuProfileNode.preorder : CpuProfileNode → List CpuProfileNode
  | .mk info children => .mk info children :: preorderNodes children
/-- Every node of the trees under a list of nodes. -/
def preorderNodes : List CpuProfileNode → List CpuProfileNode
  | [] => []
  | node :: rest => node.preorder ++ preorderNodes rest
end

/-- One sample of the profile: the id of the node `GetSample i` and
`GetSampleTimestamp i`. -/
structure CpuProfileSample where
  GetNodeId : Nat
  GetSampleTimestamp : Int

/-- What `StopCpuProfiler` reads from the `v8::CpuProfile` that `StopProfiling`
returns; `GetSamplesCount` is the length of `samples`. -/
structure CpuProfile where
  GetTopDownRoot : CpuProfileNode
  GetStartTime : Int
  GetEndTime : Int
  samples : List CpuProfileSample

/-- Source lines 707-716: the loop over the children of a node, from index `i`
on; a comma goes before every id but the one at index 0, and every child is
pushed on the queue. -/
def writeChildren :
    Nat → List CpuProfileNode → List Char × List CpuProfileNode →
      List Char × List CpuProfileNode
  | _, [], out => out
  | i, child :: rest, (stream, nodes) =>
    let stream := if i > 0 then stream ++ text "," else stream
    writeChildren (i + 1) rest (stream ++ decimal child.GetNodeId, nodes ++ [child])

/-- Source lines 736-743: the loop over the line ticks, from index `i` on. -/
def writeLineTicks : Nat → List LineTick → List Char → List Char
  | _, [], stream => stream
  | i, tick :: rest, stream =>
    let stream := if i > 0 then stream ++ text "," else stream
    writeLineTicks (i + 1) rest
      (stream ++ text "\x7b\"line\":" ++ decimalInt tick.line ++ text ",\"ticks\":"
        ++ decimal tick.hit_count ++ text "\x7d")

/-- Source lines 692-750: the body of the loop for the node taken from the front
of the queue; `nodes` is the queue after `pop`. -/
def writeNode (node : CpuProfileNode) (stream : List Char) (nodes : List CpuProfileNode) :
    List Char × List CpuProfileNode :=
  let stream := stream ++ text "\x7b\"id\":" ++ decimal node.GetNodeId
    ++ text ",\"callFrame\":\x7b\"functionName\":\""
  let stream := writeEscapedString stream node.info.GetFunctionNameStr
  let stream := stream ++ text "\",\"scriptId\":\"" ++ decimalInt node.info.GetScriptId
    ++ text "\",\"url\":\""
  let stream := writeEscapedString stream node.info.GetScriptResourceNameStr
  let stream := stream ++ text "\",\"lineNumber\":" ++ decimalInt (node.info.GetLineNumber - 1)
    ++ text ",\"columnNumber\":" ++ decimalInt (node.info.GetColumnNumber - 1)
    ++ text "\x7d,\"hitCount\":" ++ decimal node.info.GetHitCount ++ text ",\"children\":["
  let written := writeChildren 0 node.children (stream, nodes)
  let stream := written.1 ++ text "]"
  let nodes := written.2
  let stream :=
    match node.info.GetBailoutReason with
    | some bailoutReason =>
      writeEscapedString (stream ++ text ",\"deoptReason\":\"") bailoutReason ++ text "\""
    | none => stream
  let stream :=
    if node.info.lineTicks.length > 0 then
      writeLineTicks 0 node.info.lineTicks (stream ++ text ",\"positionTicks\":[") ++ text "]"
    else stream
  let stream := stream ++ text "\x7d"
  let stream := if !nodes.isEmpty then stream ++ text "," else stream
  (stream, nodes)

/-- Source lines 688-751: the loop over the queue of nodes.  One unit of fuel is
spent for each turn of the loop; `none` means the fuel ran out before the queue
emptied. -/
def writeNodes : Nat → List CpuProfileNode → List Char → Option (List Char)
  | _, [], stream => some stream
  | 0, _ :: _, _ => none
  | fuel + 1, node :: nodes, stream =>
    writeNodes fuel (writeNode node stream nodes).2 (writeNode node stream nodes).1

/-- Source lines 759-766: the loop over the samples, from index `i` on. -/
def writeSamples : Nat → List CpuProfileSample → List Char → List Char
  | _, [], stream => stream
  | i, sample :: rest, stream =>
    let stream := if i > 0 then stream ++ text "," else stream
    writeSamples (i + 1) rest (stream ++ decimal sample.GetNodeId)

/-- Source lines 768-771: the loop over the samples after the first; `previous`
is the timestamp of the sample before. -/
def writeTimeDeltas : Int → List CpuProfileSample → List Char → List Char
  | _, [], stream => stream
  | previous, sample :: rest, stream =>
    writeTimeDeltas sample.GetSampleTimestamp rest
      (stream ++ text "," ++ decimalInt (sample.GetSampleTimestamp - previous))

/-- Source lines 679-778: the document written for a profile. -/
def writeProfile (fuel : Nat) (profile : CpuProfile) : Option (List Char) :=
  match writeNodes fuel [profile.GetTopDownRoot] (text "\x7b\"nodes\":[") with
  | none => none
  | some stream =>
    let stream := stream ++ text "],\"startTime\":" ++ decimalInt profile.GetStartTime
      ++ text ",\"endTime\":" ++ decimalInt profile.GetEndTime
    let stream :=
      match profile.samples with
      | [] => stream
      | first :: later =>
        let stream := writeSamples 0 (first :: later) (stream ++ text ",\"samples\":[")
        let stream := stream ++ text "],\"timeDeltas\":["
          ++ decimalInt (first.GetSampleTimestamp - profile.GetStartTime)
        let stream := writeTimeDeltas first.GetSampleTimestamp later stream
        stream ++ text "]"
    some (stream ++ text "\x7d")

/-- Texts written one after the other with one comma between neighbours: nothing
before the first and nothing after the last. -/
def commaSeparated : List (List Char) → List Char
  | [] => []
  | first :: rest => first ++ rest.flatMap (fun item => text "," ++ item)

/-- The call frame object of a node in the words of the specification; line and
column are one less than the engine reports. -/
def callFrameSpec (node : CpuProfileNode) : List Char :=
  text "\x7b\"functionName\":\"" ++ escapeSpec (cString node.info.GetFunctionNameStr)
    ++ text "\",\"scriptId\":\"" ++ decimalInt node.info.GetScriptId
    ++ text "\",\"url\":\"" ++ escapeSpec (cString node.info.GetScriptResourceNameStr)
    ++ text "\",\"lineNumber\":" ++ decimalInt (node.info.GetLineNumber - 1)
    ++ text ",\"columnNumber\":" ++ decimalInt (node.info.GetColumnNumber - 1) ++ text "\x7d"

/-- The ids in the "children" array of a node in the words of the specification. -/
def childrenSpec (node : CpuProfileNode) : List (List Char) :=
  node.children.map (fun child => decimal child.GetNodeId)

/-- The optional members of a node object in the words of the specification. -/
def optionalMembersSpec (node : CpuProfileNode) : List Char :=
  (match node.info.GetBailoutReason with
    | some bailoutReason =>
      text ",\"deoptReason\":\"" ++ escapeSpec (cString bailoutReason) ++ text "\""
    | none => [])
  ++ (if node.info.lineTicks.length > 0 then
        text ",\"positionTicks\":["
          ++ commaSeparated (node.info.lineTicks.map (fun tick =>
              text "\x7b\"line\":" ++ decimalInt tick.line ++ text ",\"ticks\":"
                ++ decimal tick.hit_count ++ text "\x7d"))
          ++ text "]"
      else [])

/-- The object of a node in the words of the specification. -/
def nodeObjectSpec (node : CpuProfileNode) : List Char :=
  text "\x7b\"id\":" ++ decimal node.GetNodeId ++ text ",\"callFrame\":" ++ callFrameSpec node
    ++ text ",\"hitCount\":" ++ decimal node.info.GetHitCount
    ++ text ",\"children\":[" ++ commaSeparated (childrenSpec node) ++ text "]"
    ++ optionalMembersSpec node ++ text "\x7d"

/-- Breadth-first order in the words of the specification: the nodes of a level,
then the order of the next level, which is the children of the nodes of this
level in turn; `depth` levels are listed. -/
def levelOrderSpec : Nat → List CpuProfileNode → List CpuProfileNode
  | 0, _ => []
  | depth + 1, level => level ++ levelOrderSpec depth (level.flatMap CpuProfileNode.children)

/-- The nodes of a tree in breadth-first order, the root first. -/
def breadthFirstSpec (root : CpuProfileNode) : List CpuProfileNode :=
  levelOrderSpec root.height [root]

/-- The time deltas in the words of the specification: one for each sample, the
time since the sample before, and for the first sample the time since the start. -/
def timeDeltasSpec : Int → List CpuProfileSample → List Int
  | _, [] => []
  | previous, sample :: rest =>
    (sample.GetSampleTimestamp - previous) :: timeDeltasSpec sample.GetSampleTimestamp rest

/-- The order in which the loop of `writeNodes` takes nodes from its queue. -/
def queueOrder : Nat → List CpuProfileNode → List CpuProfileNode
  | _, [] => []
  | 0, _ :: _ => []
  | fuel + 1, node :: nodes => node :: queueOrder fuel (nodes ++ node.children)

/-- The document in the words of the specification: the members "nodes",
"startTime" and "endTime", and, when the profile has a sample, the members
"samples" and "timeDeltas" after them. -/
def documentSpec (profile : CpuProfile) : List Char :=
  text "\x7b\"nodes\":["
    ++ commaSeparated ((breadthFirstSpec profile.GetTopDownRoot).map nodeObjectSpec)
    ++ text "],\"startTime\":" ++ decimalInt profile.GetStartTime
    ++ text ",\"endTime\":" ++ decimalInt profile.GetEndTime
    ++ (if profile.samples.length > 0 then
          text ",\"samples\":["
            ++ commaSeparated (profile.samples.map (fun sample => decimal sample.GetNodeId))
            ++ text "],\"timeDeltas\":["
            ++ commaSeparated ((timeDeltasSpec profile.GetStartTime profile.samples).map decimalInt)
            ++ text "]"
        else [])
    ++ text "\x7d"

/-- Source lines 656-781.  `title` is the outcome of `CreateString`, `none` when
the engine cannot make the string, and `profile` is what `StopProfiling` returns
for it.  The result is `none` when the fuel of the node loop runs out; otherwise
it is the controller after the scope was entered, and the returned document,
`none` for a null pointer. -/
def StopCpuProfiler (env : Env) (fuel : Nat) (title : Option Nat) (profile : CpuProfile)
    (s : V8IsolateImpl) : Option (V8IsolateImpl × Option (List Char)) :=
  let s1 := Scope_enter env s
  if !s1.m_pProfiler then some (s1, none)
  else
    match title with
    | none => some (s1, none)
    | some _ => (writeProfile fuel profile).map (fun document => (s1, some document))

/-! ### The sequential scheduler model

The scheduler as the threads and the engine drive it, one step at a time: a
thread submits a closure, the engine services a requested interrupt, or the
owner of the controller runs the message loop to its end. -/

/-- A step of the sequential scheduler model. -/
inductive SchedulerStep
  /-- A `CallWithLockAsync(callback)` call. -/
  | submit (callback : Option Callback)
  /-- The engine calls the interrupt callback `ProcessCallWithLockQueue(pIsolate,
  pvIsolateImpl)` (lines 1233-1236) for one of the requested interrupts. -/
  | interrupt
  /-- A `RunMessageLoop(awaitingDebugger)` call that returns. -/
  | runMessageLoop (fuel : Nat) (awaitingDebugger : Bool) (wakeups : List (List Op))
deriving DecidableEq, Repr

/-- The controller together with the number of requested interrupts the engine
has serviced so far. -/
structure Scheduler where
  self : V8IsolateImpl
  interruptsServiced : Nat
deriving DecidableEq, Repr

/-- The scheduler after a step; `none` when the step cannot happen: the engine
services an interrupt only if one is requested and not yet serviced, and a
message-loop run is a step only if it returns. -/
def schedulerStep (env : Env) (step : SchedulerStep) (t : Scheduler) : Option Scheduler :=
  match step with
  | SchedulerStep.submit callback => some { t with self := CallWithLockAsync callback t.self }
  | SchedulerStep.interrupt =>
    if t.interruptsServiced < t.self.interruptRequests then
      some { self := (ProcessCallWithLockQueue env t.self).self
             interruptsServiced := t.interruptsServiced + 1 }
    else none
  | SchedulerStep.runMessageLoop fuel awaitingDebugger wakeups =>
    (RunMessageLoop env fuel awaitingDebugger wakeups t.self).map
      (fun r => { t with self := r.self })

/-- The scheduler after a sequence of steps. -/
def schedulerRun (env : Env) : List SchedulerStep → Scheduler → Option Scheduler
  | [], t => some t
  | step :: steps, t =>
    match schedulerStep env step t with
    | none => none
    | some t1 => schedulerRun env steps t1

/-- The controller at the start of the scheduler model: constructed, no interrupt
requested and none serviced. -/
def schedulerStart (name : String) : Scheduler :=
  { self := { m_Name := name }, interruptsServiced := 0 }

/-- The controller on which `RunMessageLoop` starts its first drain (lines
1170-1176): flags cleared, both pulse scopes entered. -/
def messageLoopEntry (awaitingDebugger : Bool) (s : V8IsolateImpl) : V8IsolateImpl :=
  { s with
    m_QuitMessageLoop := false
    m_AbortMessageLoop := false
    m_AwaitingDebugger := awaitingDebugger
    m_InMessageLoop := true }

/-- No entry is stranded: outside the message loop, a non-empty queue comes with a
requested interrupt that is not yet serviced. -/
def DrainPending (t : Scheduler) : Prop :=
  t.self.m_InMessageLoop = false ∧
    t.interruptsServiced ≤ t.self.interruptRequests ∧
    (t.self.m_CallWithLockQueue ≠ [] → t.interruptsServiced < t.self.interruptRequests)

/-! ### Delayed tasks and their timers -/

/-- The ids of the held timers identify them: every id was given out by the
controller, and no two held timers share one.  The source identifies a timer by
its address. -/
def TimerIdsUnique (s : V8IsolateImpl) : Prop :=
  (∀ t ∈ s.m_TaskTimers, t.id < s.timersCreated) ∧
    (s.m_TaskTimers.map (fun t => t.id)).Nodup

/-- From `s1` to `s2` no timer was added to `m_TaskTimers` and the held ones kept
their order; no timer id was given back. -/
def TimersKept (s1 s2 : V8IsolateImpl) : Prop :=
  List.Sublist s2.m_TaskTimers s1.m_TaskTimers ∧ s1.timersCreated ≤ s2.timersCreated

/-- From `s1` to `s2` debugging stayed enabled or not as it was and the inspector
stayed; a session exists in `s2` only if one existed in `s1` or `s1` has an
inspector that could open one.  This is what running closures, which may attach
and detach the session, keep of the debugging members. -/
def DebugKept (s1 s2 : V8IsolateImpl) : Prop :=
  s2.m_DebuggingEnabled = s1.m_DebuggingEnabled ∧ s2.m_spInspector = s1.m_spInspector ∧
    (s2.m_spInspectorSession = true →
      s1.m_spInspectorSession = true ∨ s1.m_spInspector = true)

end V8IsolateImpl

/-! ### Example closures -/

/-- An environment of closures: `host 0` submits `host 1` and an empty function and
then raises; `host 1` submits the wrapper of task `7`; every other closure does
nothing. -/
def chainEnv : Env := fun cb _ =>
  match cb with
  | Callback.host 0 =>
    { ops := [Op.callWithLockAsync (some (Callback.host 1)), Op.callWithLockAsync none]
      thrown := some (Thrown.other 1) }
  | Callback.host 1 => { ops := [Op.callWithLockAsync (some (Callback.runTask 7))] }
  | _ => { }

/-- A controller running its message loop with two queued entries. -/
def loopState : V8IsolateImpl :=
  { m_InMessageLoop := true, m_CallWithLockQueue := [Callback.host 0, Callback.host 2] }

/-- A controller outside the message loop with two queued entries. -/
def idleState : V8IsolateImpl :=
  { m_CallWithLockQueue := [Callback.host 0, Callback.host 2] }

/-- A controller with a stack limit of 64 KiB and a heap limit of 1 MB configured
and no monitoring in progress. -/
def configuredState : V8IsolateImpl :=
  { m_Name := "engine", m_MaxStackUsage := 65536, m_MaxHeapSize := 1000000 }

/-- Heap totals below the limit of `configuredState`. -/
def smallHeap : HeapReadings := { beforeCollection := 500, afterCollection := 500 }

/-- An entry with stack marker `m` and heap totals `smallHeap`. -/
def entryAt (m : Nat) : V8IsolateImpl.Entry := { pExecutionScope := 1, pStackMarker := m, heap := smallHeap }

/-- The controller `configuredState` after an outermost entry with stack marker
`2147418112` on a target with 8-byte words; the installed bound is `2147352576`. -/
def activeState : V8IsolateImpl :=
  (V8IsolateImpl.EnterExecutionScope 8 chainEnv 1 2147418112 smallHeap configuredState).1

/-- What the message loop leaves when it is run on `idleState` under `chainEnv`,
another thread submits `host 2` during the first wait and the loop is quit during
the second. -/
def quitRun : V8IsolateImpl.LoopRun :=
  { self :=
      { m_QuitMessageLoop := true
        invoked := [Callback.host 0, Callback.host 2, Callback.host 1, Callback.runTask 7,
          Callback.host 2]
        accepted := [Callback.host 1, Callback.runTask 7, Callback.host 2]
        notifyCalls := 3
        taskRuns := [7]
        waitCalls := 2 }
    result := true
    thrown := none }

/-- The controller `configuredState` with debugging enabled on the default port and
no debugger attached. -/
def debuggingState : V8IsolateImpl :=
  V8IsolateImpl.EnableDebugging 0 false configuredState

/-- The controller `debuggingState` with a debug session attached. -/
def attachedState : V8IsolateImpl :=
  V8IsolateImpl.ConnectDebugClient_callback debuggingState

/-- What `AwaitDebuggerAndPause` leaves on `debuggingState` when the loop it runs is
aborted during its first wait. -/
def abortedAwait : V8IsolateImpl × Option Thrown :=
  ({ debuggingState with m_AbortMessageLoop := true, waitCalls := 1 },
    some (Thrown.v8 (V8IsolateImpl.awaitInterrupted debuggingState)))

/-- The controller `debuggingState` holding the contexts `1` and `2`. -/
def contextState : V8IsolateImpl :=
  { debuggingState with m_ContextPtrs := [1, 2] }

/-- A leaf of the example profile. -/
def leafNode (id : Nat) (name : String) : V8IsolateImpl.CpuProfileNode :=
  .mk { GetNodeId := id, GetFunctionNameStr := name.data ++ [V8IsolateImpl.NUL],
        GetScriptId := 7, GetScriptResourceNameStr := [V8IsolateImpl.NUL], GetLineNumber := 3,
        GetColumnNumber := 1, GetHitCount := 2, GetBailoutReason := none, lineTicks := [] } []

/-- A profile tree: root 1 with children 2 and 3, and 4 under 2. -/
def sampleRoot : V8IsolateImpl.CpuProfileNode :=
  .mk { GetNodeId := 1, GetFunctionNameStr := "(root)".data ++ [V8IsolateImpl.NUL],
        GetScriptId := 0, GetScriptResourceNameStr := [V8IsolateImpl.NUL], GetLineNumber := 0,
        GetColumnNumber := 0, GetHitCount := 0, GetBailoutReason := none, lineTicks := [] }
    [.mk { GetNodeId := 2, GetFunctionNameStr := "f".data ++ [V8IsolateImpl.NUL],
           GetScriptId := 7, GetScriptResourceNameStr := "a.js".data ++ [V8IsolateImpl.NUL],
           GetLineNumber := 1, GetColumnNumber := 1, GetHitCount := 1,
           GetBailoutReason := none, lineTicks := [{ line := 1, hit_count := 1 }] }
       [leafNode 4 "h"],
     leafNode 3 "g"]

/-- A profile recorded without samples. -/
def unsampledProfile : V8IsolateImpl.CpuProfile :=
  { GetTopDownRoot := leafNode 1 "(root)", GetStartTime := 100, GetEndTime := 250, samples := [] }

/-- A profile with two samples. -/
def sampledProfile : V8IsolateImpl.CpuProfile :=
  { GetTopDownRoot := sampleRoot, GetStartTime := 100, GetEndTime := 250,
    samples := [{ GetNodeId := 2, GetSampleTimestamp := 130 },
                { GetNodeId := 4, GetSampleTimestamp := 170 }] }

/-- The controller `configuredState` with a profiler. -/
def profilingState : V8IsolateImpl :=
  { configuredState with m_pProfiler := true }

/-- The nested `EnterExecutionScope` call on `activeState` whose stack marker
`2147352568` is below the installed bound `2147352576`. -/
def failedEntry : V8IsolateImpl × Except V8Exception Nat :=
  V8IsolateImpl.EnterExecutionScope 8 chainEnv 2 2147352568 smallHeap activeState

/-- The scheduler after `host 0` was submitted, the engine serviced the interrupt
(under `chainEnv` the closure `host 0` submits `host 1`), and `host 2` was
submitted: two entries are queued, two interrupts were requested, one is
serviced. -/
def pendingScheduler : V8IsolateImpl.Scheduler :=
  { self :=
      { m_Name := "engine"
        m_CallWithLockQueue := [Callback.host 1, Callback.host 2]
        invoked := [Callback.host 0]
        accepted := [Callback.host 0, Callback.host 1, Callback.host 2]
        interruptRequests := 2 }
    interruptsServiced := 1 }

/-- What the message loop leaves when it is run on the controller of
`pendingScheduler` and quit during its first wait. -/
def drainedRun : V8IsolateImpl.LoopRun :=
  { self :=
      { m_Name := "engine"
        m_QuitMessageLoop := true
        invoked := [Callback.host 0, Callback.host 1, Callback.host 2, Callback.runTask 7]
        accepted := [Callback.host 0, Callback.host 1, Callback.host 2, Callback.runTask 7]
        interruptRequests := 2
        notifyCalls := 1
        taskRuns := [7]
        waitCalls := 1 }
    result := true
    thrown := none }

/-- An environment of closures: `host 10` is the closure that `ConnectDebugClient`
builds, `host 11` the one that `DisconnectDebugClient` builds; every other closure
does nothing. -/
def debugClientEnv : Env := fun cb _ =>
  match cb with
  | Callback.host 10 => { ops := [Op.connectDebugClient] }
  | Callback.host 11 => { ops := [Op.disconnectDebugClient] }
  | _ => { }

/-- The controller `attachedState`, which has a debug session, with the closure of
`DisconnectDebugClient` queued. -/
def detachingState : V8IsolateImpl :=
  { attachedState with m_CallWithLockQueue := [Callback.host 11] }

/-- The controller `debuggingState`, which has no debug session, with the closure
of `ConnectDebugClient` queued. -/
def attachingState : V8IsolateImpl :=
  { debuggingState with m_CallWithLockQueue := [Callback.host 10] }

/-! # Theorems -/

/-! ## The locked-call scheduler -/

namespace V8IsolateImpl

theorem LoopFrame.refl (s : V8IsolateImpl) : LoopFrame s s := by
  cases s; rfl

theorem LoopFrame.trans {s1 s2 s3 : V8IsolateImpl}
    (h12 : LoopFrame s1 s2) (h23 : LoopFrame s2 s3) : LoopFrame s1 s3 := by
  unfold LoopFrame at *
  rw [h23, h12]

theorem CallWithLockAsync_frame (callback : Option Callback) (s : V8IsolateImpl) :
    SchedulerFrame s (CallWithLockAsync callback s) := by
  cases s
  cases callback with
  | none => rfl
  | some cb =>
    simp only [CallWithLockAsync, RequestInterrupt, SchedulerFrame]
    split
    · rfl
    · split <;> rfl

theorem SchedulerFrame.toLoopFrame {s1 s2 : V8IsolateImpl} (h : SchedulerFrame s1 s2) :
    LoopFrame s1 s2 := by
  have hq : s2.m_QuitMessageLoop = s1.m_QuitMessageLoop :=
    congrArg (fun x => x.m_QuitMessageLoop) h
  have ha : s2.m_AbortMessageLoop = s1.m_AbortMessageLoop :=
    congrArg (fun x => x.m_AbortMessageLoop) h
  have hw : s2.waitCalls = s1.waitCalls :=
    congrArg (fun x => x.waitCalls) h
  have hs : s2.m_spInspectorSession = s1.m_spInspectorSession :=
    congrArg (fun x => x.m_spInspectorSession) h
  have hc : s2.connectedSessions = s1.connectedSessions :=
    congrArg (fun x => x.connectedSessions) h
  have hd : s2.dispatchedCommands = s1.dispatchedCommands :=
    congrArg (fun x => x.dispatchedCommands) h
  unfold LoopFrame
  rw [hq, ha, hw, hs, hc, hd]
  exact h

theorem LoopFrame.inMessageLoop {s1 s2 : V8IsolateImpl} (h : LoopFrame s1 s2) :
    s2.m_InMessageLoop = s1.m_InMessageLoop :=
  congrArg (fun x => x.m_InMessageLoop) h

theorem interruptsFor_append (queue xs ys : List Callback) :
    interruptsFor queue (xs ++ ys) = interruptsFor queue xs + interruptsFor (queue ++ xs) ys := by
  cases queue <;> cases xs <;> cases ys <;> simp [interruptsFor]

theorem Submitted.nil (s : V8IsolateImpl) : Submitted s s [] := by
  constructor <;> simp [interruptsFor]

theorem Submitted.append {s1 s2 s3 : V8IsolateImpl} {xs ys : List Callback}
    (h12 : Submitted s1 s2 xs) (h23 : Submitted s2 s3 ys)
    (hloop : s2.m_InMessageLoop = s1.m_InMessageLoop) : Submitted s1 s3 (xs ++ ys) := by
  constructor
  · rw [h23.queue, h12.queue, List.append_assoc]
  · rw [h23.accepted, h12.accepted, List.append_assoc]
  · rw [h23.notifyCalls, h12.notifyCalls, hloop]
    split <;> simp [Nat.add_assoc]
  · rw [h23.interruptRequests, h12.interruptRequests, h12.queue, hloop, interruptsFor_append]
    split <;> simp [Nat.add_assoc]

theorem CallWithLockAsync_submitted (cb : Callback) (s : V8IsolateImpl) :
    Submitted s (CallWithLockAsync (some cb) s) [cb] := by
  cases hl : s.m_InMessageLoop
  · by_cases hq : s.m_CallWithLockQueue = []
    · constructor <;> simp [CallWithLockAsync, RequestInterrupt, hl, hq, interruptsFor]
    · constructor <;> simp [CallWithLockAsync, RequestInterrupt, hl, hq, interruptsFor]
  · constructor <;> simp [CallWithLockAsync, hl]

theorem CallWithLockAsync_invoked (callback : Option Callback) (s : V8IsolateImpl) :
    (CallWithLockAsync callback s).invoked = s.invoked ∧
      (CallWithLockAsync callback s).taskRuns = s.taskRuns := by
  cases callback with
  | none => exact ⟨rfl, rfl⟩
  | some cb =>
    simp only [CallWithLockAsync, RequestInterrupt]
    split
    · exact ⟨rfl, rfl⟩
    · split <;> exact ⟨rfl, rfl⟩

/-- The bodies of the debug-client closures touch the session and its records
only. -/
theorem sessionOp_spec (s : V8IsolateImpl) :
    (∀ s2, s2 = ConnectDebugClient_callback s ∨ s2 = DisconnectDebugClient_callback s ∨
        (∃ command, s2 = SendDebugCommand_callback command s) →
      Submitted s s2 [] ∧ LoopFrame s s2 ∧ s2.invoked = s.invoked ∧ s2.taskRuns = s.taskRuns) := by
  intro s2 h
  have hnil := Submitted.nil s
  rcases h with rfl | rfl | ⟨command, rfl⟩
  · unfold ConnectDebugClient_callback
    split_ifs
    · exact ⟨⟨hnil.queue, hnil.accepted, hnil.notifyCalls, hnil.interruptRequests⟩,
        by cases s; rfl, rfl, rfl⟩
    · exact ⟨hnil, LoopFrame.refl s, rfl, rfl⟩
  · exact ⟨⟨hnil.queue, hnil.accepted, hnil.notifyCalls, hnil.interruptRequests⟩,
      by cases s; rfl, rfl, rfl⟩
  · unfold SendDebugCommand_callback
    split_ifs
    · exact ⟨⟨hnil.queue, hnil.accepted, hnil.notifyCalls, hnil.interruptRequests⟩,
        by cases s; rfl, rfl, rfl⟩
    · exact ⟨hnil, LoopFrame.refl s, rfl, rfl⟩

theorem applyOps_spec (ops : List Op) (s : V8IsolateImpl) :
    Submitted s (applyOps ops s) (submissions ops) ∧ LoopFrame s (applyOps ops s) ∧
      (applyOps ops s).invoked = s.invoked ∧ (applyOps ops s).taskRuns = s.taskRuns := by
  induction ops generalizing s with
  | nil => exact ⟨Submitted.nil s, LoopFrame.refl s, rfl, rfl⟩
  | cons op ops ih =>
    cases op with
    | callWithLockAsync callback =>
      obtain ⟨hsub, hframe, hinv, hruns⟩ := ih (CallWithLockAsync callback s)
      have hf := (CallWithLockAsync_frame callback s).toLoopFrame
      have hi := CallWithLockAsync_invoked callback s
      refine ⟨?_, hf.trans hframe, hinv.trans hi.1, hruns.trans hi.2⟩
      cases callback with
      | none => exact hsub
      | some cb => exact (CallWithLockAsync_submitted cb s).append hsub hf.inMessageLoop
    | quitMessageLoopOnPause =>
      obtain ⟨hsub, hframe, hinv, hruns⟩ := ih (quitMessageLoopOnPause s)
      exact ⟨⟨hsub.queue, hsub.accepted, hsub.notifyCalls, hsub.interruptRequests⟩,
        LoopFrame.trans (by cases s; rfl) hframe, hinv, hruns⟩
    | abortMessageLoop =>
      obtain ⟨hsub, hframe, hinv, hruns⟩ := ih (AbortMessageLoop s)
      exact ⟨⟨hsub.queue, hsub.accepted, hsub.notifyCalls, hsub.interruptRequests⟩,
        LoopFrame.trans (by cases s; rfl) hframe, hinv, hruns⟩
    | connectDebugClient =>
      obtain ⟨hsub, hframe, hinv, hruns⟩ := ih (ConnectDebugClient_callback s)
      obtain ⟨g1, g2, g3, g4⟩ := sessionOp_spec s _ (Or.inl rfl)
      exact ⟨g1.append hsub g2.inMessageLoop, g2.trans hframe, hinv.trans g3, hruns.trans g4⟩
    | sendDebugCommand command =>
      obtain ⟨hsub, hframe, hinv, hruns⟩ := ih (SendDebugCommand_callback command s)
      obtain ⟨g1, g2, g3, g4⟩ := sessionOp_spec s _ (Or.inr (Or.inr ⟨command, rfl⟩))
      exact ⟨g1.append hsub g2.inMessageLoop, g2.trans hframe, hinv.trans g3, hruns.trans g4⟩
    | disconnectDebugClient =>
      obtain ⟨hsub, hframe, hinv, hruns⟩ := ih (DisconnectDebugClient_callback s)
      obtain ⟨g1, g2, g3, g4⟩ := sessionOp_spec s _ (Or.inr (Or.inl rfl))
      exact ⟨g1.append hsub g2.inMessageLoop, g2.trans hframe, hinv.trans g3, hruns.trans g4⟩

theorem invoke_spec (env : Env) (cb : Callback) (s : V8IsolateImpl) :
    Submitted s (invoke env cb s).1 (submissions (env cb s).ops) ∧
      LoopFrame s (invoke env cb s).1 ∧
      (invoke env cb s).1.invoked = s.invoked ++ [cb] ∧
      (invoke env cb s).1.taskRuns = s.taskRuns ++ tasksOf [cb] := by
  cases cb with
  | host id =>
    obtain ⟨hsub, hframe, hinv, hruns⟩ :=
      applyOps_spec (env (Callback.host id) s).ops { s with invoked := s.invoked ++ [Callback.host id] }
    refine ⟨⟨hsub.queue, hsub.accepted, hsub.notifyCalls, hsub.interruptRequests⟩, ?_, hinv, ?_⟩
    · exact LoopFrame.trans (by cases s; rfl) hframe
    · simpa [tasksOf] using hruns
  | runTask task =>
    obtain ⟨hsub, hframe, hinv, hruns⟩ :=
      applyOps_spec (env (Callback.runTask task) s).ops
        (Task_Run task { s with invoked := s.invoked ++ [Callback.runTask task] })
    refine ⟨⟨hsub.queue, hsub.accepted, hsub.notifyCalls, hsub.interruptRequests⟩, ?_, hinv, ?_⟩
    · exact LoopFrame.trans (by cases s; rfl) hframe
    · simpa [tasksOf, Task_Run] using hruns

/-- A task run directly by a timer callback is recorded once; what it does besides
is what a closure can do. -/
theorem runTaskDirect_spec (env : Env) (task : TaskId) (s : V8IsolateImpl) :
    LoopFrame s (runTaskDirect env task s).1 ∧
      (runTaskDirect env task s).1.taskRuns = s.taskRuns ++ [task] ∧
      (runTaskDirect env task s).1.invoked = s.invoked ∧
      (runTaskDirect env task s).2 = (env (Callback.runTask task) s).thrown := by
  obtain ⟨-, hframe, hinv, hruns⟩ :=
    applyOps_spec (env (Callback.runTask task) s).ops (Task_Run task s)
  refine ⟨LoopFrame.trans (by cases s; rfl) hframe, ?_, hinv, rfl⟩
  simpa [Task_Run] using hruns

theorem tasksOf_append (xs ys : List Callback) : tasksOf (xs ++ ys) = tasksOf xs ++ tasksOf ys := by
  induction xs with
  | nil => rfl
  | cons cb xs ih => cases cb <;> simp [tasksOf, ih]

/-- What one pass over a local queue `q` does to the controller: no exception
leaves it, the local queue ends empty, the entries of `q` are invoked in order,
and the entries submitted meanwhile are appended to `m_CallWithLockQueue`. -/
theorem ProcessCallWithLockQueue_queue_spec (env : Env) (q : List Callback) (s : V8IsolateImpl) :
    (ProcessCallWithLockQueue_queue env q s).thrown = none ∧
      (ProcessCallWithLockQueue_queue env q s).callWithLockQueue = [] ∧
      (ProcessCallWithLockQueue_queue env q s).self.invoked = s.invoked ++ q ∧
      (ProcessCallWithLockQueue_queue env q s).self.taskRuns = s.taskRuns ++ tasksOf q ∧
      LoopFrame s (ProcessCallWithLockQueue_queue env q s).self ∧
      ∃ subs, Submitted s (ProcessCallWithLockQueue_queue env q s).self subs := by
  induction q generalizing s with
  | nil => exact ⟨rfl, rfl, by simp [ProcessCallWithLockQueue_queue], by
      simp [ProcessCallWithLockQueue_queue, tasksOf], LoopFrame.refl s, [], Submitted.nil s⟩
  | cons cb rest ih =>
    obtain ⟨hsub, hframe, hinv, hruns⟩ := invoke_spec env cb s
    obtain ⟨h1, h2, h3, h4, h5, subs, h6⟩ := ih (invoke env cb s).1
    have hstep : ProcessCallWithLockQueue_queue env (cb :: rest) s
        = ProcessCallWithLockQueue_queue env rest (invoke env cb s).1 := by
      simp [ProcessCallWithLockQueue_queue, catchAll]
    rw [hstep]
    refine ⟨h1, h2, ?_, ?_, hframe.trans h5, _, hsub.append h6 hframe.inMessageLoop⟩
    · rw [h3, hinv]; simp
    · rw [h4, hruns, List.append_assoc, ← tasksOf_append]; rfl

theorem lockedDrainLoop_spec (env : Env) (fuel : Nat) (q : List Callback) (s : V8IsolateImpl)
    (r : Drain) (hq : s.m_CallWithLockQueue = [])
    (h : lockedDrainLoop env fuel q s = some r) :
    r.thrown = none ∧ r.callWithLockQueue = [] ∧ r.self.m_CallWithLockQueue = [] ∧
      LoopFrame s r.self ∧
      ∃ subs, r.self.accepted = s.accepted ++ subs ∧ r.self.invoked = s.invoked ++ (q ++ subs) := by
  induction fuel generalizing q s with
  | zero =>
    cases q with
    | nil =>
      simp only [lockedDrainLoop, Option.some.injEq] at h
      subst h
      exact ⟨rfl, rfl, hq, LoopFrame.refl s, [], by simp, by simp⟩
    | cons cb rest => simp [lockedDrainLoop] at h
  | succ fuel ih =>
    cases q with
    | nil =>
      simp only [lockedDrainLoop, Option.some.injEq] at h
      subst h
      exact ⟨rfl, rfl, hq, LoopFrame.refl s, [], by simp, by simp⟩
    | cons cb rest =>
      obtain ⟨h1, -, h3, -, h5, subs, h6⟩ := ProcessCallWithLockQueue_queue_spec env (cb :: rest) s
      simp only [lockedDrainLoop, h1] at h
      have hq2 := h6.queue
      rw [hq, List.nil_append] at hq2
      rw [hq2] at h
      obtain ⟨g1, g2, g3, g4, subs2, g5, g6⟩ := ih subs _ rfl h
      refine ⟨g1, g2, g3, ?_, subs ++ subs2, ?_, ?_⟩
      · exact h5.trans (LoopFrame.trans (by
          cases hs : (ProcessCallWithLockQueue_queue env (cb :: rest) s).self; rfl) g4)
      · rw [g5]; simp only [h6.accepted, List.append_assoc]
      · rw [g6]; simp only [h3, List.append_assoc]

/-- Entries pushed during one pass over `q` were submitted by closures of `q`: when
every closure submits only closures of smaller rank and the entries of `q` have
rank at most `n`, the entries added to `m_CallWithLockQueue` have rank below `n`. -/
theorem ProcessCallWithLockQueue_queue_rank (env : Env) (rank : Callback → Nat)
    (hrank : ∀ cb s, ∀ c ∈ submissions (env cb s).ops, rank c < rank cb)
    (n : Nat) (q : List Callback) (s : V8IsolateImpl) (hq : ∀ cb ∈ q, rank cb ≤ n)
    (hs : ∀ c ∈ s.m_CallWithLockQueue, rank c < n) :
    ∀ c ∈ (ProcessCallWithLockQueue_queue env q s).self.m_CallWithLockQueue, rank c < n := by
  induction q generalizing s with
  | nil => simpa [ProcessCallWithLockQueue_queue] using hs
  | cons cb rest ih =>
    have hstep : ProcessCallWithLockQueue_queue env (cb :: rest) s
        = ProcessCallWithLockQueue_queue env rest (invoke env cb s).1 := by
      simp [ProcessCallWithLockQueue_queue, catchAll]
    rw [hstep]
    apply ih
    · intro c hc
      exact hq c (List.mem_cons_of_mem _ hc)
    · intro c hc
      rw [(invoke_spec env cb s).1.queue, List.mem_append] at hc
      rcases hc with hc | hc
      · exact hs c hc
      · exact Nat.lt_of_lt_of_le (hrank cb s c hc) (hq cb (List.mem_cons_self _ _))

theorem lockedDrainLoop_returns (env : Env) (rank : Callback → Nat)
    (hrank : ∀ cb s, ∀ c ∈ submissions (env cb s).ops, rank c < rank cb)
    (n : Nat) (q : List Callback) (s : V8IsolateImpl) (hs : s.m_CallWithLockQueue = [])
    (hq : ∀ cb ∈ q, rank cb < n) :
    ∃ r, lockedDrainLoop env n q s = some r := by
  induction n generalizing q s with
  | zero =>
    cases q with
    | nil => exact ⟨_, rfl⟩
    | cons cb rest => exact absurd (hq cb (List.mem_cons_self _ _)) (Nat.not_lt_zero _)
  | succ n ih =>
    cases q with
    | nil => exact ⟨_, rfl⟩
    | cons cb rest =>
      obtain ⟨h1, -⟩ := ProcessCallWithLockQueue_queue_spec env (cb :: rest) s
      have hsub := ProcessCallWithLockQueue_queue_rank env rank hrank n (cb :: rest) s
        (fun c hc => Nat.le_of_lt_succ (hq c hc)) (by rw [hs]; intro c hc; cases hc)
      simp only [lockedDrainLoop, h1]
      exact ih _ _ rfl hsub

/-- The message-loop drain returns whenever the closures cannot resubmit for ever:
if every closure submits only closures of smaller rank, fuel above the ranks of
the queued entries is enough. -/
theorem ProcessCallWithLockQueue_lock_returns (env : Env) (rank : Callback → Nat)
    (hrank : ∀ cb s, ∀ c ∈ submissions (env cb s).ops, rank c < rank cb)
    (n : Nat) (s : V8IsolateImpl) (hq : ∀ cb ∈ s.m_CallWithLockQueue, rank cb < n) :
    ∃ r, ProcessCallWithLockQueue_lock env n s = some r :=
  lockedDrainLoop_returns env rank hrank n s.m_CallWithLockQueue
    { s with m_CallWithLockQueue := [] } rfl hq

/-- Claim C1. `ProcessCallWithLockQueue(q)` never lets an exception out, leaves the
queue `q` empty, and invokes exactly the entries of `q`, each once, from front to
back, whatever the closures do (submit further entries, raise). -/
theorem ProcessCallWithLockQueue_queue_runs_all (env : Env) (q : List Callback)
    (s : V8IsolateImpl) :
    (ProcessCallWithLockQueue_queue env q s).thrown = none ∧
      (ProcessCallWithLockQueue_queue env q s).callWithLockQueue = [] ∧
      (ProcessCallWithLockQueue_queue env q s).self.invoked = s.invoked ++ q ∧
      ∀ cb, List.count cb (ProcessCallWithLockQueue_queue env q s).self.invoked
        = List.count cb s.invoked + List.count cb q := by
  obtain ⟨h1, h2, h3, -⟩ := ProcessCallWithLockQueue_queue_spec env q s
  refine ⟨h1, h2, h3, ?_⟩
  intro cb
  rw [h3, List.count_append]

/-- Claim C2. If the message-loop drain `ProcessCallWithLockQueue(lock)` returns,
then no exception left it, `m_CallWithLockQueue` is empty, and the closures it
invoked are the entries present at the start followed by the entries submitted
during the pass, each once and in submission order. -/
theorem ProcessCallWithLockQueue_lock_drains_all (env : Env) (fuel : Nat)
    (s : V8IsolateImpl) (r : Drain)
    (h : ProcessCallWithLockQueue_lock env fuel s = some r) :
    r.thrown = none ∧ r.self.m_CallWithLockQueue = [] ∧ r.callWithLockQueue = [] ∧
      ∃ submitted,
        r.self.accepted = s.accepted ++ submitted ∧
        r.self.invoked = s.invoked ++ (s.m_CallWithLockQueue ++ submitted) ∧
        ∀ cb, List.count cb r.self.invoked
          = List.count cb s.invoked
            + (List.count cb s.m_CallWithLockQueue + List.count cb submitted) := by
  obtain ⟨h1, h2, h3, -, subs, h4, h5⟩ :=
    lockedDrainLoop_spec env fuel s.m_CallWithLockQueue { s with m_CallWithLockQueue := [] } r rfl h
  refine ⟨h1, h3, h2, subs, h4, h5, ?_⟩
  intro cb
  rw [h5]
  simp only [List.count_append]

/-- Witness of claim C2: the drain of `loopState` under `chainEnv` returns after
three batches, having run the two initial entries and the two submitted ones. -/
theorem ProcessCallWithLockQueue_lock_drains_all_witness :
    ProcessCallWithLockQueue_lock chainEnv 3 loopState
        = some
          { self :=
              { m_InMessageLoop := true
                invoked := [Callback.host 0, Callback.host 2, Callback.host 1, Callback.runTask 7]
                accepted := [Callback.host 1, Callback.runTask 7]
                notifyCalls := 2
                taskRuns := [7] }
            callWithLockQueue := []
            thrown := none } ∧
      ∃ submitted,
        [Callback.host 1, Callback.runTask 7] = loopState.accepted ++ submitted ∧
        [Callback.host 0, Callback.host 2, Callback.host 1, Callback.runTask 7]
          = loopState.invoked ++ (loopState.m_CallWithLockQueue ++ submitted) :=
  ⟨by decide,
    let ⟨_, _, _, submitted, h1, h2, _⟩ :=
      ProcessCallWithLockQueue_lock_drains_all chainEnv 3 loopState _
        (by decide :
          ProcessCallWithLockQueue_lock chainEnv 3 loopState
            = some
              { self :=
                  { m_InMessageLoop := true
                    invoked :=
                      [Callback.host 0, Callback.host 2, Callback.host 1, Callback.runTask 7]
                    accepted := [Callback.host 1, Callback.runTask 7]
                    notifyCalls := 2
                    taskRuns := [7] }
                callWithLockQueue := []
                thrown := none })
    ⟨submitted, h1, h2⟩⟩

/-- Counterexample to claim C3 as stated: in the pass over `idleState` the closure
`host 0` submits `host 1`; the pass returns with `host 1` still queued and not
run. -/
theorem ProcessCallWithLockQueue_defers_submissions :
    (ProcessCallWithLockQueue chainEnv idleState).self.accepted
        = idleState.accepted ++ [Callback.host 1] ∧
      Callback.host 1 ∉ (ProcessCallWithLockQueue chainEnv idleState).self.invoked ∧
      (ProcessCallWithLockQueue chainEnv idleState).self.m_CallWithLockQueue ≠ [] := by
  decide

/-- Claim C3, amended. The interrupt-triggered pass `ProcessCallWithLockQueue()`
swaps the queue out once: it invokes exactly the entries present at its start, in
order, and lets no exception out; the entries submitted during the pass are not
run by it but are left in `m_CallWithLockQueue`, in submission order, and outside
the message loop a new interrupt is requested exactly when there is such an
entry. -/
theorem ProcessCallWithLockQueue_single_pass (env : Env) (s : V8IsolateImpl) :
    (ProcessCallWithLockQueue env s).thrown = none ∧
      (ProcessCallWithLockQueue env s).self.invoked = s.invoked ++ s.m_CallWithLockQueue ∧
      ∃ submitted,
        (ProcessCallWithLockQueue env s).self.accepted = s.accepted ++ submitted ∧
        (ProcessCallWithLockQueue env s).self.m_CallWithLockQueue = submitted ∧
        (ProcessCallWithLockQueue env s).self.interruptRequests
          = (if s.m_InMessageLoop then s.interruptRequests
             else s.interruptRequests + (if submitted = [] then 0 else 1)) := by
  obtain ⟨h1, -, h3, -, -, subs, h6⟩ :=
    ProcessCallWithLockQueue_queue_spec env s.m_CallWithLockQueue { s with m_CallWithLockQueue := [] }
  refine ⟨h1, h3, subs, h6.accepted, ?_, ?_⟩
  · simpa using h6.queue
  · have h := h6.interruptRequests
    simp only [interruptsFor, true_and] at h
    rw [ProcessCallWithLockQueue, h]
    by_cases hs : subs = [] <;> simp [hs]

/-- Claim C4. `CallWithLockAsync(fn)` with a non-empty `fn` appends `fn` at the tail
of the queue; inside the message loop it notifies the condition variable once and
requests no interrupt; outside it notifies nothing and requests one interrupt
exactly when the queue was empty before the push, that is when its size is `1`
after it; nothing but the scheduler fields changes.  An empty callback changes
nothing. -/
theorem CallWithLockAsync_spec (fn : Callback) (s : V8IsolateImpl) :
    (CallWithLockAsync (some fn) s).m_CallWithLockQueue = s.m_CallWithLockQueue ++ [fn] ∧
      (CallWithLockAsync (some fn) s).notifyCalls
        = (if s.m_InMessageLoop then s.notifyCalls + 1 else s.notifyCalls) ∧
      (CallWithLockAsync (some fn) s).interruptRequests
        = (if s.m_InMessageLoop then s.interruptRequests
           else if s.m_CallWithLockQueue = [] then s.interruptRequests + 1
           else s.interruptRequests) ∧
      (s.m_CallWithLockQueue = [] ↔ (CallWithLockAsync (some fn) s).m_CallWithLockQueue.length = 1) ∧
      SchedulerFrame s (CallWithLockAsync (some fn) s) ∧
      (CallWithLockAsync (some fn) s).invoked = s.invoked ∧
      (CallWithLockAsync (some fn) s).taskRuns = s.taskRuns ∧
      CallWithLockAsync none s = s := by
  have h := CallWithLockAsync_submitted fn s
  have hi := CallWithLockAsync_invoked (some fn) s
  refine ⟨h.queue, ?_, ?_, ?_, CallWithLockAsync_frame _ s, hi.1, hi.2, rfl⟩
  · simpa using h.notifyCalls
  · rw [h.interruptRequests]
    by_cases hq : s.m_CallWithLockQueue = [] <;> simp [interruptsFor, hq]
  · rw [h.queue]
    cases s.m_CallWithLockQueue <;> simp

/-! ## Teardown and the task runner -/

theorem LoopFrame.asyncTasks {s1 s2 : V8IsolateImpl} (h : LoopFrame s1 s2) :
    s2.m_AsyncTasks = s1.m_AsyncTasks :=
  congrArg (fun x => x.m_AsyncTasks) h

theorem LoopFrame.released {s1 s2 : V8IsolateImpl} (h : LoopFrame s1 s2) :
    s2.m_Released = s1.m_Released :=
  congrArg (fun x => x.m_Released) h

theorem LoopFrame.weakTargetAlive {s1 s2 : V8IsolateImpl} (h : LoopFrame s1 s2) :
    s2.weakTargetAlive = s1.weakTargetAlive :=
  congrArg (fun x => x.weakTargetAlive) h

theorem Scope_enter_spec (env : Env) (s : V8IsolateImpl) :
    LoopFrame s (Scope_enter env s) ∧
      (Scope_enter env s).taskRuns = s.taskRuns ++ tasksOf s.m_CallWithLockQueue := by
  obtain ⟨-, -, -, h4, h5, -⟩ :=
    ProcessCallWithLockQueue_queue_spec env s.m_CallWithLockQueue { s with m_CallWithLockQueue := [] }
  exact ⟨LoopFrame.trans (by cases s; rfl) h5, h4⟩

theorem runAsyncTasks_eq (tasks : List TaskId) (s : V8IsolateImpl) :
    runAsyncTasks tasks s = { s with taskRuns := s.taskRuns ++ tasks } := by
  induction tasks generalizing s with
  | nil => cases s; simp [runAsyncTasks]
  | cons task rest ih => rw [runAsyncTasks, ih]; simp [Task_Run]

@[simp] theorem Scope_enter_m_Name (env : Env) (s : V8IsolateImpl) :
    (Scope_enter env s).m_Name = s.m_Name :=
  congrArg (fun x => x.m_Name) (Scope_enter_spec env s).1

@[simp] theorem Scope_enter_m_MaxHeapSize (env : Env) (s : V8IsolateImpl) :
    (Scope_enter env s).m_MaxHeapSize = s.m_MaxHeapSize :=
  congrArg (fun x => x.m_MaxHeapSize) (Scope_enter_spec env s).1

@[simp] theorem Scope_enter_m_HeapWatchLevel (env : Env) (s : V8IsolateImpl) :
    (Scope_enter env s).m_HeapWatchLevel = s.m_HeapWatchLevel :=
  congrArg (fun x => x.m_HeapWatchLevel) (Scope_enter_spec env s).1

@[simp] theorem Scope_enter_m_spHeapWatchTimer (env : Env) (s : V8IsolateImpl) :
    (Scope_enter env s).m_spHeapWatchTimer = s.m_spHeapWatchTimer :=
  congrArg (fun x => x.m_spHeapWatchTimer) (Scope_enter_spec env s).1

@[simp] theorem Scope_enter_m_MaxStackUsage (env : Env) (s : V8IsolateImpl) :
    (Scope_enter env s).m_MaxStackUsage = s.m_MaxStackUsage :=
  congrArg (fun x => x.m_MaxStackUsage) (Scope_enter_spec env s).1

@[simp] theorem Scope_enter_m_StackWatchLevel (env : Env) (s : V8IsolateImpl) :
    (Scope_enter env s).m_StackWatchLevel = s.m_StackWatchLevel :=
  congrArg (fun x => x.m_StackWatchLevel) (Scope_enter_spec env s).1

@[simp] theorem Scope_enter_m_pStackLimit (env : Env) (s : V8IsolateImpl) :
    (Scope_enter env s).m_pStackLimit = s.m_pStackLimit :=
  congrArg (fun x => x.m_pStackLimit) (Scope_enter_spec env s).1

@[simp] theorem Scope_enter_m_pExecutionScope (env : Env) (s : V8IsolateImpl) :
    (Scope_enter env s).m_pExecutionScope = s.m_pExecutionScope :=
  congrArg (fun x => x.m_pExecutionScope) (Scope_enter_spec env s).1

@[simp] theorem Scope_enter_m_IsOutOfMemory (env : Env) (s : V8IsolateImpl) :
    (Scope_enter env s).m_IsOutOfMemory = s.m_IsOutOfMemory :=
  congrArg (fun x => x.m_IsOutOfMemory) (Scope_enter_spec env s).1

@[simp] theorem Scope_enter_m_IsExecutionTerminating (env : Env) (s : V8IsolateImpl) :
    (Scope_enter env s).m_IsExecutionTerminating = s.m_IsExecutionTerminating :=
  congrArg (fun x => x.m_IsExecutionTerminating) (Scope_enter_spec env s).1

@[simp] theorem Scope_enter_timersCreated (env : Env) (s : V8IsolateImpl) :
    (Scope_enter env s).timersCreated = s.timersCreated :=
  congrArg (fun x => x.timersCreated) (Scope_enter_spec env s).1

@[simp] theorem Scope_enter_setStackLimitCalls (env : Env) (s : V8IsolateImpl) :
    (Scope_enter env s).setStackLimitCalls = s.setStackLimitCalls :=
  congrArg (fun x => x.setStackLimitCalls) (Scope_enter_spec env s).1

@[simp] theorem Scope_enter_checkHeapSizeCalls (env : Env) (s : V8IsolateImpl) :
    (Scope_enter env s).checkHeapSizeCalls = s.checkHeapSizeCalls :=
  congrArg (fun x => x.checkHeapSizeCalls) (Scope_enter_spec env s).1

@[simp] theorem Scope_enter_lowMemoryNotifications (env : Env) (s : V8IsolateImpl) :
    (Scope_enter env s).lowMemoryNotifications = s.lowMemoryNotifications :=
  congrArg (fun x => x.lowMemoryNotifications) (Scope_enter_spec env s).1

@[simp] theorem Scope_enter_terminateExecutionCalls (env : Env) (s : V8IsolateImpl) :
    (Scope_enter env s).terminateExecutionCalls = s.terminateExecutionCalls :=
  congrArg (fun x => x.terminateExecutionCalls) (Scope_enter_spec env s).1

@[simp] theorem Scope_enter_terminationPending (env : Env) (s : V8IsolateImpl) :
    (Scope_enter env s).terminationPending = s.terminationPending :=
  congrArg (fun x => x.terminationPending) (Scope_enter_spec env s).1

@[simp] theorem Scope_enter_heapWatchTimersStarted (env : Env) (s : V8IsolateImpl) :
    (Scope_enter env s).heapWatchTimersStarted = s.heapWatchTimersStarted :=
  congrArg (fun x => x.heapWatchTimersStarted) (Scope_enter_spec env s).1

@[simp] theorem Scope_enter_heapWatchTimerEmptyCalls (env : Env) (s : V8IsolateImpl) :
    (Scope_enter env s).heapWatchTimerEmptyCalls = s.heapWatchTimerEmptyCalls :=
  congrArg (fun x => x.heapWatchTimerEmptyCalls) (Scope_enter_spec env s).1

/-! ## The heap check -/

@[simp] theorem CheckHeapSize_m_Name (env : Env) (maxHeapSize : Nat) (heap : HeapReadings)
    (s : V8IsolateImpl) : (CheckHeapSize env maxHeapSize heap s).m_Name = s.m_Name := by
  dsimp only [CheckHeapSize, GetHeapInfo, LowMemoryNotification, TerminateExecution,
    SetUpHeapWatchTimer]
  split_ifs <;> simp

@[simp] theorem CheckHeapSize_m_MaxHeapSize (env : Env) (maxHeapSize : Nat) (heap : HeapReadings)
    (s : V8IsolateImpl) : (CheckHeapSize env maxHeapSize heap s).m_MaxHeapSize = s.m_MaxHeapSize := by
  dsimp only [CheckHeapSize, GetHeapInfo, LowMemoryNotification, TerminateExecution,
    SetUpHeapWatchTimer]
  split_ifs <;> simp

@[simp] theorem CheckHeapSize_m_HeapWatchLevel (env : Env) (maxHeapSize : Nat) (heap : HeapReadings)
    (s : V8IsolateImpl) : (CheckHeapSize env maxHeapSize heap s).m_HeapWatchLevel = s.m_HeapWatchLevel := by
  dsimp only [CheckHeapSize, GetHeapInfo, LowMemoryNotification, TerminateExecution,
    SetUpHeapWatchTimer]
  split_ifs <;> simp

@[simp] theorem CheckHeapSize_m_MaxStackUsage (env : Env) (maxHeapSize : Nat) (heap : HeapReadings)
    (s : V8IsolateImpl) : (CheckHeapSize env maxHeapSize heap s).m_MaxStackUsage = s.m_MaxStackUsage := by
  dsimp only [CheckHeapSize, GetHeapInfo, LowMemoryNotification, TerminateExecution,
    SetUpHeapWatchTimer]
  split_ifs <;> simp

@[simp] theorem CheckHeapSize_m_StackWatchLevel (env : Env) (maxHeapSize : Nat) (heap : HeapReadings)
    (s : V8IsolateImpl) : (CheckHeapSize env maxHeapSize heap s).m_StackWatchLevel = s.m_StackWatchLevel := by
  dsimp only [CheckHeapSize, GetHeapInfo, LowMemoryNotification, TerminateExecution,
    SetUpHeapWatchTimer]
  split_ifs <;> simp

@[simp] theorem CheckHeapSize_m_pStackLimit (env : Env) (maxHeapSize : Nat) (heap : HeapReadings)
    (s : V8IsolateImpl) : (CheckHeapSize env maxHeapSize heap s).m_pStackLimit = s.m_pStackLimit := by
  dsimp only [CheckHeapSize, GetHeapInfo, LowMemoryNotification, TerminateExecution,
    SetUpHeapWatchTimer]
  split_ifs <;> simp

@[simp] theorem CheckHeapSize_m_pExecutionScope (env : Env) (maxHeapSize : Nat) (heap : HeapReadings)
    (s : V8IsolateImpl) : (CheckHeapSize env maxHeapSize heap s).m_pExecutionScope = s.m_pExecutionScope := by
  dsimp only [CheckHeapSize, GetHeapInfo, LowMemoryNotification, TerminateExecution,
    SetUpHeapWatchTimer]
  split_ifs <;> simp

@[simp] theorem CheckHeapSize_m_IsExecutionTerminating (env : Env) (maxHeapSize : Nat) (heap : HeapReadings)
    (s : V8IsolateImpl) : (CheckHeapSize env maxHeapSize heap s).m_IsExecutionTerminating = s.m_IsExecutionTerminating := by
  dsimp only [CheckHeapSize, GetHeapInfo, LowMemoryNotification, TerminateExecution,
    SetUpHeapWatchTimer]
  split_ifs <;> simp

@[simp] theorem CheckHeapSize_setStackLimitCalls (env : Env) (maxHeapSize : Nat) (heap : HeapReadings)
    (s : V8IsolateImpl) : (CheckHeapSize env maxHeapSize heap s).setStackLimitCalls = s.setStackLimitCalls := by
  dsimp only [CheckHeapSize, GetHeapInfo, LowMemoryNotification, TerminateExecution,
    SetUpHeapWatchTimer]
  split_ifs <;> simp

@[simp] theorem CheckHeapSize_heapWatchTimerEmptyCalls (env : Env) (maxHeapSize : Nat) (heap : HeapReadings)
    (s : V8IsolateImpl) : (CheckHeapSize env maxHeapSize heap s).heapWatchTimerEmptyCalls = s.heapWatchTimerEmptyCalls := by
  dsimp only [CheckHeapSize, GetHeapInfo, LowMemoryNotification, TerminateExecution,
    SetUpHeapWatchTimer]
  split_ifs <;> simp

@[simp] theorem CheckHeapSize_checkHeapSizeCalls (env : Env) (maxHeapSize : Nat)
    (heap : HeapReadings) (s : V8IsolateImpl) :
    (CheckHeapSize env maxHeapSize heap s).checkHeapSizeCalls = s.checkHeapSizeCalls + 1 := by
  dsimp only [CheckHeapSize, GetHeapInfo, LowMemoryNotification, TerminateExecution,
    SetUpHeapWatchTimer]
  split_ifs <;> simp

/-- Claim C10. `CheckHeapSize(H)` with readings `h1` (first read) and `h2` (read
after the collection pass): when `h1 > H` and `h2 > H` it sets the out-of-memory
flag, requests termination and creates no heap-watch timer; in every other case it
leaves the flag as it was, requests no termination and installs a started timer
for `H`; the collection pass is forced exactly when `h1 > H`. -/
theorem CheckHeapSize_spec (env : Env) (H : Nat) (heap : HeapReadings) (s : V8IsolateImpl) :
    (CheckHeapSize env H heap s).m_IsOutOfMemory
        = (if heap.beforeCollection > H ∧ heap.afterCollection > H then true
           else s.m_IsOutOfMemory) ∧
      (CheckHeapSize env H heap s).terminateExecutionCalls
        = (if heap.beforeCollection > H ∧ heap.afterCollection > H
           then s.terminateExecutionCalls + 1 else s.terminateExecutionCalls) ∧
      (CheckHeapSize env H heap s).terminationPending
        = (if heap.beforeCollection > H ∧ heap.afterCollection > H then true
           else s.terminationPending) ∧
      (CheckHeapSize env H heap s).heapWatchTimersStarted
        = (if heap.beforeCollection > H ∧ heap.afterCollection > H
           then s.heapWatchTimersStarted else s.heapWatchTimersStarted + 1) ∧
      (CheckHeapSize env H heap s).m_spHeapWatchTimer
        = (if heap.beforeCollection > H ∧ heap.afterCollection > H then s.m_spHeapWatchTimer
           else some { id := s.timersCreated, maxHeapSize := H, started := true }) ∧
      (CheckHeapSize env H heap s).lowMemoryNotifications
        = (if heap.beforeCollection > H then s.lowMemoryNotifications + 1
           else s.lowMemoryNotifications) := by
  dsimp only [CheckHeapSize, GetHeapInfo, LowMemoryNotification, TerminateExecution,
    SetUpHeapWatchTimer]
  by_cases h1 : heap.beforeCollection > H <;> by_cases h2 : heap.afterCollection > H <;>
    simp [h1, h2]

/-! ## The execution scope -/

theorem enterHeapWatch_fields (env : Env) (heap : HeapReadings) (s : V8IsolateImpl) :
    (enterHeapWatch env heap s).m_StackWatchLevel = s.m_StackWatchLevel ∧
      (enterHeapWatch env heap s).m_pStackLimit = s.m_pStackLimit ∧
      (enterHeapWatch env heap s).m_MaxStackUsage = s.m_MaxStackUsage ∧
      (enterHeapWatch env heap s).m_MaxHeapSize = s.m_MaxHeapSize ∧
      (enterHeapWatch env heap s).setStackLimitCalls = s.setStackLimitCalls ∧
      (enterHeapWatch env heap s).heapWatchTimerEmptyCalls = s.heapWatchTimerEmptyCalls ∧
      (enterHeapWatch env heap s).m_Name = s.m_Name ∧
      (enterHeapWatch env heap s).m_pExecutionScope = s.m_pExecutionScope := by
  dsimp only [enterHeapWatch]
  split_ifs <;> simp

theorem enterHeapWatch_level (env : Env) (heap : HeapReadings) (s : V8IsolateImpl) :
    (enterHeapWatch env heap s).m_HeapWatchLevel
        = (if s.m_HeapWatchLevel = 0 then (if s.m_MaxHeapSize > 0 then 1 else 0)
           else s.m_HeapWatchLevel + 1) ∧
      (enterHeapWatch env heap s).checkHeapSizeCalls
        = (if s.m_HeapWatchLevel = 0 ∧ s.m_MaxHeapSize > 0 then s.checkHeapSizeCalls + 1
           else s.checkHeapSizeCalls) ∧
      (s.m_HeapWatchLevel ≠ 0 →
        (enterHeapWatch env heap s).m_spHeapWatchTimer = s.m_spHeapWatchTimer) := by
  dsimp only [enterHeapWatch]
  by_cases h0 : s.m_HeapWatchLevel = 0 <;> by_cases hH : s.m_MaxHeapSize > 0 <;>
    simp [h0, hH]

/-- Entering while stack monitoring is active: the outcome and the stack fields. -/
theorem EnterExecutionScope_active (W : Nat) (env : Env) (pExecutionScope pStackMarker : Nat)
    (heap : HeapReadings) (s : V8IsolateImpl) (hActive : s.m_StackWatchLevel ≠ 0) :
    (EnterExecutionScope W env pExecutionScope pStackMarker heap s).2
        = (if s.m_pStackLimit ≠ 0 ∧ pStackMarker < s.m_pStackLimit
           then Except.error (stackLimitExceeded s) else Except.ok s.m_pExecutionScope) ∧
      (EnterExecutionScope W env pExecutionScope pStackMarker heap s).1.m_StackWatchLevel
        = (if s.m_pStackLimit ≠ 0 ∧ pStackMarker < s.m_pStackLimit
           then s.m_StackWatchLevel else s.m_StackWatchLevel + 1) ∧
      (EnterExecutionScope W env pExecutionScope pStackMarker heap s).1.m_pStackLimit
        = s.m_pStackLimit ∧
      (EnterExecutionScope W env pExecutionScope pStackMarker heap s).1.setStackLimitCalls
        = s.setStackLimitCalls ∧
      (EnterExecutionScope W env pExecutionScope pStackMarker heap s).1.m_Name = s.m_Name := by
  obtain ⟨f1, f2, f3, f4, f5, f6, f7, f8⟩ := enterHeapWatch_fields env heap s
  dsimp only [EnterExecutionScope, markExecutionScope]
  rw [f1, f2, if_neg hActive]
  by_cases hB : s.m_pStackLimit ≠ 0 ∧ pStackMarker < s.m_pStackLimit
  · rw [if_pos hB, if_pos hB, if_pos hB]
    exact ⟨by simp [stackLimitExceeded, f7], f1, f2, f5, f7⟩
  · rw [if_neg hB, if_neg hB, if_neg hB]
    exact ⟨by simp [f8], rfl, rfl, f5, f7⟩

theorem stackLimitExceeded_congr (s1 s2 : V8IsolateImpl) (h : s1.m_Name = s2.m_Name) :
    stackLimitExceeded s1 = stackLimitExceeded s2 := by
  simp [stackLimitExceeded, h]

/-- Nested entries while stack monitoring is active: the calls that return are
those before the first entry whose marker is below the installed bound. -/
theorem enterAll_active (W : Nat) (env : Env) (es : List Entry) (s : V8IsolateImpl)
    (hActive : s.m_StackWatchLevel ≠ 0) :
    (enterAll W env es s).2.1
        = (es.takeWhile (fun e => decide (s.m_pStackLimit ≤ e.pStackMarker))).length ∧
      (enterAll W env es s).2.2
        = (if es.all (fun e => decide (s.m_pStackLimit ≤ e.pStackMarker)) then none
           else some (stackLimitExceeded s)) := by
  induction es generalizing s with
  | nil => simp [enterAll]
  | cons e es ih =>
    obtain ⟨h1, h2, h3, -, h5⟩ :=
      EnterExecutionScope_active W env e.pExecutionScope e.pStackMarker e.heap s hActive
    rw [enterAll]
    generalize EnterExecutionScope W env e.pExecutionScope e.pStackMarker e.heap s = r at h1 h2 h3 h5
    obtain ⟨s1, res⟩ := r
    simp only at h1 h2 h3 h5
    by_cases hB : s.m_pStackLimit ≠ 0 ∧ e.pStackMarker < s.m_pStackLimit
    · rw [if_pos hB] at h1
      subst h1
      have hlt : ¬ s.m_pStackLimit ≤ e.pStackMarker := Nat.not_le.mpr hB.2
      simp [hlt]
    · rw [if_neg hB] at h1 h2
      subst h1
      have hle : s.m_pStackLimit ≤ e.pStackMarker := by
        by_cases h0 : s.m_pStackLimit = 0
        · rw [h0]; exact Nat.zero_le _
        · exact Nat.le_of_not_lt (fun hlt => hB ⟨h0, hlt⟩)
      have hA1 : s1.m_StackWatchLevel ≠ 0 := by rw [h2]; exact Nat.succ_ne_zero _
      obtain ⟨i1, i2⟩ := ih s1 hA1
      simp only [i1, i2, h3, stackLimitExceeded_congr s1 s h5]
      simp [hle]

/-- Claim C8. While stack monitoring is active, `EnterExecutionScope` with marker `m`
against the installed bound `B` throws exactly when `B` is non-null and `m < B`, and
what it throws is a General-kind `V8Exception`; when `m >= B` it returns and the
stack watch level has grown by one.  Along nested entries the calls that return
are exactly those before the first marker below the bound. -/
theorem EnterExecutionScope_stack_check (W : Nat) (env : Env) (pExecutionScope m : Nat)
    (heap : HeapReadings) (s : V8IsolateImpl) (hActive : s.m_StackWatchLevel > 0) :
    ((∃ ex, (EnterExecutionScope W env pExecutionScope m heap s).2 = Except.error ex)
        ↔ (s.m_pStackLimit ≠ 0 ∧ m < s.m_pStackLimit)) ∧
      (∀ ex, (EnterExecutionScope W env pExecutionScope m heap s).2 = Except.error ex →
        ex.type = V8ExceptionType.General ∧
        (EnterExecutionScope W env pExecutionScope m heap s).1.m_StackWatchLevel
          = s.m_StackWatchLevel) ∧
      (s.m_pStackLimit ≤ m →
        (EnterExecutionScope W env pExecutionScope m heap s).2 = Except.ok s.m_pExecutionScope ∧
        (EnterExecutionScope W env pExecutionScope m heap s).1.m_StackWatchLevel
          = s.m_StackWatchLevel + 1) ∧
      (∀ es : List Entry,
        (enterAll W env es s).2.1
          = (es.takeWhile (fun e => decide (s.m_pStackLimit ≤ e.pStackMarker))).length ∧
        (enterAll W env es s).2.2
          = (if es.all (fun e => decide (s.m_pStackLimit ≤ e.pStackMarker)) then none
             else some (stackLimitExceeded s))) := by
  have hA : s.m_StackWatchLevel ≠ 0 := Nat.pos_iff_ne_zero.mp hActive
  obtain ⟨h1, h2, -⟩ := EnterExecutionScope_active W env pExecutionScope m heap s hA
  refine ⟨?_, ?_, ?_, fun es => enterAll_active W env es s hA⟩
  · rw [h1]
    by_cases hB : s.m_pStackLimit ≠ 0 ∧ m < s.m_pStackLimit
    · simp only [if_pos hB, iff_true_intro hB, iff_true]
      exact ⟨_, rfl⟩
    · simp only [if_neg hB, iff_false_intro hB, iff_false]
      rintro ⟨ex, hex⟩
      cases hex
  · intro ex hex
    rw [h1] at hex
    by_cases hB : s.m_pStackLimit ≠ 0 ∧ m < s.m_pStackLimit
    · rw [if_pos hB] at hex
      rw [h2, if_pos hB]
      cases hex
      exact ⟨rfl, rfl⟩
    · rw [if_neg hB] at hex
      cases hex
  · intro hle
    have hB : ¬ (s.m_pStackLimit ≠ 0 ∧ m < s.m_pStackLimit) := fun h => Nat.not_le.mpr h.2 hle
    rw [h1, h2, if_neg hB, if_neg hB]
    exact ⟨rfl, rfl⟩

/-- Entering with stack monitoring inactive and a stack limit configured: the call
returns, and the computed limit is installed and recorded. -/
theorem EnterExecutionScope_outermost (W : Nat) (env : Env) (pExecutionScope pStackMarker : Nat)
    (heap : HeapReadings) (s : V8IsolateImpl) (hLevel : s.m_StackWatchLevel = 0)
    (hL : 0 < s.m_MaxStackUsage) :
    (EnterExecutionScope W env pExecutionScope pStackMarker heap s).2
        = Except.ok s.m_pExecutionScope ∧
      (EnterExecutionScope W env pExecutionScope pStackMarker heap s).1.m_StackWatchLevel = 1 ∧
      (EnterExecutionScope W env pExecutionScope pStackMarker heap s).1.m_pStackLimit
        = stackLimitFor W pStackMarker s.m_MaxStackUsage ∧
      (EnterExecutionScope W env pExecutionScope pStackMarker heap s).1.setStackLimitCalls
        = s.setStackLimitCalls ++ [stackLimitFor W pStackMarker s.m_MaxStackUsage] ∧
      (EnterExecutionScope W env pExecutionScope pStackMarker heap s).1.m_Name = s.m_Name := by
  obtain ⟨f1, f2, f3, f4, f5, f6, f7, f8⟩ := enterHeapWatch_fields env heap s
  dsimp only [EnterExecutionScope, markExecutionScope]
  rw [f1, f3, if_pos hLevel, if_pos hL]
  exact ⟨by simp [f8], rfl, rfl, by simp [f5], f7⟩

theorem stackLimitFor_ge (W pStackMarker maxStackUsage : Nat) :
    s_pMinStackLimit W ≤ stackLimitFor W pStackMarker maxStackUsage := by
  dsimp only [stackLimitFor]
  split_ifs with h
  · exact Nat.le_refl _
  · exact Nat.le_of_not_lt (fun hlt => h (Or.inl hlt))

theorem stackLimitFor_value (W m L : Nat) (hW : W = 4 ∨ W = 8) (hm : m < wordModulus W)
    (hL : L < wordModulus W) :
    ptrSub W m (max L s_StackBreathingRoom / W)
        = (if max L s_StackBreathingRoom / W * W ≤ m
           then m - max L s_StackBreathingRoom / W * W
           else m + wordModulus W - max L s_StackBreathingRoom / W * W) ∧
      stackLimitFor W m L
        = (if max L s_StackBreathingRoom / W * W ≤ m
              ∧ s_pMinStackLimit W ≤ m - max L s_StackBreathingRoom / W * W
           then m - max L s_StackBreathingRoom / W * W
           else s_pMinStackLimit W) ∧
      s_StackBreathingRoom ≤ max L s_StackBreathingRoom / W * W ∧
      s_StackBreathingRoom / W ≤ max L s_StackBreathingRoom / W * W / W := by
  rcases hW with rfl | rfl
  · simp only [wordModulus, stackLimitFor, ptrSub, s_StackBreathingRoom, s_pMinStackLimit] at *
    norm_num at *
    rcases Nat.le_total L 16384 with h | h
    · rw [max_eq_right h]
      norm_num
      refine ⟨?_, ?_⟩ <;> split_ifs <;> omega
    · rw [max_eq_left h]
      refine ⟨?_, ?_, ?_, ?_⟩
      · split_ifs <;> omega
      · split_ifs <;> omega
      · omega
      · omega
  · simp only [wordModulus, stackLimitFor, ptrSub, s_StackBreathingRoom, s_pMinStackLimit] at *
    norm_num at *
    rcases Nat.le_total L 16384 with h | h
    · rw [max_eq_right h]
      norm_num
      refine ⟨?_, ?_⟩ <;> split_ifs <;> omega
    · rw [max_eq_left h]
      refine ⟨?_, ?_, ?_, ?_⟩
      · split_ifs <;> omega
      · split_ifs <;> omega
      · omega
      · omega

theorem stackLimitFor_sane (W m L : Nat) (hW : W = 4 ∨ W = 8) (hm : m < wordModulus W)
    (hL : L < wordModulus W)
    (hBranch : ¬ (ptrSub W m (max L s_StackBreathingRoom / W) < s_pMinStackLimit W
      ∨ ptrSub W m (max L s_StackBreathingRoom / W) > m)) :
    stackLimitFor W m L = ptrSub W m (max L s_StackBreathingRoom / W) ∧
      stackLimitSane W m (ptrSub W m (max L s_StackBreathingRoom / W)) ∧
      s_StackBreathingRoom ≤ m - ptrSub W m (max L s_StackBreathingRoom / W) := by
  obtain ⟨h1, -, h3, h4⟩ := stackLimitFor_value W m L hW hm hL
  have hraw : max L s_StackBreathingRoom / W * W < wordModulus W := by
    have : max L s_StackBreathingRoom < wordModulus W := by
      rcases hW with rfl | rfl <;>
        simp only [wordModulus, s_StackBreathingRoom] at * <;> norm_num at * <;> omega
    exact Nat.lt_of_le_of_lt (Nat.div_mul_le_self _ _) this
  have hle : max L s_StackBreathingRoom / W * W ≤ m := by
    by_contra hgt
    rw [if_neg hgt] at h1
    apply hBranch
    right
    rw [h1]
    omega
  rw [if_pos hle] at h1
  refine ⟨?_, ?_, ?_⟩
  · dsimp only [stackLimitFor]
    rw [if_neg hBranch]
  · dsimp only [stackLimitSane]
    rw [h1, Nat.sub_sub_self hle]
    exact h4
  · rw [h1, Nat.sub_sub_self hle]
    exact h3

/-- Claim C9. On an outermost entry with marker `m` (not below the minimum non-null
address) and configured limit `L > 0`, the installed bound is `m` minus
`max(L, 16 KiB)` rounded down to whole words, the subtraction wrapping around the
address space, replaced by the minimum non-null address when the subtraction
wraps or lands below that minimum.  The bound is never null and never above `m`,
and on the branch that does not clamp, the assertion of line 1374 holds: the
marker is at least the breathing room above the bound. -/
theorem EnterExecutionScope_installs_bound (W : Nat) (env : Env) (pExecutionScope m : Nat)
    (heap : HeapReadings) (s : V8IsolateImpl) (hW : W = 4 ∨ W = 8)
    (hLevel : s.m_StackWatchLevel = 0) (hL : 0 < s.m_MaxStackUsage)
    (hLword : s.m_MaxStackUsage < wordModulus W)
    (hMin : s_pMinStackLimit W ≤ m) (hmword : m < wordModulus W) :
    (EnterExecutionScope W env pExecutionScope m heap s).1.m_pStackLimit
        = (if max s.m_MaxStackUsage s_StackBreathingRoom / W * W ≤ m
              ∧ s_pMinStackLimit W ≤ m - max s.m_MaxStackUsage s_StackBreathingRoom / W * W
           then m - max s.m_MaxStackUsage s_StackBreathingRoom / W * W
           else s_pMinStackLimit W) ∧
      (EnterExecutionScope W env pExecutionScope m heap s).1.setStackLimitCalls
        = s.setStackLimitCalls
          ++ [(EnterExecutionScope W env pExecutionScope m heap s).1.m_pStackLimit] ∧
      ptrSub W m (max s.m_MaxStackUsage s_StackBreathingRoom / W)
        = (if max s.m_MaxStackUsage s_StackBreathingRoom / W * W ≤ m
           then m - max s.m_MaxStackUsage s_StackBreathingRoom / W * W
           else m + wordModulus W - max s.m_MaxStackUsage s_StackBreathingRoom / W * W) ∧
      (EnterExecutionScope W env pExecutionScope m heap s).1.m_pStackLimit ≠ 0 ∧
      (EnterExecutionScope W env pExecutionScope m heap s).1.m_pStackLimit ≤ m ∧
      (¬ (ptrSub W m (max s.m_MaxStackUsage s_StackBreathingRoom / W) < s_pMinStackLimit W
          ∨ ptrSub W m (max s.m_MaxStackUsage s_StackBreathingRoom / W) > m) →
        (EnterExecutionScope W env pExecutionScope m heap s).1.m_pStackLimit
          = ptrSub W m (max s.m_MaxStackUsage s_StackBreathingRoom / W) ∧
        stackLimitSane W m (EnterExecutionScope W env pExecutionScope m heap s).1.m_pStackLimit ∧
        s_StackBreathingRoom
          ≤ m - (EnterExecutionScope W env pExecutionScope m heap s).1.m_pStackLimit) := by
  obtain ⟨-, -, e3, e4, -⟩ :=
    EnterExecutionScope_outermost W env pExecutionScope m heap s hLevel hL
  obtain ⟨v1, v2, -, -⟩ := stackLimitFor_value W m s.m_MaxStackUsage hW hmword hLword
  have hWpos : 0 < s_pMinStackLimit W := by
    rcases hW with rfl | rfl <;> simp [s_pMinStackLimit]
  have hge := stackLimitFor_ge W m s.m_MaxStackUsage
  rw [e3, e4]
  refine ⟨v2, rfl, v1, ?_, ?_, ?_⟩
  · exact Nat.pos_iff_ne_zero.mp (Nat.lt_of_lt_of_le hWpos hge)
  · rw [v2]
    split_ifs with h
    · exact Nat.sub_le _ _
    · exact hMin
  · intro hBranch
    obtain ⟨s1, s2, s3⟩ := stackLimitFor_sane W m s.m_MaxStackUsage hW hmword hLword hBranch
    rw [s1]
    exact ⟨rfl, s2, s3⟩

/-- Witness of claim C8 on `activeState`, whose installed bound is `2147352576`:
an entry with marker `2147352568` throws, and of four nested entries the first
two, whose markers are not below the bound, return and the third throws. -/
theorem EnterExecutionScope_stack_check_witness :
    activeState.m_StackWatchLevel > 0 ∧ activeState.m_pStackLimit = 2147352576 ∧
      (∃ ex, (EnterExecutionScope 8 chainEnv 2 2147352568 smallHeap activeState).2
        = Except.error ex) ∧
      (enterAll 8 chainEnv
        [entryAt 2147400000, entryAt 2147352576, entryAt 2147352568, entryAt 2147400000]
        activeState).2.1 = 2 :=
  ⟨by decide, by decide,
    (EnterExecutionScope_stack_check 8 chainEnv 2 2147352568 smallHeap activeState
      (by decide)).1.mpr ⟨by decide, by decide⟩,
    ((EnterExecutionScope_stack_check 8 chainEnv 2 2147352568 smallHeap activeState
      (by decide)).2.2.2
        [entryAt 2147400000, entryAt 2147352576, entryAt 2147352568, entryAt 2147400000]).1⟩

/-- Witness of claim C9 on `configuredState` with 8-byte words: marker `2147418112`
gives the bound `2147352576`, 64 KiB below it. -/
theorem EnterExecutionScope_installs_bound_witness :
    ((8 : Nat) = 4 ∨ (8 : Nat) = 8) ∧ configuredState.m_StackWatchLevel = 0 ∧
      0 < configuredState.m_MaxStackUsage ∧
      configuredState.m_MaxStackUsage < wordModulus 8 ∧
      s_pMinStackLimit 8 ≤ 2147418112 ∧ 2147418112 < wordModulus 8 ∧
      (EnterExecutionScope 8 chainEnv 1 2147418112 smallHeap configuredState).1.m_pStackLimit
        = 2147352576 :=
  ⟨by decide, by decide, by decide, by decide, by decide, by decide,
    (EnterExecutionScope_installs_bound 8 chainEnv 1 2147418112 smallHeap configuredState
      (by decide) (by decide) (by decide) (by decide) (by decide) (by decide)).1⟩

/-! ## Nested execution scopes -/

theorem EnterExecutionScope_heap_fields (W : Nat) (env : Env) (pExecutionScope pStackMarker : Nat)
    (heap : HeapReadings) (s : V8IsolateImpl) :
    (EnterExecutionScope W env pExecutionScope pStackMarker heap s).1.m_HeapWatchLevel
        = (enterHeapWatch env heap s).m_HeapWatchLevel ∧
      (EnterExecutionScope W env pExecutionScope pStackMarker heap s).1.checkHeapSizeCalls
        = (enterHeapWatch env heap s).checkHeapSizeCalls ∧
      (EnterExecutionScope W env pExecutionScope pStackMarker heap s).1.m_spHeapWatchTimer
        = (enterHeapWatch env heap s).m_spHeapWatchTimer ∧
      (EnterExecutionScope W env pExecutionScope pStackMarker heap s).1.heapWatchTimerEmptyCalls
        = s.heapWatchTimerEmptyCalls := by
  have h := (enterHeapWatch_fields env heap s).2.2.2.2.2.1
  dsimp only [EnterExecutionScope, markExecutionScope]
  split_ifs <;> exact ⟨rfl, rfl, rfl, h⟩

theorem enterAll_cons_ok (W : Nat) (env : Env) (e : Entry) (es : List Entry) (s : V8IsolateImpl)
    (prev : Nat)
    (h : (EnterExecutionScope W env e.pExecutionScope e.pStackMarker e.heap s).2 = Except.ok prev) :
    enterAll W env (e :: es) s
      = ((enterAll W env es
            (EnterExecutionScope W env e.pExecutionScope e.pStackMarker e.heap s).1).1,
          (enterAll W env es
            (EnterExecutionScope W env e.pExecutionScope e.pStackMarker e.heap s).1).2.1 + 1,
          (enterAll W env es
            (EnterExecutionScope W env e.pExecutionScope e.pStackMarker e.heap s).1).2.2) := by
  rw [enterAll]
  generalize EnterExecutionScope W env e.pExecutionScope e.pStackMarker e.heap s = r at h
  obtain ⟨s1, res⟩ := r
  simp only at h
  subst h
  rfl

theorem enterAll_cons_error (W : Nat) (env : Env) (e : Entry) (es : List Entry)
    (s : V8IsolateImpl) (ex : V8Exception)
    (h : (EnterExecutionScope W env e.pExecutionScope e.pStackMarker e.heap s).2
      = Except.error ex) :
    (enterAll W env (e :: es) s).2.2 = some ex := by
  rw [enterAll]
  generalize EnterExecutionScope W env e.pExecutionScope e.pStackMarker e.heap s = r at h
  obtain ⟨s1, res⟩ := r
  simp only at h
  subst h
  rfl

/-- Entries made while both monitors are active only raise the two levels. -/
theorem enterAll_nested (W : Nat) (env : Env) (es : List Entry) (s : V8IsolateImpl)
    (hStack : s.m_StackWatchLevel ≠ 0) (hHeap : s.m_HeapWatchLevel ≠ 0)
    (hOk : (enterAll W env es s).2.2 = none) :
    (enterAll W env es s).1.m_StackWatchLevel = s.m_StackWatchLevel + es.length ∧
      (enterAll W env es s).1.m_HeapWatchLevel = s.m_HeapWatchLevel + es.length ∧
      (enterAll W env es s).1.m_pStackLimit = s.m_pStackLimit ∧
      (enterAll W env es s).1.setStackLimitCalls = s.setStackLimitCalls ∧
      (enterAll W env es s).1.checkHeapSizeCalls = s.checkHeapSizeCalls ∧
      (enterAll W env es s).1.m_spHeapWatchTimer = s.m_spHeapWatchTimer ∧
      (enterAll W env es s).1.heapWatchTimerEmptyCalls = s.heapWatchTimerEmptyCalls := by
  induction es generalizing s with
  | nil => simp [enterAll]
  | cons e es ih =>
    obtain ⟨a1, a2, a3, a4, -⟩ :=
      EnterExecutionScope_active W env e.pExecutionScope e.pStackMarker e.heap s hStack
    obtain ⟨b1, b2, b3, b4⟩ :=
      EnterExecutionScope_heap_fields W env e.pExecutionScope e.pStackMarker e.heap s
    obtain ⟨c1, c2, c3⟩ := enterHeapWatch_level env e.heap s
    by_cases hB : s.m_pStackLimit ≠ 0 ∧ e.pStackMarker < s.m_pStackLimit
    · rw [if_pos hB] at a1
      rw [enterAll_cons_error W env e es s _ a1] at hOk
      cases hOk
    · rw [if_neg hB] at a1 a2
      rw [enterAll_cons_ok W env e es s _ a1] at hOk ⊢
      simp only at hOk ⊢
      have hS1 : (EnterExecutionScope W env e.pExecutionScope e.pStackMarker e.heap s).1.m_StackWatchLevel
          ≠ 0 := by rw [a2]; exact Nat.succ_ne_zero _
      have hH1 : (EnterExecutionScope W env e.pExecutionScope e.pStackMarker e.heap s).1.m_HeapWatchLevel
          ≠ 0 := by rw [b1, c1, if_neg hHeap]; exact Nat.succ_ne_zero _
      obtain ⟨i1, i2, i3, i4, i5, i6, i7⟩ := ih _ hS1 hH1 hOk
      rw [i1, i2, i3, i4, i5, i6, i7, a2, a3, a4, b1, b2, b3, b4, c1, c2, c3 hHeap,
        if_neg hHeap, if_neg (fun h => hHeap h.1)]
      simp only [List.length_cons]
      exact ⟨by omega, by omega, by simp, by simp, by simp, by simp, by simp⟩

theorem exitStackWatch_fields (W : Nat) (s : V8IsolateImpl) :
    (exitStackWatch W s).m_StackWatchLevel = s.m_StackWatchLevel - 1 ∧
      (exitStackWatch W s).m_HeapWatchLevel = s.m_HeapWatchLevel ∧
      (exitStackWatch W s).m_pStackLimit
        = (if s.m_StackWatchLevel = 1 then 0 else s.m_pStackLimit) ∧
      (exitStackWatch W s).setStackLimitCalls
        = (if s.m_StackWatchLevel = 1 ∧ s.m_pStackLimit ≠ 0
           then s.setStackLimitCalls ++ [s_pMinStackLimit W] else s.setStackLimitCalls) ∧
      (exitStackWatch W s).m_spHeapWatchTimer = s.m_spHeapWatchTimer ∧
      (exitStackWatch W s).heapWatchTimerEmptyCalls = s.heapWatchTimerEmptyCalls ∧
      (exitStackWatch W s).checkHeapSizeCalls = s.checkHeapSizeCalls := by
  dsimp only [exitStackWatch]
  rcases Nat.lt_trichotomy s.m_StackWatchLevel 1 with h | h | h
  · have h0 : s.m_StackWatchLevel = 0 := by omega
    simp [h0]
  · by_cases hl : s.m_pStackLimit = 0 <;> simp [h, hl]
  · have h1 : ¬ s.m_StackWatchLevel = 1 := by omega
    have h2 : s.m_StackWatchLevel > 0 := by omega
    have h3 : ¬ s.m_StackWatchLevel - 1 = 0 := by omega
    simp [h1, h2, h3]

theorem exitHeapWatch_fields (s : V8IsolateImpl) :
    (exitHeapWatch s).m_StackWatchLevel = s.m_StackWatchLevel ∧
      (exitHeapWatch s).m_HeapWatchLevel = s.m_HeapWatchLevel - 1 ∧
      (exitHeapWatch s).m_pStackLimit = s.m_pStackLimit ∧
      (exitHeapWatch s).setStackLimitCalls = s.setStackLimitCalls ∧
      (exitHeapWatch s).m_spHeapWatchTimer
        = (if s.m_HeapWatchLevel = 1 then none else s.m_spHeapWatchTimer) ∧
      (exitHeapWatch s).heapWatchTimerEmptyCalls
        = (if s.m_HeapWatchLevel = 1 then s.heapWatchTimerEmptyCalls + 1
           else s.heapWatchTimerEmptyCalls) ∧
      (exitHeapWatch s).checkHeapSizeCalls = s.checkHeapSizeCalls := by
  dsimp only [exitHeapWatch]
  rcases Nat.lt_trichotomy s.m_HeapWatchLevel 1 with h | h | h
  · have h0 : s.m_HeapWatchLevel = 0 := by omega
    simp [h0]
  · simp [h]
  · have h1 : ¬ s.m_HeapWatchLevel = 1 := by omega
    have h2 : s.m_HeapWatchLevel > 0 := by omega
    have h3 : ¬ s.m_HeapWatchLevel - 1 = 0 := by omega
    simp [h1, h2, h3]

theorem ExitExecutionScope_fields (W pPreviousExecutionScope : Nat) (s : V8IsolateImpl) :
    (ExitExecutionScope W pPreviousExecutionScope s).m_StackWatchLevel
        = s.m_StackWatchLevel - 1 ∧
      (ExitExecutionScope W pPreviousExecutionScope s).m_HeapWatchLevel
        = s.m_HeapWatchLevel - 1 ∧
      (ExitExecutionScope W pPreviousExecutionScope s).m_pStackLimit
        = (if s.m_StackWatchLevel = 1 then 0 else s.m_pStackLimit) ∧
      (ExitExecutionScope W pPreviousExecutionScope s).setStackLimitCalls
        = (if s.m_StackWatchLevel = 1 ∧ s.m_pStackLimit ≠ 0
           then s.setStackLimitCalls ++ [s_pMinStackLimit W] else s.setStackLimitCalls) ∧
      (ExitExecutionScope W pPreviousExecutionScope s).m_spHeapWatchTimer
        = (if s.m_HeapWatchLevel = 1 then none else s.m_spHeapWatchTimer) ∧
      (ExitExecutionScope W pPreviousExecutionScope s).heapWatchTimerEmptyCalls
        = (if s.m_HeapWatchLevel = 1 then s.heapWatchTimerEmptyCalls + 1
           else s.heapWatchTimerEmptyCalls) ∧
      (ExitExecutionScope W pPreviousExecutionScope s).checkHeapSizeCalls
        = s.checkHeapSizeCalls := by
  obtain ⟨h1, h2, h3, h4, h5, h6, h7⟩ := exitHeapWatch_fields
    (exitStackWatch W (CancelTerminateExecution { s with m_pExecutionScope := pPreviousExecutionScope }))
  obtain ⟨g1, g2, g3, g4, g5, g6, g7⟩ := exitStackWatch_fields W
    (CancelTerminateExecution { s with m_pExecutionScope := pPreviousExecutionScope })
  dsimp only [ExitExecutionScope]
  rw [h1, h2, h3, h4, h5, h6, h7, g1, g2, g3, g4, g5, g6, g7]
  exact ⟨rfl, rfl, rfl, rfl, rfl, rfl, rfl⟩

/-- Exits that do not reach the outermost scope only lower the two levels. -/
theorem exitAll_inner (W : Nat) (ps : List Nat) (s : V8IsolateImpl)
    (hStack : ps.length < s.m_StackWatchLevel) (hHeap : ps.length < s.m_HeapWatchLevel) :
    (exitAll W ps s).m_StackWatchLevel = s.m_StackWatchLevel - ps.length ∧
      (exitAll W ps s).m_HeapWatchLevel = s.m_HeapWatchLevel - ps.length ∧
      (exitAll W ps s).m_pStackLimit = s.m_pStackLimit ∧
      (exitAll W ps s).setStackLimitCalls = s.setStackLimitCalls ∧
      (exitAll W ps s).m_spHeapWatchTimer = s.m_spHeapWatchTimer ∧
      (exitAll W ps s).heapWatchTimerEmptyCalls = s.heapWatchTimerEmptyCalls ∧
      (exitAll W ps s).checkHeapSizeCalls = s.checkHeapSizeCalls := by
  induction ps generalizing s with
  | nil => simp [exitAll]
  | cons p ps ih =>
    simp only [List.length_cons] at hStack hHeap
    obtain ⟨x1, x2, x3, x4, x5, x6, x7⟩ := ExitExecutionScope_fields W p s
    have n1 : ¬ s.m_StackWatchLevel = 1 := by omega
    have n2 : ¬ s.m_HeapWatchLevel = 1 := by omega
    rw [if_neg n1] at x3
    rw [if_neg (fun h => n1 h.1)] at x4
    rw [if_neg n2] at x5 x6
    obtain ⟨i1, i2, i3, i4, i5, i6, i7⟩ :=
      ih (ExitExecutionScope W p s) (by rw [x1]; omega) (by rw [x2]; omega)
    rw [exitAll, i1, i2, i3, i4, i5, i6, i7, x1, x2, x3, x4, x5, x6, x7]
    simp only [List.length_cons]
    exact ⟨by omega, by omega, by simp, by simp, by simp, by simp, by simp⟩

/-- As many exits as both levels count: the last one removes the stack limit and
destroys the heap-watch timer. -/
theorem exitAll_outermost (W : Nat) (ps : List Nat) (s : V8IsolateImpl) (hps : ps ≠ [])
    (hStack : s.m_StackWatchLevel = ps.length) (hHeap : s.m_HeapWatchLevel = ps.length)
    (hLimit : s.m_pStackLimit ≠ 0) :
    (exitAll W ps s).m_StackWatchLevel = 0 ∧
      (exitAll W ps s).m_HeapWatchLevel = 0 ∧
      (exitAll W ps s).m_pStackLimit = 0 ∧
      (exitAll W ps s).setStackLimitCalls = s.setStackLimitCalls ++ [s_pMinStackLimit W] ∧
      (exitAll W ps s).m_spHeapWatchTimer = none ∧
      (exitAll W ps s).heapWatchTimerEmptyCalls = s.heapWatchTimerEmptyCalls + 1 ∧
      (exitAll W ps s).checkHeapSizeCalls = s.checkHeapSizeCalls := by
  induction ps generalizing s with
  | nil => exact absurd rfl hps
  | cons p ps ih =>
    simp only [List.length_cons] at hStack hHeap
    obtain ⟨x1, x2, x3, x4, x5, x6, x7⟩ := ExitExecutionScope_fields W p s
    cases ps with
    | nil =>
      simp only [List.length_nil, Nat.zero_add] at hStack hHeap
      rw [if_pos hStack] at x3
      rw [if_pos ⟨hStack, hLimit⟩] at x4
      rw [if_pos hHeap] at x5 x6
      rw [exitAll, exitAll, x1, x2, x3, x4, x5, x6, x7, hStack, hHeap]
      exact ⟨rfl, rfl, rfl, rfl, rfl, rfl, rfl⟩
    | cons q qs =>
      simp only [List.length_cons] at hStack hHeap
      have n1 : ¬ s.m_StackWatchLevel = 1 := by omega
      have n2 : ¬ s.m_HeapWatchLevel = 1 := by omega
      rw [if_neg n1] at x3
      rw [if_neg (fun h => n1 h.1)] at x4
      rw [if_neg n2] at x5 x6
      obtain ⟨i1, i2, i3, i4, i5, i6, i7⟩ :=
        ih (ExitExecutionScope W p s) (List.cons_ne_nil q qs)
          (by rw [x1, hStack]; simp) (by rw [x2, hHeap]; simp) (by rw [x3]; exact hLimit)
      rw [exitAll, i1, i2, i3, i4, i5, i6, i7, x4, x6, x7]
      exact ⟨rfl, rfl, rfl, rfl, rfl, rfl, rfl⟩

/-- Claim C7. From a controller with both watch levels `0` and a stack and a heap
limit configured, `n >= 1` entries that all return, followed by exits: the stack
limit is installed once and the heap is checked once, both by the first entry;
while fewer than `n` exits have run, the limit stays installed and the heap-watch
timer is the one left by the first entry; the `n`-th exit removes the limit and
destroys the timer, once, and both levels are `0` and `m_pStackLimit` is null. -/
theorem nested_scopes_install_once (W : Nat) (env : Env) (e1 : Entry) (rest : List Entry)
    (s : V8IsolateImpl) (hW : 0 < W)
    (hStack : s.m_StackWatchLevel = 0) (hHeap : s.m_HeapWatchLevel = 0)
    (hL : 0 < s.m_MaxStackUsage) (hH : 0 < s.m_MaxHeapSize)
    (hOk : (enterAll W env (e1 :: rest) s).2.2 = none) :
    (EnterExecutionScope W env e1.pExecutionScope e1.pStackMarker e1.heap s).1.setStackLimitCalls
        = s.setStackLimitCalls ++ [stackLimitFor W e1.pStackMarker s.m_MaxStackUsage] ∧
      (EnterExecutionScope W env e1.pExecutionScope e1.pStackMarker e1.heap s).1.checkHeapSizeCalls
        = s.checkHeapSizeCalls + 1 ∧
      (enterAll W env (e1 :: rest) s).2.1 = rest.length + 1 ∧
      (enterAll W env (e1 :: rest) s).1.setStackLimitCalls
        = s.setStackLimitCalls ++ [stackLimitFor W e1.pStackMarker s.m_MaxStackUsage] ∧
      (enterAll W env (e1 :: rest) s).1.checkHeapSizeCalls = s.checkHeapSizeCalls + 1 ∧
      (enterAll W env (e1 :: rest) s).1.m_pStackLimit
        = stackLimitFor W e1.pStackMarker s.m_MaxStackUsage ∧
      stackLimitFor W e1.pStackMarker s.m_MaxStackUsage ≠ 0 ∧
      (enterAll W env (e1 :: rest) s).1.m_StackWatchLevel = rest.length + 1 ∧
      (enterAll W env (e1 :: rest) s).1.m_HeapWatchLevel = rest.length + 1 ∧
      (enterAll W env (e1 :: rest) s).1.heapWatchTimerEmptyCalls = s.heapWatchTimerEmptyCalls ∧
      (enterAll W env (e1 :: rest) s).1.m_spHeapWatchTimer
        = (EnterExecutionScope W env e1.pExecutionScope e1.pStackMarker e1.heap s).1.m_spHeapWatchTimer ∧
      (∀ ps : List Nat, ps.length < rest.length + 1 →
        (exitAll W ps (enterAll W env (e1 :: rest) s).1).setStackLimitCalls
          = s.setStackLimitCalls ++ [stackLimitFor W e1.pStackMarker s.m_MaxStackUsage] ∧
        (exitAll W ps (enterAll W env (e1 :: rest) s).1).m_pStackLimit
          = stackLimitFor W e1.pStackMarker s.m_MaxStackUsage ∧
        (exitAll W ps (enterAll W env (e1 :: rest) s).1).heapWatchTimerEmptyCalls
          = s.heapWatchTimerEmptyCalls ∧
        (exitAll W ps (enterAll W env (e1 :: rest) s).1).m_spHeapWatchTimer
          = (EnterExecutionScope W env e1.pExecutionScope e1.pStackMarker e1.heap s).1.m_spHeapWatchTimer ∧
        (exitAll W ps (enterAll W env (e1 :: rest) s).1).m_StackWatchLevel
          = rest.length + 1 - ps.length ∧
        (exitAll W ps (enterAll W env (e1 :: rest) s).1).m_HeapWatchLevel
          = rest.length + 1 - ps.length) ∧
      (∀ ps : List Nat, ps.length = rest.length + 1 →
        (exitAll W ps (enterAll W env (e1 :: rest) s).1).setStackLimitCalls
          = s.setStackLimitCalls
            ++ [stackLimitFor W e1.pStackMarker s.m_MaxStackUsage, s_pMinStackLimit W] ∧
        (exitAll W ps (enterAll W env (e1 :: rest) s).1).checkHeapSizeCalls
          = s.checkHeapSizeCalls + 1 ∧
        (exitAll W ps (enterAll W env (e1 :: rest) s).1).heapWatchTimerEmptyCalls
          = s.heapWatchTimerEmptyCalls + 1 ∧
        (exitAll W ps (enterAll W env (e1 :: rest) s).1).m_spHeapWatchTimer = none ∧
        (exitAll W ps (enterAll W env (e1 :: rest) s).1).m_StackWatchLevel = 0 ∧
        (exitAll W ps (enterAll W env (e1 :: rest) s).1).m_HeapWatchLevel = 0 ∧
        (exitAll W ps (enterAll W env (e1 :: rest) s).1).m_pStackLimit = 0) := by
  obtain ⟨o1, o2, o3, o4, -⟩ :=
    EnterExecutionScope_outermost W env e1.pExecutionScope e1.pStackMarker e1.heap s hStack hL
  obtain ⟨b1, b2, b3, b4⟩ :=
    EnterExecutionScope_heap_fields W env e1.pExecutionScope e1.pStackMarker e1.heap s
  obtain ⟨c1, c2, -⟩ := enterHeapWatch_level env e1.heap s
  rw [if_pos hHeap, if_pos hH] at c1
  rw [if_pos ⟨hHeap, hH⟩] at c2
  rw [c1] at b1
  rw [c2] at b2
  have hB : stackLimitFor W e1.pStackMarker s.m_MaxStackUsage ≠ 0 :=
    Nat.pos_iff_ne_zero.mp (Nat.lt_of_lt_of_le hW (stackLimitFor_ge W _ _))
  rw [enterAll_cons_ok W env e1 rest s _ o1] at hOk ⊢
  simp only at hOk ⊢
  obtain ⟨n1, n2, n3, n4, n5, n6, n7⟩ := enterAll_nested W env rest _
    (by rw [o2]; exact Nat.one_ne_zero) (by rw [b1]; exact Nat.one_ne_zero) hOk
  have hcount := (enterAll_active W env rest
    (EnterExecutionScope W env e1.pExecutionScope e1.pStackMarker e1.heap s).1
    (by rw [o2]; exact Nat.one_ne_zero))
  have hlen : (enterAll W env rest
      (EnterExecutionScope W env e1.pExecutionScope e1.pStackMarker e1.heap s).1).2.1
      = rest.length := by
    rw [hcount.1]
    have hall := hcount.2
    rw [hOk] at hall
    by_cases ha : rest.all (fun e => decide
        ((EnterExecutionScope W env e1.pExecutionScope e1.pStackMarker e1.heap s).1.m_pStackLimit
          ≤ e.pStackMarker)) = true
    · rw [List.takeWhile_eq_self_iff.mpr (by simpa using ha)]
    · rw [if_neg ha] at hall
      cases hall
  rw [n1, n2, n3, n4, n5, n6, n7, o2, o3, o4, b1, b2, b4, hlen]
  refine ⟨rfl, rfl, rfl, rfl, rfl, rfl, hB, by omega, by omega, rfl, rfl, ?_, ?_⟩
  · intro ps hps
    obtain ⟨x1, x2, x3, x4, x5, x6, -⟩ := exitAll_inner W ps
      (enterAll W env rest
        (EnterExecutionScope W env e1.pExecutionScope e1.pStackMarker e1.heap s).1).1
      (by rw [n1, o2]; omega) (by rw [n2, b1]; omega)
    rw [x1, x2, x3, x4, x5, x6, n1, n2, n3, n4, n6, n7, o2, o3, o4, b1, b4]
    exact ⟨rfl, rfl, rfl, rfl, by omega, by omega⟩
  · intro ps hps
    have hne : ps ≠ [] := by
      intro h
      rw [h] at hps
      simp at hps
    obtain ⟨x1, x2, x3, x4, x5, x6, x7⟩ := exitAll_outermost W ps
      (enterAll W env rest
        (EnterExecutionScope W env e1.pExecutionScope e1.pStackMarker e1.heap s).1).1 hne
      (by rw [n1, o2, hps]; omega) (by rw [n2, b1, hps]; omega) (by rw [n3, o3]; exact hB)
    rw [x1, x2, x3, x4, x5, x6, x7, n4, n5, n7, o4, b2, b4]
    exact ⟨by simp, rfl, rfl, rfl, rfl, rfl, rfl⟩

/-- Witness of claim C7 on `configuredState` with two nested entries: after one exit
the only `SetStackLimit` call is the installation of `2147352576`; after two exits
the limit has been reset to the minimum address `8`, once, the timer is gone and
both levels are `0`. -/
theorem nested_scopes_install_once_witness :
    (0 < 8) ∧ configuredState.m_StackWatchLevel = 0 ∧ configuredState.m_HeapWatchLevel = 0 ∧
      0 < configuredState.m_MaxStackUsage ∧ 0 < configuredState.m_MaxHeapSize ∧
      (enterAll 8 chainEnv [entryAt 2147418112, entryAt 2147400000] configuredState).2.2 = none ∧
      (exitAll 8 [1]
        (enterAll 8 chainEnv [entryAt 2147418112, entryAt 2147400000] configuredState).1
        ).setStackLimitCalls = [2147352576] ∧
      (exitAll 8 [1, 0]
        (enterAll 8 chainEnv [entryAt 2147418112, entryAt 2147400000] configuredState).1
        ).setStackLimitCalls = [2147352576, 8] ∧
      (exitAll 8 [1, 0]
        (enterAll 8 chainEnv [entryAt 2147418112, entryAt 2147400000] configuredState).1
        ).heapWatchTimerEmptyCalls = 1 ∧
      (exitAll 8 [1, 0]
        (enterAll 8 chainEnv [entryAt 2147418112, entryAt 2147400000] configuredState).1
        ).m_StackWatchLevel = 0 := by
  obtain ⟨-, -, -, -, -, -, -, -, -, -, -, hInner, hOuter⟩ :=
    nested_scopes_install_once 8 chainEnv (entryAt 2147418112) [entryAt 2147400000]
      configuredState (by decide) (by decide) (by decide) (by decide) (by decide) (by decide)
  exact ⟨by decide, by decide, by decide, by decide, by decide, by decide,
    (hInner [1] (by decide)).1, (hOuter [1, 0] (by decide)).1,
    (hOuter [1, 0] (by decide)).2.2.1, (hOuter [1, 0] (by decide)).2.2.2.2.1⟩

/-! ## The message loop -/

theorem LoopFrame.awaitingDebugger {s1 s2 : V8IsolateImpl} (h : LoopFrame s1 s2) :
    s2.m_AwaitingDebugger = s1.m_AwaitingDebugger :=
  congrArg (fun x => x.m_AwaitingDebugger) h

theorem LoopFrame.debuggingEnabled {s1 s2 : V8IsolateImpl} (h : LoopFrame s1 s2) :
    s2.m_DebuggingEnabled = s1.m_DebuggingEnabled :=
  congrArg (fun x => x.m_DebuggingEnabled) h

theorem LoopFrame.inspector {s1 s2 : V8IsolateImpl} (h : LoopFrame s1 s2) :
    s2.m_spInspector = s1.m_spInspector :=
  congrArg (fun x => x.m_spInspector) h

theorem LoopFrame.scheduledPauses {s1 s2 : V8IsolateImpl} (h : LoopFrame s1 s2) :
    s2.scheduledPauses = s1.scheduledPauses :=
  congrArg (fun x => x.scheduledPauses) h

theorem LoopFrame.name {s1 s2 : V8IsolateImpl} (h : LoopFrame s1 s2) :
    s2.m_Name = s1.m_Name :=
  congrArg (fun x => x.m_Name) h

theorem LoopFrame.contextPtrs {s1 s2 : V8IsolateImpl} (h : LoopFrame s1 s2) :
    s2.m_ContextPtrs = s1.m_ContextPtrs :=
  congrArg (fun x => x.m_ContextPtrs) h

/-- A message-loop drain that returns lets no exception out, leaves the queue
empty and changes nothing but what closures can change. -/
theorem ProcessCallWithLockQueue_lock_frame (env : Env) (fuel : Nat) (s : V8IsolateImpl)
    (r : Drain) (h : ProcessCallWithLockQueue_lock env fuel s = some r) :
    r.thrown = none ∧ r.self.m_CallWithLockQueue = [] ∧ LoopFrame s r.self := by
  obtain ⟨h1, -, h3, h4, -⟩ :=
    lockedDrainLoop_spec env fuel s.m_CallWithLockQueue { s with m_CallWithLockQueue := [] } r rfl h
  exact ⟨h1, h3, LoopFrame.trans (by cases s; rfl) h4⟩

/-- A message-loop drain of an empty queue returns at once and does nothing. -/
theorem ProcessCallWithLockQueue_lock_empty (env : Env) (fuel : Nat) (s : V8IsolateImpl)
    (hq : s.m_CallWithLockQueue = []) :
    ProcessCallWithLockQueue_lock env fuel s
      = some { self := s, callWithLockQueue := [], thrown := none } := by
  have hs : { s with m_CallWithLockQueue := [] } = s := by
    cases s
    simp only at hq
    subst hq
    rfl
  cases fuel <;> simp [ProcessCallWithLockQueue_lock, lockedDrainLoop, hq, hs]

/-- The wait-and-drain loop, when it ends: no exception, an empty queue, and the
quit or the abort flag set. -/
theorem messageLoop_spec (env : Env) (fuel : Nat) (wakeups : List (List Op))
    (s : V8IsolateImpl) (r : Drain) (h : messageLoop env fuel wakeups s = some r) :
    r.thrown = none ∧ r.self.m_CallWithLockQueue = [] ∧
      (r.self.m_QuitMessageLoop = true ∨ r.self.m_AbortMessageLoop = true) ∧
      LoopFrame s r.self := by
  induction wakeups generalizing s with
  | nil => simp [messageLoop] at h
  | cons wake rest ih =>
    simp only [messageLoop] at h
    have hw : LoopFrame s (applyOps wake { s with waitCalls := s.waitCalls + 1 }) :=
      LoopFrame.trans (by cases s; rfl) (applyOps_spec wake _).2.1
    cases hd : ProcessCallWithLockQueue_lock env fuel
        (applyOps wake { s with waitCalls := s.waitCalls + 1 }) with
    | none => rw [hd] at h; simp at h
    | some r1 =>
      obtain ⟨d1, d2, d3⟩ := ProcessCallWithLockQueue_lock_frame env fuel _ r1 hd
      rw [hd] at h
      simp only [d1] at h
      by_cases hflag : (r1.self.m_QuitMessageLoop || r1.self.m_AbortMessageLoop) = true
      · rw [if_pos hflag] at h
        simp only [Option.some.injEq] at h
        subst h
        refine ⟨d1, d2, ?_, hw.trans d3⟩
        simpa using hflag
      · rw [if_neg hflag] at h
        obtain ⟨i1, i2, i3, i4⟩ := ih r1.self h
        exact ⟨i1, i2, i3, (hw.trans d3).trans i4⟩

/-- A `RunMessageLoop` call entered outside the loop, when it returns. -/
theorem RunMessageLoop_fresh (env : Env) (fuel : Nat) (awaitingDebugger : Bool)
    (wakeups : List (List Op)) (s : V8IsolateImpl) (r : LoopRun)
    (hloop : s.m_InMessageLoop = false)
    (h : RunMessageLoop env fuel awaitingDebugger wakeups s = some r) :
    r.thrown = none ∧ r.result = r.self.m_QuitMessageLoop ∧
      (r.self.m_QuitMessageLoop = true ∨ r.self.m_AbortMessageLoop = true) ∧
      r.self.m_CallWithLockQueue = [] ∧ LoopFrame s r.self := by
  unfold RunMessageLoop at h
  rw [hloop] at h
  simp only [Bool.not_false, if_true] at h
  cases hd0 : ProcessCallWithLockQueue_lock env fuel
      { { { s with m_QuitMessageLoop := false, m_AbortMessageLoop := false } with
            m_AwaitingDebugger := awaitingDebugger } with m_InMessageLoop := true } with
  | none => rw [hd0] at h; simp at h
  | some r0 =>
    obtain ⟨a1, -, a3⟩ := ProcessCallWithLockQueue_lock_frame env fuel _ r0 hd0
    rw [hd0] at h
    simp only [a1] at h
    cases hd1 : messageLoop env fuel wakeups r0.self with
    | none => rw [hd1] at h; simp at h
    | some r1 =>
      obtain ⟨b1, b2, b3, b4⟩ := messageLoop_spec env fuel wakeups r0.self r1 hd1
      rw [hd1] at h
      simp only [b1] at h
      have hq : (endPulseValueScopes false s.m_AwaitingDebugger r1.self).m_CallWithLockQueue = [] := b2
      rw [ProcessCallWithLockQueue_lock_empty env fuel _ hq] at h
      simp only [Option.some.injEq] at h
      subst h
      refine ⟨rfl, rfl, b3, b2, ?_⟩
      have hf := a3.trans b4
      have hin : r1.self.m_InMessageLoop = true := hf.inMessageLoop
      have haw : r1.self.m_AwaitingDebugger = awaitingDebugger := hf.awaitingDebugger
      unfold LoopFrame at hf ⊢
      simp only [endPulseValueScopes]
      cases s
      simp only at hloop
      subst hloop
      rw [hf]

/-- A `RunMessageLoop` call that returns throws nothing, changes nothing but what
closures can change, and, entered while the loop runs, changes nothing at all and
returns `false`. -/
theorem RunMessageLoop_returned (env : Env) (fuel : Nat) (awaitingDebugger : Bool)
    (wakeups : List (List Op)) (s : V8IsolateImpl) (r : LoopRun)
    (h : RunMessageLoop env fuel awaitingDebugger wakeups s = some r) :
    r.thrown = none ∧ (s.m_InMessageLoop = true → r.self = s ∧ r.result = false) ∧
      LoopFrame s r.self := by
  cases hloop : s.m_InMessageLoop with
  | true =>
    have hr : some ({ self := s, result := false, thrown := none } : LoopRun) = some r := by
      rw [← h]
      unfold RunMessageLoop
      rw [hloop]
      rfl
    simp only [Option.some.injEq] at hr
    subst hr
    exact ⟨rfl, fun _ => ⟨rfl, rfl⟩, LoopFrame.refl s⟩
  | false =>
    obtain ⟨c1, -, -, -, c5⟩ := RunMessageLoop_fresh env fuel awaitingDebugger wakeups s r hloop h
    exact ⟨c1, fun hf => absurd hf (by simp), c5⟩

theorem Submitted.interruptFree (s1 s2 : V8IsolateImpl) (subs : List Callback)
    (h : Submitted s1 s2 subs) (hin : s1.m_InMessageLoop = true) :
    s2.interruptRequests = s1.interruptRequests := by
  rw [h.interruptRequests, hin]
  rfl

/-- While the message loop is active a drain requests no interrupt, and the
closures it invokes are the entries it was given followed by the entries accepted
meanwhile, in order. -/
theorem lockedDrainLoop_in_loop (env : Env) (fuel : Nat) (q : List Callback) (s : V8IsolateImpl)
    (r : Drain) (hin : s.m_InMessageLoop = true)
    (h : lockedDrainLoop env fuel q s = some r) :
    r.self.interruptRequests = s.interruptRequests := by
  induction fuel generalizing q s with
  | zero =>
    cases q with
    | nil =>
      simp only [lockedDrainLoop, Option.some.injEq] at h
      subst h; rfl
    | cons cb rest => simp [lockedDrainLoop] at h
  | succ fuel ih =>
    cases q with
    | nil =>
      simp only [lockedDrainLoop, Option.some.injEq] at h
      subst h; rfl
    | cons cb rest =>
      obtain ⟨h1, -, -, -, h5, subs, h6⟩ := ProcessCallWithLockQueue_queue_spec env (cb :: rest) s
      simp only [lockedDrainLoop, h1] at h
      have hin2 : (ProcessCallWithLockQueue_queue env (cb :: rest) s).self.m_InMessageLoop = true :=
        h5.inMessageLoop.trans hin
      have hstep : r.self.interruptRequests
          = (ProcessCallWithLockQueue_queue env (cb :: rest) s).self.interruptRequests :=
        ih (ProcessCallWithLockQueue_queue env (cb :: rest) s).self.m_CallWithLockQueue
          { (ProcessCallWithLockQueue_queue env (cb :: rest) s).self with
            m_CallWithLockQueue := [] } hin2 h
      rw [hstep]
      exact Submitted.interruptFree _ _ _ h6 hin

theorem ProcessCallWithLockQueue_lock_in_loop (env : Env) (fuel : Nat) (s : V8IsolateImpl)
    (r : Drain) (hin : s.m_InMessageLoop = true)
    (h : ProcessCallWithLockQueue_lock env fuel s = some r) :
    r.self.interruptRequests = s.interruptRequests ∧
      ∃ subs, r.self.accepted = s.accepted ++ subs ∧
        r.self.invoked = s.invoked ++ (s.m_CallWithLockQueue ++ subs) := by
  have h2 : lockedDrainLoop env fuel s.m_CallWithLockQueue { s with m_CallWithLockQueue := [] }
      = some r := h
  obtain ⟨-, -, -, -, subs, hacc, hinv⟩ :=
    lockedDrainLoop_spec env fuel s.m_CallWithLockQueue { s with m_CallWithLockQueue := [] } r rfl h2
  exact ⟨lockedDrainLoop_in_loop env fuel s.m_CallWithLockQueue
    { s with m_CallWithLockQueue := [] } r hin h2, subs, hacc, hinv⟩

/-- The wait-and-drain loop requests no interrupt, and invokes what was queued
when it started followed by everything accepted while it ran, in the order of
acceptance. -/
theorem messageLoop_in_loop (env : Env) (fuel : Nat) (wakeups : List (List Op))
    (s : V8IsolateImpl) (r : Drain) (hin : s.m_InMessageLoop = true)
    (h : messageLoop env fuel wakeups s = some r) :
    r.self.interruptRequests = s.interruptRequests ∧
      ∃ subs, r.self.accepted = s.accepted ++ subs ∧
        r.self.invoked = s.invoked ++ (s.m_CallWithLockQueue ++ subs) := by
  induction wakeups generalizing s with
  | nil => simp [messageLoop] at h
  | cons wake rest ih =>
    simp only [messageLoop] at h
    obtain ⟨w1, w2, w3, -⟩ := applyOps_spec wake { s with waitCalls := s.waitCalls + 1 }
    have hin1 : (applyOps wake { s with waitCalls := s.waitCalls + 1 }).m_InMessageLoop = true :=
      w2.inMessageLoop.trans hin
    cases hd : ProcessCallWithLockQueue_lock env fuel
        (applyOps wake { s with waitCalls := s.waitCalls + 1 }) with
    | none => rw [hd] at h; simp at h
    | some r1 =>
      obtain ⟨d1, d2, d3⟩ := ProcessCallWithLockQueue_lock_frame env fuel _ r1 hd
      obtain ⟨e1, subs1, e2, e3⟩ := ProcessCallWithLockQueue_lock_in_loop env fuel _ r1 hin1 hd
      have hw : (applyOps wake { s with waitCalls := s.waitCalls + 1 }).interruptRequests
          = s.interruptRequests :=
        Submitted.interruptFree { s with waitCalls := s.waitCalls + 1 } _ _ w1 hin
      have hreq : r1.self.interruptRequests = s.interruptRequests := e1.trans hw
      have hacc : r1.self.accepted = s.accepted ++ (submissions wake ++ subs1) := by
        rw [e2, w1.accepted, List.append_assoc]
      have hinv : r1.self.invoked
          = s.invoked ++ (s.m_CallWithLockQueue ++ (submissions wake ++ subs1)) := by
        rw [e3, w3, w1.queue, List.append_assoc]
      rw [hd] at h
      simp only [d1] at h
      split_ifs at h
      · simp only [Option.some.injEq] at h
        subst h
        exact ⟨hreq, _, hacc, hinv⟩
      · obtain ⟨i1, subs2, i2, i3⟩ := ih r1.self (d3.inMessageLoop.trans hin1) h
        refine ⟨i1.trans hreq, submissions wake ++ subs1 ++ subs2, ?_, ?_⟩
        · rw [i2, hacc]; simp only [List.append_assoc]
        · rw [i3, hinv, d2]; simp only [List.append_assoc, List.nil_append]

/-- The stages of a `RunMessageLoop` call entered outside the loop: the first
drain, the wait-and-drain loop, the end of the pulse scopes, and the last drain,
which finds the queue empty. -/
theorem RunMessageLoop_stages (env : Env) (fuel : Nat) (awaitingDebugger : Bool)
    (wakeups : List (List Op)) (s : V8IsolateImpl) (r : LoopRun)
    (hloop : s.m_InMessageLoop = false)
    (h : RunMessageLoop env fuel awaitingDebugger wakeups s = some r) :
    ∃ r0 r1,
      ProcessCallWithLockQueue_lock env fuel (messageLoopEntry awaitingDebugger s) = some r0 ∧
      messageLoop env fuel wakeups r0.self = some r1 ∧
      r1.self.m_InMessageLoop = true ∧ r1.self.m_CallWithLockQueue = [] ∧
      r.self = endPulseValueScopes false s.m_AwaitingDebugger r1.self ∧
      r.self.m_InMessageLoop = false ∧ r.self.m_CallWithLockQueue = [] ∧
      r.self.interruptRequests = s.interruptRequests ∧
      ∃ subs, r.self.accepted = s.accepted ++ subs ∧
        r.self.invoked = s.invoked ++ (s.m_CallWithLockQueue ++ subs) := by
  unfold RunMessageLoop at h
  rw [hloop] at h
  simp only [Bool.not_false, if_true] at h
  have hentry : ({ { { s with m_QuitMessageLoop := false, m_AbortMessageLoop := false } with
      m_AwaitingDebugger := awaitingDebugger } with m_InMessageLoop := true } : V8IsolateImpl)
      = messageLoopEntry awaitingDebugger s := rfl
  rw [hentry] at h
  cases hd0 : ProcessCallWithLockQueue_lock env fuel (messageLoopEntry awaitingDebugger s) with
  | none => rw [hd0] at h; simp at h
  | some r0 =>
    obtain ⟨a1, a2, a3⟩ := ProcessCallWithLockQueue_lock_frame env fuel _ r0 hd0
    obtain ⟨a4, subs0, a5, a6⟩ := ProcessCallWithLockQueue_lock_in_loop env fuel _ r0 rfl hd0
    have hin0 : r0.self.m_InMessageLoop = true := a3.inMessageLoop
    rw [hd0] at h
    simp only [a1] at h
    cases hd1 : messageLoop env fuel wakeups r0.self with
    | none => rw [hd1] at h; simp at h
    | some r1 =>
      obtain ⟨b1, b2, -, b4⟩ := messageLoop_spec env fuel wakeups r0.self r1 hd1
      obtain ⟨b5, subs1, b6, b7⟩ := messageLoop_in_loop env fuel wakeups r0.self r1 hin0 hd1
      rw [hd1] at h
      simp only [b1] at h
      have hq : (endPulseValueScopes false s.m_AwaitingDebugger r1.self).m_CallWithLockQueue = [] := b2
      rw [ProcessCallWithLockQueue_lock_empty env fuel _ hq] at h
      simp only [Option.some.injEq] at h
      subst h
      refine ⟨r0, r1, rfl, hd1, b4.inMessageLoop.trans hin0, b2, rfl, rfl, b2, ?_,
        subs0 ++ subs1, ?_, ?_⟩
      · exact b5.trans a4
      · show r1.self.accepted = s.accepted ++ (subs0 ++ subs1)
        rw [b6, a5]
        simp only [List.append_assoc]
        rfl
      · show r1.self.invoked = s.invoked ++ (s.m_CallWithLockQueue ++ (subs0 ++ subs1))
        rw [b7, a6, a2]
        simp only [List.append_assoc, List.nil_append]
        rfl

/-- A stop request, once made, stays: no operation of a closure clears the quit
or the abort flag. -/
theorem applyOps_stop (ops : List Op) (s : V8IsolateImpl)
    (h : (s.m_QuitMessageLoop || s.m_AbortMessageLoop) = true) :
    ((applyOps ops s).m_QuitMessageLoop || (applyOps ops s).m_AbortMessageLoop) = true := by
  induction ops generalizing s with
  | nil => exact h
  | cons op ops ih =>
    apply ih
    cases op with
    | callWithLockAsync callback =>
      have hf := CallWithLockAsync_frame callback s
      have hq : (CallWithLockAsync callback s).m_QuitMessageLoop = s.m_QuitMessageLoop :=
        congrArg (fun x => x.m_QuitMessageLoop) hf
      have ha : (CallWithLockAsync callback s).m_AbortMessageLoop = s.m_AbortMessageLoop :=
        congrArg (fun x => x.m_AbortMessageLoop) hf
      simp only [applyOp]
      rw [hq, ha]
      exact h
    | quitMessageLoopOnPause => simp [applyOp, quitMessageLoopOnPause]
    | abortMessageLoop => simp [applyOp, AbortMessageLoop]
    | connectDebugClient =>
      simp only [applyOp, ConnectDebugClient_callback]
      split_ifs <;> exact h
    | sendDebugCommand command =>
      simp only [applyOp, SendDebugCommand_callback]
      split_ifs <;> exact h
    | disconnectDebugClient => exact h

/-- A wake-up that carries a quit or an abort leaves the flag set. -/
theorem applyOps_stop_of_mem (ops : List Op) (s : V8IsolateImpl)
    (h : Op.quitMessageLoopOnPause ∈ ops ∨ Op.abortMessageLoop ∈ ops) :
    ((applyOps ops s).m_QuitMessageLoop || (applyOps ops s).m_AbortMessageLoop) = true := by
  induction ops generalizing s with
  | nil => rcases h with h | h <;> cases h
  | cons op ops ih =>
    by_cases hop : op = Op.quitMessageLoopOnPause ∨ op = Op.abortMessageLoop
    · simp only [applyOps]
      apply applyOps_stop
      rcases hop with rfl | rfl
      · simp [applyOp, quitMessageLoopOnPause]
      · simp [applyOp, AbortMessageLoop]
    · simp only [applyOps]
      apply ih
      rcases h with h | h
      · rcases List.mem_cons.1 h with h | h
        · exact absurd (Or.inl h.symm) hop
        · exact Or.inl h
      · rcases List.mem_cons.1 h with h | h
        · exact absurd (Or.inr h.symm) hop
        · exact Or.inr h

theorem invoke_stop (env : Env) (cb : Callback) (s : V8IsolateImpl)
    (h : (s.m_QuitMessageLoop || s.m_AbortMessageLoop) = true) :
    ((invoke env cb s).1.m_QuitMessageLoop || (invoke env cb s).1.m_AbortMessageLoop) = true := by
  cases cb with
  | host id => exact applyOps_stop _ _ h
  | runTask task => exact applyOps_stop _ _ h

theorem ProcessCallWithLockQueue_queue_stop (env : Env) (q : List Callback) (s : V8IsolateImpl)
    (h : (s.m_QuitMessageLoop || s.m_AbortMessageLoop) = true) :
    ((ProcessCallWithLockQueue_queue env q s).self.m_QuitMessageLoop
      || (ProcessCallWithLockQueue_queue env q s).self.m_AbortMessageLoop) = true := by
  induction q generalizing s with
  | nil => exact h
  | cons cb rest ih =>
    simp only [ProcessCallWithLockQueue_queue, catchAll]
    exact ih _ (invoke_stop env cb s h)

theorem lockedDrainLoop_stop (env : Env) (fuel : Nat) (q : List Callback) (s : V8IsolateImpl)
    (r : Drain) (hr : lockedDrainLoop env fuel q s = some r)
    (h : (s.m_QuitMessageLoop || s.m_AbortMessageLoop) = true) :
    (r.self.m_QuitMessageLoop || r.self.m_AbortMessageLoop) = true := by
  induction fuel generalizing q s with
  | zero =>
    cases q with
    | nil =>
      simp only [lockedDrainLoop, Option.some.injEq] at hr
      subst hr; exact h
    | cons cb rest => simp [lockedDrainLoop] at hr
  | succ fuel ih =>
    cases q with
    | nil =>
      simp only [lockedDrainLoop, Option.some.injEq] at hr
      subst hr; exact h
    | cons cb rest =>
      obtain ⟨h1, -⟩ := ProcessCallWithLockQueue_queue_spec env (cb :: rest) s
      simp only [lockedDrainLoop, h1] at hr
      exact ih _ _ hr (ProcessCallWithLockQueue_queue_stop env (cb :: rest) s h)

/-- A `RunMessageLoop` call returns when the closures cannot resubmit for ever
(every closure submits only closures of smaller rank, and the fuel is above
the ranks) and the first wake-up of the loop carries a quit or an abort. -/
theorem RunMessageLoop_returns (env : Env) (rank : Callback → Nat)
    (hrank : ∀ cb s, ∀ c ∈ submissions (env cb s).ops, rank c < rank cb)
    (n : Nat) (hn : ∀ cb, rank cb < n) (awaitingDebugger : Bool)
    (wake : List Op) (rest : List (List Op)) (s : V8IsolateImpl)
    (hstop : Op.quitMessageLoopOnPause ∈ wake ∨ Op.abortMessageLoop ∈ wake) :
    ∃ r, RunMessageLoop env n awaitingDebugger (wake :: rest) s = some r := by
  have hret : ∀ t : V8IsolateImpl, ∃ r, ProcessCallWithLockQueue_lock env n t = some r :=
    fun t => ProcessCallWithLockQueue_lock_returns env rank hrank n t (fun cb _ => hn cb)
  unfold RunMessageLoop
  cases hloop : s.m_InMessageLoop with
  | true => exact ⟨_, rfl⟩
  | false =>
    simp only [Bool.not_false, if_true]
    obtain ⟨r0, h0⟩ := hret
      { s with m_QuitMessageLoop := false, m_AbortMessageLoop := false,
               m_AwaitingDebugger := awaitingDebugger, m_InMessageLoop := true }
    obtain ⟨t0, -, -⟩ := ProcessCallWithLockQueue_lock_frame env n _ r0 h0
    rw [h0]
    simp only [t0]
    obtain ⟨r1, h1⟩ := hret (applyOps wake { r0.self with waitCalls := r0.self.waitCalls + 1 })
    obtain ⟨t1, -, -⟩ := ProcessCallWithLockQueue_lock_frame env n _ r1 h1
    have hflag : (r1.self.m_QuitMessageLoop || r1.self.m_AbortMessageLoop) = true :=
      lockedDrainLoop_stop env n _ _ r1 h1 (applyOps_stop_of_mem wake _ hstop)
    have hloopEq : messageLoop env n (wake :: rest) r0.self = some r1 := by
      simp only [messageLoop, h1, t1, hflag, if_true]
    rw [hloopEq]
    simp only [t1]
    obtain ⟨r2, h2⟩ := hret (endPulseValueScopes false s.m_AwaitingDebugger r1.self)
    exact ⟨_, by rw [h2]⟩

/-- An `AwaitDebuggerAndPause` call returns under the conditions of
`RunMessageLoop_returns`. -/
theorem AwaitDebuggerAndPause_returns (env : Env) (rank : Callback → Nat)
    (hrank : ∀ cb s, ∀ c ∈ submissions (env cb s).ops, rank c < rank cb)
    (n : Nat) (hn : ∀ cb, rank cb < n)
    (wake : List Op) (rest : List (List Op)) (s : V8IsolateImpl)
    (hstop : Op.quitMessageLoopOnPause ∈ wake ∨ Op.abortMessageLoop ∈ wake) :
    ∃ r, AwaitDebuggerAndPause env n (wake :: rest) s = some r := by
  obtain ⟨run, hrun⟩ :=
    RunMessageLoop_returns env rank hrank n hn true wake rest (Scope_enter env s) hstop
  dsimp only [AwaitDebuggerAndPause]
  rw [hrun]
  cases hth : run.thrown <;> simp only [hth] <;> split_ifs <;> exact ⟨_, rfl⟩

/-- Claim C11. A `RunMessageLoop` call that returns throws nothing and leaves the
in-loop and awaiting-debugger flags at their values before the call.  Entered
while the loop is running it returns `false` at once, whatever would wake it, with
the controller untouched.  Entered outside the loop it forgets the quit and abort
flags it finds, ends only with the quit or the abort flag set and the queue empty,
and returns the quit flag: `true` exactly when the loop was quit, `false` when it
was aborted without being quit. -/
theorem RunMessageLoop_result (env : Env) (fuel : Nat) (awaitingDebugger : Bool)
    (wakeups : List (List Op)) (s : V8IsolateImpl) (r : LoopRun)
    (h : RunMessageLoop env fuel awaitingDebugger wakeups s = some r) :
    r.thrown = none ∧
      r.self.m_InMessageLoop = s.m_InMessageLoop ∧
      r.self.m_AwaitingDebugger = s.m_AwaitingDebugger ∧
      (s.m_InMessageLoop = true → r.self = s ∧ r.result = false) ∧
      (s.m_InMessageLoop = true → ∀ fuel2 awaitingDebugger2 wakeups2,
        RunMessageLoop env fuel2 awaitingDebugger2 wakeups2 s
          = some { self := s, result := false, thrown := none }) ∧
      (s.m_InMessageLoop = false →
        (r.result = true ↔ r.self.m_QuitMessageLoop = true) ∧
        (r.result = false →
          r.self.m_AbortMessageLoop = true ∧ r.self.m_QuitMessageLoop = false) ∧
        (r.self.m_QuitMessageLoop = true ∨ r.self.m_AbortMessageLoop = true) ∧
        r.self.m_CallWithLockQueue = [] ∧
        (∀ quit abort, RunMessageLoop env fuel awaitingDebugger wakeups
          { s with m_QuitMessageLoop := quit, m_AbortMessageLoop := abort } = some r)) := by
  cases hloop : s.m_InMessageLoop with
  | true =>
    have htot : ∀ fuel2 awaitingDebugger2 wakeups2,
        RunMessageLoop env fuel2 awaitingDebugger2 wakeups2 s
          = some { self := s, result := false, thrown := none } := by
      intro fuel2 awaitingDebugger2 wakeups2
      unfold RunMessageLoop
      rw [hloop]
      rfl
    rw [htot] at h
    simp only [Option.some.injEq] at h
    subst h
    exact ⟨rfl, hloop, rfl, fun _ => ⟨rfl, rfl⟩, fun _ => htot,
      fun hf => absurd hf (by simp)⟩
  | false =>
    obtain ⟨c1, c2, c3, c4, c5⟩ :=
      RunMessageLoop_fresh env fuel awaitingDebugger wakeups s r hloop h
    refine ⟨c1, c5.inMessageLoop.trans hloop, c5.awaitingDebugger,
      fun hf => absurd hf (by simp), fun hf => absurd hf (by simp), fun _ => ?_⟩
    refine ⟨by rw [c2], ?_, c3, c4, ?_⟩
    · intro hres
      rw [c2] at hres
      rcases c3 with hq | ha
      · rw [hq] at hres; cases hres
      · exact ⟨ha, hres⟩
    · intro quit abort
      rw [← h]
      unfold RunMessageLoop
      simp only [hloop]
      rfl

/-- Witness of claim C11: the run of the loop on `idleState` that is quit during its
second wait returns `true` with the flags restored and the queue drained. -/
theorem RunMessageLoop_result_witness :
    RunMessageLoop chainEnv 3 true
        [[Op.callWithLockAsync (some (Callback.host 2))], [Op.quitMessageLoopOnPause]] idleState
        = some quitRun ∧
      quitRun.thrown = none ∧
      quitRun.self.m_InMessageLoop = idleState.m_InMessageLoop ∧
      (quitRun.result = true ↔ quitRun.self.m_QuitMessageLoop = true) ∧
      quitRun.self.m_CallWithLockQueue = [] :=
  ⟨by decide,
    (RunMessageLoop_result chainEnv 3 true
      [[Op.callWithLockAsync (some (Callback.host 2))], [Op.quitMessageLoopOnPause]] idleState
      quitRun (by decide)).1,
    (RunMessageLoop_result chainEnv 3 true
      [[Op.callWithLockAsync (some (Callback.host 2))], [Op.quitMessageLoopOnPause]] idleState
      quitRun (by decide)).2.1,
    ((RunMessageLoop_result chainEnv 3 true
      [[Op.callWithLockAsync (some (Callback.host 2))], [Op.quitMessageLoopOnPause]] idleState
      quitRun (by decide)).2.2.2.2.2 (by decide)).1,
    ((RunMessageLoop_result chainEnv 3 true
      [[Op.callWithLockAsync (some (Callback.host 2))], [Op.quitMessageLoopOnPause]] idleState
      quitRun (by decide)).2.2.2.2.2 (by decide)).2.2.2.1⟩

theorem Scope_enter_debug (env : Env) (s : V8IsolateImpl) :
    (Scope_enter env s).m_DebuggingEnabled = s.m_DebuggingEnabled ∧
      (Scope_enter env s).m_spInspector = s.m_spInspector ∧
      (Scope_enter env s).scheduledPauses = s.scheduledPauses ∧
      (Scope_enter env s).m_ContextPtrs = s.m_ContextPtrs :=
  ⟨(Scope_enter_spec env s).1.debuggingEnabled, (Scope_enter_spec env s).1.inspector,
    (Scope_enter_spec env s).1.scheduledPauses, (Scope_enter_spec env s).1.contextPtrs⟩

/-- Entering the isolate scope with nothing queued changes nothing. -/
theorem Scope_enter_idle (env : Env) (s : V8IsolateImpl) (hq : s.m_CallWithLockQueue = []) :
    Scope_enter env s = s := by
  have hs : { s with m_CallWithLockQueue := [] } = s := by
    cases s
    simp only at hq
    subst hq
    rfl
  simp [Scope_enter, ProcessCallWithLockQueue, ProcessCallWithLockQueue_queue, hq, hs]

/-- Counterexample to claim C12 as stated.  On `detachingState` debugging is
enabled and a session is attached at the time of the call, but the closure of
`DisconnectDebugClient` is queued: entering the isolate scope runs it, the session
test of `AwaitDebuggerAndPause` finds no session, the message loop is run (one
wait), and, the loop being aborted, the call throws the Interrupt exception and
schedules no pause.  On `attachingState` no session is attached at the time of
the call, but the closure of `ConnectDebugClient` is queued: the call runs no loop,
whatever would wake it, and schedules a pause. -/
theorem AwaitDebuggerAndPause_session_tested_after_entry :
    detachingState.m_DebuggingEnabled = true ∧
      detachingState.m_spInspectorSession = true ∧
      AwaitDebuggerAndPause debugClientEnv 1 [[Op.abortMessageLoop]] detachingState
        = some ({ detachingState with
                  m_CallWithLockQueue := [], invoked := [Callback.host 11]
                  m_spInspectorSession := false, m_AbortMessageLoop := true, waitCalls := 1 },
            some (Thrown.v8 (awaitInterrupted detachingState))) ∧
      attachingState.m_DebuggingEnabled = true ∧
      attachingState.m_spInspectorSession = false ∧
      AwaitDebuggerAndPause debugClientEnv 0 [] attachingState
        = some ({ attachingState with
                  m_CallWithLockQueue := [], invoked := [Callback.host 10]
                  m_spInspectorSession := true, connectedSessions := 1
                  scheduledPauses := 1 },
            none) := by
  refine ⟨?_, ?_, ?_, ?_, ?_, ?_⟩ <;> decide

/-- Claim C12, amended. The session test of `AwaitDebuggerAndPause` is made after
the isolate scope is entered, that is after the closures queued at the call have
run, and these may attach or detach the session.  A call that returns throws
exactly when debugging is enabled, no session is attached after scope entry and
the message loop it runs in awaiting-debugger mode returns `false`; what it throws
is an Interrupt-kind `V8Exception`.  With debugging not enabled it only enters the
isolate scope: no loop, no pause.  With debugging enabled and a session attached
after scope entry it runs no loop and schedules one pause on the next statement.
With debugging enabled, no session after scope entry and a loop that returns
`true`, it schedules a pause if a session is attached by then.  With nothing
queued at the call, scope entry changes nothing and the session tested is the one
at the time of the call. -/
theorem AwaitDebuggerAndPause_spec (env : Env) (fuel : Nat) (wakeups : List (List Op))
    (s : V8IsolateImpl) (r : V8IsolateImpl × Option Thrown)
    (h : AwaitDebuggerAndPause env fuel wakeups s = some r) :
    ((∃ e, r.2 = some e) ↔
        (s.m_DebuggingEnabled = true ∧ (Scope_enter env s).m_spInspectorSession = false ∧
          ∃ run, RunMessageLoop env fuel true wakeups (Scope_enter env s) = some run
            ∧ run.result = false)) ∧
      (∀ e, r.2 = some e →
        e = Thrown.v8 (awaitInterrupted s) ∧
        (awaitInterrupted s).type = V8ExceptionType.Interrupt) ∧
      (s.m_DebuggingEnabled = false → ∀ fuel2 wakeups2,
        AwaitDebuggerAndPause env fuel2 wakeups2 s = some (Scope_enter env s, none)) ∧
      (s.m_DebuggingEnabled = true → (Scope_enter env s).m_spInspectorSession = true →
        ∀ fuel2 wakeups2,
        AwaitDebuggerAndPause env fuel2 wakeups2 s
          = some ({ Scope_enter env s with scheduledPauses := s.scheduledPauses + 1 }, none)) ∧
      (s.m_DebuggingEnabled = true → (Scope_enter env s).m_spInspectorSession = false →
        ∀ run, RunMessageLoop env fuel true wakeups (Scope_enter env s) = some run →
          run.result = true → r = (schedulePause run.self, none)) ∧
      (s.m_CallWithLockQueue = [] → Scope_enter env s = s) := by
  obtain ⟨e1, -, e4, -⟩ := Scope_enter_debug env s
  have hOff : s.m_DebuggingEnabled = false → ∀ fuel2 wakeups2,
      AwaitDebuggerAndPause env fuel2 wakeups2 s = some (Scope_enter env s, none) := by
    intro hd fuel2 wakeups2
    unfold AwaitDebuggerAndPause
    simp [e1, hd]
  have hOn : s.m_DebuggingEnabled = true → (Scope_enter env s).m_spInspectorSession = true →
      ∀ fuel2 wakeups2,
      AwaitDebuggerAndPause env fuel2 wakeups2 s
        = some ({ Scope_enter env s with scheduledPauses := s.scheduledPauses + 1 }, none) := by
    intro hd hs fuel2 wakeups2
    unfold AwaitDebuggerAndPause
    simp [e1, e4, hd, hs, schedulePause]
  refine ⟨?_, ?_, hOff, hOn, ?_, Scope_enter_idle env s⟩
  · cases hd : s.m_DebuggingEnabled with
    | false =>
      rw [hOff hd] at h
      simp only [Option.some.injEq] at h
      subst h
      simp
    | true =>
      cases hs : (Scope_enter env s).m_spInspectorSession with
      | true =>
        rw [hOn hd hs] at h
        simp only [Option.some.injEq] at h
        subst h
        simp
      | false =>
        unfold AwaitDebuggerAndPause at h
        simp only [e1, hd, hs, Bool.not_false, if_true] at h
        cases hrun : RunMessageLoop env fuel true wakeups (Scope_enter env s) with
        | none => rw [hrun] at h; simp at h
        | some run =>
          have hthrown := (RunMessageLoop_returned env fuel true wakeups _ run hrun).1
          rw [hrun] at h
          simp only [hthrown] at h
          cases hres : run.result with
          | false =>
            rw [hres] at h
            simp only [Bool.not_false, if_true, Option.some.injEq] at h
            subst h
            simp [hres]
          | true =>
            rw [hres] at h
            simp only [Bool.not_true, Bool.false_eq_true, if_false, Option.some.injEq] at h
            subst h
            simp [hres]
  · intro e he
    refine ⟨?_, rfl⟩
    cases hd : s.m_DebuggingEnabled with
    | false =>
      rw [hOff hd] at h
      simp only [Option.some.injEq] at h
      subst h
      simp at he
    | true =>
      cases hs : (Scope_enter env s).m_spInspectorSession with
      | true =>
        rw [hOn hd hs] at h
        simp only [Option.some.injEq] at h
        subst h
        simp at he
      | false =>
        unfold AwaitDebuggerAndPause at h
        simp only [e1, hd, hs, Bool.not_false, if_true] at h
        cases hrun : RunMessageLoop env fuel true wakeups (Scope_enter env s) with
        | none => rw [hrun] at h; simp at h
        | some run =>
          have hthrown := (RunMessageLoop_returned env fuel true wakeups _ run hrun).1
          rw [hrun] at h
          simp only [hthrown] at h
          cases hres : run.result with
          | false =>
            rw [hres] at h
            simp only [Bool.not_false, if_true, Option.some.injEq] at h
            subst h
            simp only [Option.some.injEq] at he
            rw [← he]
            congr 1
            simp only [awaitInterrupted]
            have hname : run.self.m_Name = s.m_Name := by
              by_cases hl : (Scope_enter env s).m_InMessageLoop = true
              · have := ((RunMessageLoop_returned env fuel true wakeups _ run hrun).2.1 hl).1
                rw [this]
                exact (Scope_enter_spec env s).1.name
              · have hl2 : (Scope_enter env s).m_InMessageLoop = false := by simpa using hl
                have hf := (RunMessageLoop_fresh env fuel true wakeups _ run hl2 hrun).2.2.2.2
                exact hf.name.trans (Scope_enter_spec env s).1.name
            rw [hname]
          | true =>
            rw [hres] at h
            simp only [Bool.not_true, Bool.false_eq_true, if_false, Option.some.injEq] at h
            subst h
            simp at he
  · intro hd hs run hrun hres
    have hthrown := (RunMessageLoop_returned env fuel true wakeups _ run hrun).1
    unfold AwaitDebuggerAndPause at h
    simp only [e1, hd, hs, Bool.not_false, if_true, hrun, hthrown, hres, Bool.not_true,
      Bool.false_eq_true, if_false, Option.some.injEq] at h
    exact h.symm

/-- Witness of claim C12: on `debuggingState`, where nothing is queued and no
session is attached, with the loop aborted during its first wait, the call
throws the Interrupt exception. -/
theorem AwaitDebuggerAndPause_spec_witness :
    AwaitDebuggerAndPause chainEnv 1 [[Op.abortMessageLoop]] debuggingState
        = some abortedAwait ∧
      (∃ e, abortedAwait.2 = some e) ∧
      (∀ e, abortedAwait.2 = some e →
        e = Thrown.v8 (awaitInterrupted debuggingState) ∧
        (awaitInterrupted debuggingState).type = V8ExceptionType.Interrupt) ∧
      Scope_enter chainEnv debuggingState = debuggingState :=
  ⟨by decide,
    (AwaitDebuggerAndPause_spec chainEnv 1 [[Op.abortMessageLoop]] debuggingState abortedAwait
      (by decide)).1.mpr ⟨by decide, by decide,
        ⟨{ self := { debuggingState with m_AbortMessageLoop := true, waitCalls := 1 }
           result := false, thrown := none }, by decide, rfl⟩⟩,
    (AwaitDebuggerAndPause_spec chainEnv 1 [[Op.abortMessageLoop]] debuggingState abortedAwait
      (by decide)).2.1,
    (AwaitDebuggerAndPause_spec chainEnv 1 [[Op.abortMessageLoop]] debuggingState abortedAwait
      (by decide)).2.2.2.2.2 (by decide)⟩

/-! ## Contexts and debugging -/

theorem EnableDebugging_contextPtrs (port : Int) (remote : Bool) (s : V8IsolateImpl) :
    (EnableDebugging port remote s).m_ContextPtrs = s.m_ContextPtrs ∧
      (EnableDebugging port remote s).m_DebuggingEnabled = true ∧
      (EnableDebugging port remote s).contextCreatedCalls = s.contextCreatedCalls := by
  unfold EnableDebugging
  cases h : s.m_DebuggingEnabled <;> simp [h]

theorem announceContext_fields (c : Nat) (s : V8IsolateImpl) :
    (announceContext c s).m_ContextPtrs = s.m_ContextPtrs ∧
      (announceContext c s).m_DebuggingEnabled = s.m_DebuggingEnabled ∧
      (announceContext c s).m_spInspector = s.m_spInspector ∧
      (announceContext c s).contextCreatedCalls
        = (if s.m_spInspector then s.contextCreatedCalls ++ [c] else s.contextCreatedCalls) := by
  unfold announceContext
  cases h : s.m_spInspector <;> simp [h]

/-- Claim C13. `AddContext(c, options)` appends `c` to the context list when
`options.EnableDebugging` is false and puts it in front when it is true, the
contexts already listed keeping their order; in the second case debugging is
enabled on the controller and `c`, the front element, is the context that
`Compile` and `ensureDefaultContextInGroup` pick. -/
theorem AddContext_spec (env : Env) (c : Nat) (options : V8ContextOptions) (s : V8IsolateImpl) :
    (AddContext c options s).m_ContextPtrs
        = (if options.EnableDebugging then c :: s.m_ContextPtrs else s.m_ContextPtrs ++ [c]) ∧
      (AddContext c options s).contextCreatedCalls
        = (if (AddContext c options s).m_spInspector then s.contextCreatedCalls ++ [c]
           else s.contextCreatedCalls) ∧
      (options.EnableDebugging = true →
        (AddContext c options s).m_ContextPtrs.head? = some c ∧
        (AddContext c options s).m_DebuggingEnabled = true ∧
        (Compile env (AddContext c options s)).2 = some c ∧
        ensureDefaultContextInGroup (AddContext c options s) = some c) := by
  have e1 : (EnableDebugging options.DebugPort options.EnableRemoteDebugging
      { s with m_ContextPtrs := c :: s.m_ContextPtrs }).m_ContextPtrs = c :: s.m_ContextPtrs :=
    (EnableDebugging_contextPtrs _ _ _).1
  have e2 := (EnableDebugging_contextPtrs options.DebugPort options.EnableRemoteDebugging
      { s with m_ContextPtrs := c :: s.m_ContextPtrs }).2.1
  have e3 : (EnableDebugging options.DebugPort options.EnableRemoteDebugging
      { s with m_ContextPtrs := c :: s.m_ContextPtrs }).contextCreatedCalls
        = s.contextCreatedCalls :=
    (EnableDebugging_contextPtrs _ _ _).2.2
  have hlist : (AddContext c options s).m_ContextPtrs
      = (if options.EnableDebugging then c :: s.m_ContextPtrs else s.m_ContextPtrs ++ [c]) := by
    unfold AddContext
    cases ho : options.EnableDebugging
    · simp only [Bool.not_false, if_true, Bool.false_eq_true, if_false]
      rw [(announceContext_fields c _).1]
    · simp only [Bool.not_true, Bool.false_eq_true, if_false, if_true]
      rw [(announceContext_fields c _).1, e1]
  refine ⟨hlist, ?_, ?_⟩
  · unfold AddContext
    cases ho : options.EnableDebugging
    · simp only [Bool.not_false, if_true]
      rw [(announceContext_fields c _).2.2.2, (announceContext_fields c _).2.2.1]
    · simp only [Bool.not_true, Bool.false_eq_true, if_false]
      rw [(announceContext_fields c _).2.2.2, (announceContext_fields c _).2.2.1, e3]
  · intro ho
    rw [ho, if_pos rfl] at hlist
    have henabled : (AddContext c options s).m_DebuggingEnabled = true := by
      unfold AddContext
      simp only [ho, Bool.not_true, Bool.false_eq_true, if_false]
      rw [(announceContext_fields c _).2.1, e2]
    refine ⟨by rw [hlist]; rfl, henabled, ?_, ?_⟩
    · simp only [Compile, compileContext, (Scope_enter_debug env _).2.2.2, hlist]
      simp
    · simp only [ensureDefaultContextInGroup, hlist]
      simp

/-- Counterexample to claim C14 as stated: context `3` is not listed in
`contextState`, and `RemoveContext(3)`, leaving the list as it is, still calls
`contextDestroyed` on the inspector. -/
theorem RemoveContext_notifies_for_absent_context :
    3 ∉ contextState.m_ContextPtrs ∧
      (RemoveContext 3 contextState).m_ContextPtrs = contextState.m_ContextPtrs ∧
      (RemoveContext 3 contextState).contextDestroyedCalls
        = contextState.contextDestroyedCalls ++ [3] := by
  decide

/-- Claim C14, amended. `RemoveContext(c)` erases `c` from the context list and keeps
the other contexts in their order, so the list is unchanged when `c` is not in it;
it calls `contextDestroyed(c)` on the inspector exactly when an inspector exists,
whether `c` is listed or not; nothing else changes. -/
theorem RemoveContext_spec (c : Nat) (s : V8IsolateImpl) :
    (RemoveContext c s).m_ContextPtrs = s.m_ContextPtrs.filter (fun p => p ≠ c) ∧
      (c ∉ s.m_ContextPtrs → (RemoveContext c s).m_ContextPtrs = s.m_ContextPtrs) ∧
      c ∉ (RemoveContext c s).m_ContextPtrs ∧
      (∀ p, p ≠ c →
        List.count p (RemoveContext c s).m_ContextPtrs = List.count p s.m_ContextPtrs) ∧
      List.Sublist (RemoveContext c s).m_ContextPtrs s.m_ContextPtrs ∧
      (RemoveContext c s).contextDestroyedCalls
        = (if s.m_spInspector then s.contextDestroyedCalls ++ [c]
           else s.contextDestroyedCalls) ∧
      RemoveContext c s
        = { s with
            m_ContextPtrs := s.m_ContextPtrs.filter (fun p => p ≠ c)
            contextDestroyedCalls :=
              if s.m_spInspector then s.contextDestroyedCalls ++ [c]
              else s.contextDestroyedCalls } := by
  have hlist : (RemoveContext c s).m_ContextPtrs = s.m_ContextPtrs.filter (fun p => p ≠ c) := by
    dsimp only [RemoveContext]
    split_ifs <;> rfl
  refine ⟨hlist, ?_, ?_, ?_, ?_, ?_, ?_⟩
  · intro hc
    rw [hlist, List.filter_eq_self]
    intro p hp
    have : p ≠ c := fun h => hc (h ▸ hp)
    simpa using this
  · rw [hlist]
    simp [List.mem_filter]
  · intro p hp
    rw [hlist, List.count_filter]
    simpa using hp
  · rw [hlist]
    exact List.filter_sublist _
  · dsimp only [RemoveContext]
    split_ifs <;> rfl
  · dsimp only [RemoveContext]
    cases s
    split_ifs <;> simp_all

/-- Claim C15. `EnableDebugging(port, remote)` changes nothing when debugging is
enabled already, so a second call after a first is a no-op; when debugging is not
enabled it creates one debug agent and one inspector, marks debugging enabled and
stores the port given, or `9222` when that port is less than `1`. -/
theorem EnableDebugging_spec (port : Int) (remote : Bool) (s : V8IsolateImpl) :
    (s.m_DebuggingEnabled = true → EnableDebugging port remote s = s) ∧
      (∀ port2 remote2,
        EnableDebugging port2 remote2 (EnableDebugging port remote s)
          = EnableDebugging port remote s) ∧
      (s.m_DebuggingEnabled = false →
        (EnableDebugging port remote s).m_DebuggingEnabled = true ∧
        (EnableDebugging port remote s).m_DebugPort = (if port < 1 then 9222 else port) ∧
        (EnableDebugging port remote s).createdDebugAgents
          = s.createdDebugAgents ++ [((if port < 1 then 9222 else port), remote)] ∧
        (EnableDebugging port remote s).createdInspectors = s.createdInspectors + 1 ∧
        (EnableDebugging port remote s).m_spInspector = true ∧
        (EnableDebugging port remote s).m_pvDebugAgent ≠ 0) := by
  have hOn : ∀ (t : V8IsolateImpl) (p : Int) (b : Bool),
      t.m_DebuggingEnabled = true → EnableDebugging p b t = t := by
    intro t p b ht
    unfold EnableDebugging
    simp [ht]
  refine ⟨hOn s port remote, ?_, ?_⟩
  · intro port2 remote2
    exact hOn _ port2 remote2 (EnableDebugging_contextPtrs port remote s).2.1
  · intro hd
    unfold EnableDebugging
    simp [hd]

/-- Claim C17. `SetMaxHeapSize(v)` makes `GetMaxHeapSize` return `v`, clears the
out-of-memory flag whatever it was, and changes no other field. -/
theorem SetMaxHeapSize_spec (v : Nat) (s : V8IsolateImpl) :
    GetMaxHeapSize (SetMaxHeapSize v s) = v ∧
      (SetMaxHeapSize v s).m_IsOutOfMemory = false ∧
      SetMaxHeapSize v s = { s with m_MaxHeapSize := v, m_IsOutOfMemory := false } ∧
      { SetMaxHeapSize v s with
          m_MaxHeapSize := s.m_MaxHeapSize, m_IsOutOfMemory := s.m_IsOutOfMemory } = s := by
  refine ⟨rfl, rfl, rfl, ?_⟩
  cases s
  rfl

/-! ## What operations keep of the debugging members -/

theorem SchedulerFrame.debugFields {s1 s2 : V8IsolateImpl} (h : SchedulerFrame s1 s2) :
    V8IsolateImpl.debugFields s2 = V8IsolateImpl.debugFields s1 := by
  have h1 : s2.m_DebuggingEnabled = s1.m_DebuggingEnabled :=
    congrArg (fun x => x.m_DebuggingEnabled) h
  have h2 : s2.m_spInspector = s1.m_spInspector := congrArg (fun x => x.m_spInspector) h
  have h3 : s2.m_spInspectorSession = s1.m_spInspectorSession :=
    congrArg (fun x => x.m_spInspectorSession) h
  unfold V8IsolateImpl.debugFields
  rw [h1, h2, h3]

theorem DebugKept.of_fields_eq {s1 s2 : V8IsolateImpl}
    (h : debugFields s2 = debugFields s1) : DebugKept s1 s2 := by
  unfold debugFields at h
  simp only [Prod.mk.injEq] at h
  obtain ⟨h1, h2, h3⟩ := h
  exact ⟨h1, h2, fun hs => Or.inl (h3 ▸ hs)⟩

theorem DebugKept.compose {s1 s2 s3 : V8IsolateImpl} (h12 : DebugKept s1 s2)
    (h23 : DebugKept s2 s3) : DebugKept s1 s3 := by
  obtain ⟨a1, a2, a3⟩ := h12
  obtain ⟨b1, b2, b3⟩ := h23
  refine ⟨b1.trans a1, b2.trans a2, fun hs => ?_⟩
  rcases b3 hs with h | h
  · exact a3 h
  · exact Or.inr (a2 ▸ h)

@[simp] theorem Scope_enter_m_DebuggingEnabled (env : Env) (s : V8IsolateImpl) :
    (Scope_enter env s).m_DebuggingEnabled = s.m_DebuggingEnabled :=
  (Scope_enter_debug env s).1

@[simp] theorem Scope_enter_m_spInspector (env : Env) (s : V8IsolateImpl) :
    (Scope_enter env s).m_spInspector = s.m_spInspector :=
  (Scope_enter_debug env s).2.1

theorem applyOp_debugKept (op : Op) (s : V8IsolateImpl) : DebugKept s (applyOp op s) := by
  cases op with
  | callWithLockAsync callback =>
    exact DebugKept.of_fields_eq (CallWithLockAsync_frame callback s).debugFields
  | quitMessageLoopOnPause => exact DebugKept.of_fields_eq rfl
  | abortMessageLoop => exact DebugKept.of_fields_eq rfl
  | connectDebugClient =>
    simp only [applyOp, ConnectDebugClient_callback]
    split_ifs with hc
    · simp only [Bool.and_eq_true] at hc
      exact ⟨rfl, rfl, fun _ => Or.inr hc.1⟩
    · exact DebugKept.of_fields_eq rfl
  | sendDebugCommand command =>
    simp only [applyOp, SendDebugCommand_callback]
    split_ifs <;> exact DebugKept.of_fields_eq rfl
  | disconnectDebugClient =>
    exact ⟨rfl, rfl, fun hs => Bool.noConfusion hs⟩

theorem applyOps_debugKept (ops : List Op) (s : V8IsolateImpl) :
    DebugKept s (applyOps ops s) := by
  induction ops generalizing s with
  | nil => exact DebugKept.of_fields_eq rfl
  | cons op ops ih => exact (applyOp_debugKept op s).compose (ih _)

theorem invoke_debugKept (env : Env) (cb : Callback) (s : V8IsolateImpl) :
    DebugKept s (invoke env cb s).1 := by
  cases cb with
  | host id =>
    exact (DebugKept.of_fields_eq rfl).compose (applyOps_debugKept (env (Callback.host id) s).ops
      { s with invoked := s.invoked ++ [Callback.host id] })
  | runTask task =>
    exact (DebugKept.of_fields_eq rfl).compose
      (applyOps_debugKept (env (Callback.runTask task) s).ops
        (Task_Run task { s with invoked := s.invoked ++ [Callback.runTask task] }))

theorem ProcessCallWithLockQueue_queue_debugKept (env : Env) (q : List Callback)
    (s : V8IsolateImpl) : DebugKept s (ProcessCallWithLockQueue_queue env q s).self := by
  induction q generalizing s with
  | nil => exact DebugKept.of_fields_eq rfl
  | cons cb rest ih =>
    have hstep : ProcessCallWithLockQueue_queue env (cb :: rest) s
        = ProcessCallWithLockQueue_queue env rest (invoke env cb s).1 := by
      simp [ProcessCallWithLockQueue_queue, catchAll]
    rw [hstep]
    exact (invoke_debugKept env cb s).compose (ih _)

/-- Entering the isolate scope runs the queued closures: debugging stays enabled or
not and the inspector stays, the session is what those closures leave. -/
theorem Scope_enter_debugKept (env : Env) (s : V8IsolateImpl) :
    DebugKept s (Scope_enter env s) :=
  (DebugKept.of_fields_eq rfl).compose
    (ProcessCallWithLockQueue_queue_debugKept env s.m_CallWithLockQueue
      { s with m_CallWithLockQueue := [] })

theorem lockedDrainLoop_debugKept (env : Env) (fuel : Nat) (q : List Callback)
    (s : V8IsolateImpl) (r : Drain) (h : lockedDrainLoop env fuel q s = some r) :
    DebugKept s r.self := by
  induction fuel generalizing q s with
  | zero =>
    cases q with
    | nil =>
      simp only [lockedDrainLoop, Option.some.injEq] at h
      subst h; exact DebugKept.of_fields_eq rfl
    | cons cb rest => simp [lockedDrainLoop] at h
  | succ fuel ih =>
    cases q with
    | nil =>
      simp only [lockedDrainLoop, Option.some.injEq] at h
      subst h; exact DebugKept.of_fields_eq rfl
    | cons cb rest =>
      obtain ⟨h1, -⟩ := ProcessCallWithLockQueue_queue_spec env (cb :: rest) s
      simp only [lockedDrainLoop, h1] at h
      have hpass := ProcessCallWithLockQueue_queue_debugKept env (cb :: rest) s
      have hrest : DebugKept
          { (ProcessCallWithLockQueue_queue env (cb :: rest) s).self with
            m_CallWithLockQueue := [] } r.self :=
        ih (ProcessCallWithLockQueue_queue env (cb :: rest) s).self.m_CallWithLockQueue
          { (ProcessCallWithLockQueue_queue env (cb :: rest) s).self with
            m_CallWithLockQueue := [] } h
      exact (hpass.compose (DebugKept.of_fields_eq rfl)).compose hrest

theorem ProcessCallWithLockQueue_lock_debugKept (env : Env) (fuel : Nat) (s : V8IsolateImpl)
    (r : Drain) (h : ProcessCallWithLockQueue_lock env fuel s = some r) :
    DebugKept s r.self := by
  have h2 : lockedDrainLoop env fuel s.m_CallWithLockQueue { s with m_CallWithLockQueue := [] }
      = some r := h
  have hloop : DebugKept { s with m_CallWithLockQueue := [] } r.self :=
    lockedDrainLoop_debugKept env fuel s.m_CallWithLockQueue
      { s with m_CallWithLockQueue := [] } r h2
  exact (DebugKept.of_fields_eq rfl).compose hloop

theorem messageLoop_debugKept (env : Env) (fuel : Nat) (wakeups : List (List Op))
    (s : V8IsolateImpl) (r : Drain) (h : messageLoop env fuel wakeups s = some r) :
    DebugKept s r.self := by
  induction wakeups generalizing s with
  | nil => simp [messageLoop] at h
  | cons wake rest ih =>
    simp only [messageLoop] at h
    have hw : DebugKept s (applyOps wake { s with waitCalls := s.waitCalls + 1 }) :=
      (DebugKept.of_fields_eq rfl).compose
        (applyOps_debugKept wake { s with waitCalls := s.waitCalls + 1 })
    cases hd : ProcessCallWithLockQueue_lock env fuel
        (applyOps wake { s with waitCalls := s.waitCalls + 1 }) with
    | none => rw [hd] at h; simp at h
    | some r1 =>
      obtain ⟨d1, -, -⟩ := ProcessCallWithLockQueue_lock_frame env fuel _ r1 hd
      have hk := ProcessCallWithLockQueue_lock_debugKept env fuel _ r1 hd
      rw [hd] at h
      simp only [d1] at h
      split_ifs at h
      · simp only [Option.some.injEq] at h
        subst h
        exact hw.compose hk
      · exact (hw.compose hk).compose (ih r1.self h)

/-- A `RunMessageLoop` call that returns keeps debugging enabled or not and keeps
the inspector; the session is what the closures run by the loop leave. -/
theorem RunMessageLoop_debugKept (env : Env) (fuel : Nat) (awaitingDebugger : Bool)
    (wakeups : List (List Op)) (s : V8IsolateImpl) (r : LoopRun)
    (h : RunMessageLoop env fuel awaitingDebugger wakeups s = some r) :
    DebugKept s r.self := by
  cases hloop : s.m_InMessageLoop with
  | true =>
    rw [((RunMessageLoop_returned env fuel awaitingDebugger wakeups s r h).2.1 hloop).1]
    exact DebugKept.of_fields_eq rfl
  | false =>
    obtain ⟨r0, r1, c1, c2, -, -, c5, -⟩ :=
      RunMessageLoop_stages env fuel awaitingDebugger wakeups s r hloop h
    have k0 : DebugKept s (messageLoopEntry awaitingDebugger s) := DebugKept.of_fields_eq rfl
    have k1 := ProcessCallWithLockQueue_lock_debugKept env fuel _ r0 c1
    have k2 := messageLoop_debugKept env fuel wakeups r0.self r1 c2
    rw [c5]
    exact ((k0.compose k1).compose k2).compose (DebugKept.of_fields_eq rfl)

theorem CallWithLockNoWait_frame (env : Env) (tryLock : Bool) (callback : Callback)
    (s : V8IsolateImpl) : LoopFrame s (CallWithLockNoWait env tryLock callback s).1 := by
  cases tryLock with
  | true => exact (invoke_spec env callback s).2.1
  | false => exact (CallWithLockAsync_frame (some callback) s).toLoopFrame

theorem runTaskDirect_debugKept (env : Env) (task : TaskId) (s : V8IsolateImpl) :
    DebugKept s (runTaskDirect env task s).1 :=
  (DebugKept.of_fields_eq rfl).compose
    (applyOps_debugKept (env (Callback.runTask task) s).ops (Task_Run task s))

theorem CallWithLockNoWait_debugKept (env : Env) (tryLock : Bool) (callback : Callback)
    (s : V8IsolateImpl) : DebugKept s (CallWithLockNoWait env tryLock callback s).1 := by
  cases tryLock with
  | true => exact invoke_debugKept env callback s
  | false => exact DebugKept.of_fields_eq (CallWithLockAsync_frame (some callback) s).debugFields

theorem CheckHeapSize_debugKept (env : Env) (maxHeapSize : Nat) (heap : HeapReadings)
    (s : V8IsolateImpl) : DebugKept s (CheckHeapSize env maxHeapSize heap s) := by
  have hstart : DebugKept s { s with checkHeapSizeCalls := s.checkHeapSizeCalls + 1 } :=
    DebugKept.of_fields_eq rfl
  have hscope : ∀ t : V8IsolateImpl, DebugKept t (GetHeapInfo env t) :=
    fun t => Scope_enter_debugKept env t
  have hset : ∀ (m : Nat) (t : V8IsolateImpl), DebugKept t (SetUpHeapWatchTimer m t) :=
    fun _ _ => DebugKept.of_fields_eq rfl
  have hlow : ∀ t : V8IsolateImpl, DebugKept t (LowMemoryNotification t) :=
    fun _ => DebugKept.of_fields_eq rfl
  have hterm : ∀ t : V8IsolateImpl,
      DebugKept t (TerminateExecution { t with m_IsOutOfMemory := true }) :=
    fun _ => DebugKept.of_fields_eq rfl
  dsimp only [CheckHeapSize]
  split_ifs
  · exact (((hstart.compose (hscope _)).compose (hlow _)).compose (hscope _)).compose (hterm _)
  · exact (((hstart.compose (hscope _)).compose (hlow _)).compose (hscope _)).compose (hset _ _)
  · exact (hstart.compose (hscope _)).compose (hset _ _)

theorem enterHeapWatch_debugKept (env : Env) (heap : HeapReadings) (s : V8IsolateImpl) :
    DebugKept s (enterHeapWatch env heap s) := by
  dsimp only [enterHeapWatch]
  split_ifs
  · exact (CheckHeapSize_debugKept env _ heap s).compose (DebugKept.of_fields_eq rfl)
  · exact DebugKept.of_fields_eq rfl
  · exact DebugKept.of_fields_eq rfl

theorem EnterExecutionScope_debugKept (W : Nat) (env : Env) (pExecutionScope pStackMarker : Nat)
    (heap : HeapReadings) (s : V8IsolateImpl) :
    DebugKept s (EnterExecutionScope W env pExecutionScope pStackMarker heap s).1 := by
  have h := enterHeapWatch_debugKept env heap s
  dsimp only [EnterExecutionScope, markExecutionScope]
  split_ifs <;> exact h.compose (DebugKept.of_fields_eq rfl)

theorem ExitExecutionScope_debugFields (W pPreviousExecutionScope : Nat) (s : V8IsolateImpl) :
    debugFields (ExitExecutionScope W pPreviousExecutionScope s) = debugFields s := by
  dsimp only [ExitExecutionScope, CancelTerminateExecution, exitHeapWatch, exitStackWatch]
  split_ifs <;> rfl

/-- A `RunMessageLoop` call that returns changes nothing but what closures can
change. -/
theorem RunMessageLoop_frame (env : Env) (fuel : Nat) (awaitingDebugger : Bool)
    (wakeups : List (List Op)) (s : V8IsolateImpl) (r : LoopRun)
    (h : RunMessageLoop env fuel awaitingDebugger wakeups s = some r) :
    LoopFrame s r.self := by
  exact (RunMessageLoop_returned env fuel awaitingDebugger wakeups s r h).2.2

theorem schedulePause_keeps (s : V8IsolateImpl) :
    debugFields (schedulePause s) = debugFields s ∧
      (schedulePause s).m_Released = s.m_Released := by
  unfold schedulePause
  split <;> exact ⟨rfl, rfl⟩

/-- An `AwaitDebuggerAndPause` call that returns keeps debugging enabled or not,
the inspector and the released flag; the session is what the closures it ran
leave. -/
theorem AwaitDebuggerAndPause_keeps (env : Env) (fuel : Nat) (wakeups : List (List Op))
    (s : V8IsolateImpl) (r : V8IsolateImpl × Option Thrown)
    (h : AwaitDebuggerAndPause env fuel wakeups s = some r) :
    DebugKept s r.1 ∧ r.1.m_Released = s.m_Released := by
  have hs := (Scope_enter_spec env s).1
  have hk := Scope_enter_debugKept env s
  dsimp only [AwaitDebuggerAndPause] at h
  split_ifs at h with h1 h2
  · cases hrun : RunMessageLoop env fuel true wakeups (Scope_enter env s) with
    | none => rw [hrun] at h; simp at h
    | some run =>
      have hf := RunMessageLoop_frame env fuel true wakeups _ run hrun
      have hkr := RunMessageLoop_debugKept env fuel true wakeups _ run hrun
      have hthrown := (RunMessageLoop_returned env fuel true wakeups _ run hrun).1
      rw [hrun] at h
      simp only [hthrown] at h
      split_ifs at h
      · simp only [Option.some.injEq] at h
        subst h
        exact ⟨hk.compose hkr, hf.released.trans hs.released⟩
      · simp only [Option.some.injEq] at h
        subst h
        obtain ⟨p1, p2⟩ := schedulePause_keeps run.self
        exact ⟨(hk.compose hkr).compose (DebugKept.of_fields_eq p1),
          p2.trans (hf.released.trans hs.released)⟩
  · simp only [Option.some.injEq] at h
    subst h
    obtain ⟨p1, p2⟩ := schedulePause_keeps (Scope_enter env s)
    exact ⟨hk.compose (DebugKept.of_fields_eq p1), p2.trans hs.released⟩
  · simp only [Option.some.injEq] at h
    subst h
    exact ⟨hk, hs.released⟩

/-! ## Consistency of the debugging members -/

theorem DebugConsistent.of_debugFields {s1 s2 : V8IsolateImpl}
    (h : debugFields s2 = debugFields s1) (hc : DebugConsistent s1) : DebugConsistent s2 := by
  unfold debugFields at h
  simp only [Prod.mk.injEq] at h
  obtain ⟨h1, h2, h3⟩ := h
  unfold DebugConsistent at *
  rw [h1, h2, h3]
  exact hc

theorem DebugConsistent.of_debugKept {s1 s2 : V8IsolateImpl}
    (hc : DebugConsistent s1) (hk : DebugKept s1 s2) : DebugConsistent s2 := by
  obtain ⟨k1, k2, k3⟩ := hk
  intro hoff
  rw [k1] at hoff
  obtain ⟨c1, c2⟩ := hc hoff
  refine ⟨k2.trans c1, ?_⟩
  cases hs : s2.m_spInspectorSession with
  | false => rfl
  | true =>
    rcases k3 hs with h | h
    · rw [c2] at h; cases h
    · rw [c1] at h; cases h

theorem DisableDebugging_debug (s : V8IsolateImpl) :
    (DisableDebugging s).m_DebuggingEnabled = false ∧
      (DisableDebugging s).m_spInspector
        = (if s.m_DebuggingEnabled then false else s.m_spInspector) ∧
      (DisableDebugging s).m_spInspectorSession
        = (if s.m_DebuggingEnabled then false else s.m_spInspectorSession) := by
  unfold DisableDebugging
  cases h : s.m_DebuggingEnabled <;> simp [h]

theorem DisableDebugging_consistent (s : V8IsolateImpl) (hc : DebugConsistent s) :
    DebugConsistent (DisableDebugging s) := by
  obtain ⟨-, d2, d3⟩ := DisableDebugging_debug s
  intro _
  rw [d2, d3]
  cases h : s.m_DebuggingEnabled
  · simpa using hc h
  · simp

theorem Destructor_debugFields (env : Env) (s : V8IsolateImpl) :
    debugFields (Destructor env s)
      = debugFields (DisableDebugging (Scope_enter env
          { s with
            s_InstanceCount := s.s_InstanceCount - 1
            m_Released := true
            weakTargetAlive := false })) := by
  simp only [Destructor, runAsyncTasks_eq]
  rfl

theorem perform_debugConsistent (env : Env) (op : Operation) (s s1 : V8IsolateImpl)
    (hc : DebugConsistent s) (h : perform env op s = some s1) : DebugConsistent s1 := by
  cases op with
  | callWithLockAsync callback =>
    simp only [perform, Option.some.injEq] at h
    subst h
    exact hc.of_debugFields (CallWithLockAsync_frame callback s).debugFields
  | callWithLockNoWait tryLock callback =>
    simp only [perform, Option.some.injEq] at h
    subst h
    exact hc.of_debugKept (CallWithLockNoWait_debugKept env tryLock callback s)
  | processCallWithLockQueue =>
    simp only [perform, Option.some.injEq] at h
    subst h
    exact hc.of_debugKept (Scope_enter_debugKept env s)
  | processCallWithLockQueueLocked fuel =>
    simp only [perform, Option.map_eq_some'] at h
    obtain ⟨r, hr, rfl⟩ := h
    exact hc.of_debugKept (ProcessCallWithLockQueue_lock_debugKept env fuel s r hr)
  | runTaskAsync pTask =>
    simp only [perform, Option.some.injEq] at h
    subst h
    refine hc.of_debugFields ?_
    unfold RunTaskAsync Task_Run
    split_ifs <;> rfl
  | runTaskAsyncNotification task =>
    simp only [perform, Option.some.injEq] at h
    subst h
    refine hc.of_debugFields ?_
    unfold RunTaskAsync_notification Task_Run
    split_ifs <;> rfl
  | runTaskDelayed pTask delay =>
    simp only [perform, Option.some.injEq] at h
    subst h
    refine hc.of_debugFields ?_
    unfold RunTaskDelayed
    split_ifs <;> rfl
  | runTaskDelayedCallback pTimer =>
    simp only [perform, Option.some.injEq] at h
    subst h
    refine hc.of_debugKept ?_
    unfold RunTaskDelayed_callback
    cases hsp : pTimer.spTask with
    | none => exact DebugKept.of_fields_eq rfl
    | some task =>
      have hcall := runTaskDirect_debugKept env task s
      simp only
      split_ifs
      · split
        · rename_i s2 e heq
          rw [heq] at hcall; exact hcall
        · rename_i s2 heq
          rw [heq] at hcall; exact hcall.compose (DebugKept.of_fields_eq rfl)
      · exact DebugKept.of_fields_eq rfl
  | runTaskWithLockAsync pTask =>
    simp only [perform, Option.some.injEq] at h
    subst h
    refine hc.of_debugFields ?_
    unfold RunTaskWithLockAsync Task_Run
    split_ifs
    · rfl
    · exact (CallWithLockAsync_frame _ s).debugFields
  | runTaskWithLockDelayed pTask delay =>
    simp only [perform, Option.some.injEq] at h
    subst h
    refine hc.of_debugFields ?_
    unfold RunTaskWithLockDelayed
    split_ifs <;> rfl
  | runTaskWithLockDelayedCallback tryLock pTimer =>
    simp only [perform, Option.some.injEq] at h
    subst h
    refine hc.of_debugKept ?_
    unfold RunTaskWithLockDelayed_callback
    cases hsp : pTimer.spTask with
    | none => exact DebugKept.of_fields_eq rfl
    | some task =>
      have hcall := CallWithLockNoWait_debugKept env tryLock (Callback.runTask task) s
      simp only
      split_ifs
      · split
        · rename_i s2 e heq
          rw [heq] at hcall; exact hcall
        · rename_i s2 heq
          rw [heq] at hcall; exact hcall.compose (DebugKept.of_fields_eq rfl)
      · exact DebugKept.of_fields_eq rfl
  | disableDebugging =>
    simp only [perform, Option.some.injEq] at h
    subst h
    exact DisableDebugging_consistent s hc
  | setMaxHeapSize value =>
    simp only [perform, Option.some.injEq] at h
    subst h
    exact hc
  | setMaxStackUsage value =>
    simp only [perform, Option.some.injEq] at h
    subst h
    exact hc
  | checkHeapSize maxHeapSize heap =>
    simp only [perform, Option.some.injEq] at h
    subst h
    exact hc.of_debugKept (CheckHeapSize_debugKept env maxHeapSize heap s)
  | setUpHeapWatchTimer maxHeapSize =>
    simp only [perform, Option.some.injEq] at h
    subst h
    exact hc
  | enterExecutionScope W pExecutionScope pStackMarker heap =>
    simp only [perform, Option.some.injEq] at h
    subst h
    exact hc.of_debugKept (EnterExecutionScope_debugKept W env _ _ heap s)
  | exitExecutionScope W pPreviousExecutionScope =>
    simp only [perform, Option.some.injEq] at h
    subst h
    exact hc.of_debugFields (ExitExecutionScope_debugFields W _ s)
  | destructor =>
    simp only [perform, Option.some.injEq] at h
    subst h
    refine DebugConsistent.of_debugFields (Destructor_debugFields env s) ?_
    apply DisableDebugging_consistent
    exact DebugConsistent.of_debugKept hc (Scope_enter_debugKept env _)
  | enableDebugging port remote =>
    simp only [perform, Option.some.injEq] at h
    subst h
    intro hoff
    rw [(EnableDebugging_contextPtrs port remote s).2.1] at hoff
    cases hoff
  | addContext pContextImpl options =>
    simp only [perform, Option.some.injEq] at h
    subst h
    have hann : ∀ t : V8IsolateImpl,
        debugFields (announceContext pContextImpl t) = debugFields t := by
      intro t
      unfold announceContext
      split_ifs <;> rfl
    unfold AddContext
    split_ifs
    · exact DebugConsistent.of_debugFields (hann _) hc
    · refine DebugConsistent.of_debugFields (hann _) ?_
      intro hoff
      rw [(EnableDebugging_contextPtrs _ _ _).2.1] at hoff
      cases hoff
  | removeContext pContextImpl =>
    simp only [perform, Option.some.injEq] at h
    subst h
    refine hc.of_debugFields ?_
    dsimp only [RemoveContext]
    split_ifs <;> rfl
  | compile =>
    simp only [perform, Option.some.injEq] at h
    subst h
    exact hc.of_debugKept (Scope_enter_debugKept env s)
  | connectDebugClientCallback =>
    simp only [perform, Option.some.injEq] at h
    subst h
    unfold ConnectDebugClient_callback
    split_ifs with hcond
    · intro hoff
      have hoff2 : s.m_DebuggingEnabled = false := hoff
      have := (hc hoff2).1
      simp [this] at hcond
    · exact hc
  | sendDebugCommandCallback command =>
    simp only [perform, Option.some.injEq] at h
    subst h
    refine hc.of_debugFields ?_
    unfold SendDebugCommand_callback
    split_ifs <;> rfl
  | disconnectDebugClientCallback =>
    simp only [perform, Option.some.injEq] at h
    subst h
    intro hoff
    exact ⟨(hc hoff).1, rfl⟩
  | quitMessageLoopOnPause =>
    simp only [perform, Option.some.injEq] at h
    subst h
    exact hc
  | abortMessageLoop =>
    simp only [perform, Option.some.injEq] at h
    subst h
    exact hc
  | runMessageLoop fuel awaitingDebugger wakeups =>
    simp only [perform, Option.map_eq_some'] at h
    obtain ⟨r, hr, rfl⟩ := h
    exact hc.of_debugKept (RunMessageLoop_debugKept env fuel awaitingDebugger wakeups s r hr)
  | awaitDebuggerAndPause fuel wakeups =>
    simp only [perform, Option.map_eq_some'] at h
    obtain ⟨r, hr, rfl⟩ := h
    exact hc.of_debugKept (AwaitDebuggerAndPause_keeps env fuel wakeups s r hr).1

/-- Every state reached from a consistent one by operations of the controller is
consistent; a controller as constructed is consistent. -/
theorem performAll_debugConsistent (env : Env) (ops : List Operation) (s s1 : V8IsolateImpl)
    (hc : DebugConsistent s) (h : performAll env ops s = some s1) : DebugConsistent s1 := by
  induction ops generalizing s with
  | nil =>
    simp only [performAll, Option.some.injEq] at h
    rw [← h]; exact hc
  | cons op ops ih =>
    simp only [performAll] at h
    cases hp : perform env op s with
    | none => rw [hp] at h; simp at h
    | some s2 =>
      rw [hp] at h
      exact ih s2 (perform_debugConsistent env op s s2 hc hp) h

theorem constructed_debugConsistent (name : String) :
    DebugConsistent { m_Name := name } := by
  intro _
  exact ⟨rfl, rfl⟩

/-- Claim C16. On a controller whose debugging is not enabled `DisableDebugging`
changes nothing, so a second call after a first is a no-op; after any call
debugging is not enabled and neither a session nor an inspector exists, whether a
session was attached before or not; the debug agent is torn down exactly when
debugging was enabled. -/
theorem DisableDebugging_spec (s : V8IsolateImpl) (hConsistent : DebugConsistent s) :
    (s.m_DebuggingEnabled = false → DisableDebugging s = s) ∧
      DisableDebugging (DisableDebugging s) = DisableDebugging s ∧
      (DisableDebugging s).m_DebuggingEnabled = false ∧
      (DisableDebugging s).m_spInspectorSession = false ∧
      (DisableDebugging s).m_spInspector = false ∧
      (DisableDebugging s).destroyedDebugAgents
        = (if s.m_DebuggingEnabled then s.destroyedDebugAgents ++ [s.m_pvDebugAgent]
           else s.destroyedDebugAgents) ∧
      DebugConsistent (DisableDebugging s) := by
  obtain ⟨d1, d2, d3⟩ := DisableDebugging_debug s
  have hOff : ∀ t : V8IsolateImpl, t.m_DebuggingEnabled = false → DisableDebugging t = t := by
    intro t ht
    unfold DisableDebugging
    simp [ht]
  refine ⟨hOff s, hOff _ d1, d1, ?_, ?_, ?_, DisableDebugging_consistent s hConsistent⟩
  · rw [d3]
    cases h : s.m_DebuggingEnabled
    · simpa using (hConsistent h).2
    · simp
  · rw [d2]
    cases h : s.m_DebuggingEnabled
    · simpa using (hConsistent h).1
    · simp
  · unfold DisableDebugging
    cases h : s.m_DebuggingEnabled <;> simp [h]

/-- Witness of claim C16 on `attachedState`, which has a session attached: one call
removes session, inspector and agent, and a second call changes nothing. -/
theorem DisableDebugging_spec_witness :
    DebugConsistent attachedState ∧ attachedState.m_spInspectorSession = true ∧
      (DisableDebugging attachedState).m_spInspectorSession = false ∧
      (DisableDebugging attachedState).m_spInspector = false ∧
      DisableDebugging (DisableDebugging attachedState) = DisableDebugging attachedState :=
  ⟨fun h => absurd h (by decide), by decide,
    (DisableDebugging_spec attachedState (fun h => absurd h (by decide))).2.2.2.1,
    (DisableDebugging_spec attachedState (fun h => absurd h (by decide))).2.2.2.2.1,
    (DisableDebugging_spec attachedState (fun h => absurd h (by decide))).2.1⟩

/-! ## The released flag -/

theorem quoteChar_ne_NUL : quoteChar ≠ NUL := by decide

theorem backslashChar_ne_NUL : backslashChar ≠ NUL := by decide

theorem backslashChar_ne_quoteChar : backslashChar ≠ quoteChar := by decide

theorem cString_cons (c : Char) (string : List Char) :
    cString (c :: string) = if c = NUL then [] else c :: cString string := by
  unfold cString
  by_cases h : c = NUL <;> simp [List.takeWhile_cons, h]

theorem cString_terminated (s rest : List Char) (hNul : NUL ∉ s) :
    cString (s ++ NUL :: rest) = s := by
  induction s with
  | nil => simp [cString_cons]
  | cons c s ih =>
    simp only [List.mem_cons, not_or] at hNul
    have hc : c ≠ NUL := fun h => hNul.1 h.symm
    simp [cString_cons, hc, ih hNul.2]

theorem cString_unterminated (s : List Char) (hNul : NUL ∉ s) : cString s = s := by
  induction s with
  | nil => rfl
  | cons c s ih =>
    simp only [List.mem_cons, not_or] at hNul
    have hc : c ≠ NUL := fun h => hNul.1 h.symm
    simp [cString_cons, hc, ih hNul.2]

theorem escapeSpec_cons (c : Char) (s : List Char) :
    escapeSpec (c :: s) = escapeChar c ++ escapeSpec s := by
  simp [escapeSpec]

theorem writeEscapedString_eq (string stream : List Char) :
    writeEscapedString stream string = stream ++ escapeSpec (cString string) := by
  induction string generalizing stream with
  | nil => simp [writeEscapedString, escapeSpec, cString]
  | cons c string ih =>
    unfold writeEscapedString
    rw [cString_cons]
    split_ifs with h0 h1 h2
    · simp [escapeSpec]
    · rw [ih, escapeSpec_cons]; simp [escapeChar, h1]
    · subst h2
      rw [ih, escapeSpec_cons]; simp [escapeChar, backslashChar_ne_quoteChar]
    · rw [ih, escapeSpec_cons]; simp [escapeChar, h1, h2]

theorem escapeSpec_length (s : List Char) :
    (escapeSpec s).length
      = s.length + s.countP (fun c => c = quoteChar || c = backslashChar) := by
  induction s with
  | nil => rfl
  | cons c s ih =>
    rw [escapeSpec_cons, List.length_append, ih, List.countP_cons]
    unfold escapeChar
    by_cases h1 : c = quoteChar
    · simp [h1]; omega
    · by_cases h2 : c = backslashChar
      · simp [h2, backslashChar_ne_quoteChar]; omega
      · simp [h1, h2]; omega

theorem unescapeSpec_cons_of_ne (c : Char) (rest : List Char) (h : c ≠ backslashChar) :
    unescapeSpec (c :: rest) = c :: unescapeSpec rest := by
  cases rest with
  | nil => simp [unescapeSpec]
  | cons d rest => simp [unescapeSpec, h]

theorem unescapeSpec_escapeSpec (s : List Char) : unescapeSpec (escapeSpec s) = s := by
  induction s with
  | nil => rfl
  | cons c s ih =>
    rw [escapeSpec_cons]
    unfold escapeChar
    by_cases h1 : c = quoteChar
    · simp [h1, unescapeSpec, ih]
    · by_cases h2 : c = backslashChar
      · simp [h2, backslashChar_ne_quoteChar, unescapeSpec, ih]
      · simp only [h1, h2, if_false, List.singleton_append]
        rw [unescapeSpec_cons_of_ne c _ h2, ih]

theorem commaSeparated_cons (first : List Char) (rest : List (List Char)) :
    commaSeparated (first :: rest) = first ++ rest.flatMap (fun item => text "," ++ item) := rfl

theorem flatMap_comma_of_ne_nil (items : List (List Char)) (h : items ≠ []) :
    items.flatMap (fun item => text "," ++ item) = text "," ++ commaSeparated items := by
  cases items with
  | nil => exact absurd rfl h
  | cons first rest => simp [commaSeparated]

theorem writeChildren_pos (children : List CpuProfileNode) (i : Nat) (stream : List Char)
    (nodes : List CpuProfileNode) (hi : 0 < i) :
    writeChildren i children (stream, nodes)
      = (stream ++ (children.map (fun child => decimal child.GetNodeId)).flatMap
            (fun item => text "," ++ item), nodes ++ children) := by
  induction children generalizing i stream nodes with
  | nil => simp [writeChildren]
  | cons child rest ih =>
    simp only [writeChildren, gt_iff_lt, hi, if_true]
    rw [ih (i + 1) _ _ (Nat.succ_pos i)]
    simp

theorem writeChildren_zero (children : List CpuProfileNode) (stream : List Char)
    (nodes : List CpuProfileNode) :
    writeChildren 0 children (stream, nodes)
      = (stream ++ commaSeparated (children.map (fun child => decimal child.GetNodeId)),
          nodes ++ children) := by
  cases children with
  | nil => simp [writeChildren, commaSeparated]
  | cons child rest =>
    simp only [writeChildren, gt_iff_lt, Nat.lt_irrefl, if_false]
    rw [writeChildren_pos rest 1 _ _ Nat.one_pos]
    simp [commaSeparated]

theorem writeLineTicks_pos (ticks : List LineTick) (i : Nat) (stream : List Char) (hi : 0 < i) :
    writeLineTicks i ticks stream
      = stream ++ (ticks.map (fun tick =>
          text "\x7b\"line\":" ++ decimalInt tick.line ++ text ",\"ticks\":"
            ++ decimal tick.hit_count ++ text "\x7d")).flatMap
            (fun item => text "," ++ item) := by
  induction ticks generalizing i stream with
  | nil => simp [writeLineTicks]
  | cons tick rest ih =>
    simp only [writeLineTicks, gt_iff_lt, hi, if_true]
    rw [ih (i + 1) _ (Nat.succ_pos i)]
    simp

theorem writeLineTicks_zero (ticks : List LineTick) (stream : List Char) :
    writeLineTicks 0 ticks stream
      = stream ++ commaSeparated (ticks.map (fun tick =>
          text "\x7b\"line\":" ++ decimalInt tick.line ++ text ",\"ticks\":"
            ++ decimal tick.hit_count ++ text "\x7d")) := by
  cases ticks with
  | nil => simp [writeLineTicks, commaSeparated]
  | cons tick rest =>
    simp only [writeLineTicks, gt_iff_lt, Nat.lt_irrefl, if_false]
    rw [writeLineTicks_pos rest 1 _ Nat.one_pos]
    simp [commaSeparated]

theorem writeSamples_pos (samples : List CpuProfileSample) (i : Nat) (stream : List Char)
    (hi : 0 < i) :
    writeSamples i samples stream
      = stream ++ (samples.map (fun sample => decimal sample.GetNodeId)).flatMap
          (fun item => text "," ++ item) := by
  induction samples generalizing i stream with
  | nil => simp [writeSamples]
  | cons sample rest ih =>
    simp only [writeSamples, gt_iff_lt, hi, if_true]
    rw [ih (i + 1) _ (Nat.succ_pos i)]
    simp

theorem writeSamples_zero (samples : List CpuProfileSample) (stream : List Char) :
    writeSamples 0 samples stream
      = stream ++ commaSeparated (samples.map (fun sample => decimal sample.GetNodeId)) := by
  cases samples with
  | nil => simp [writeSamples, commaSeparated]
  | cons sample rest =>
    simp only [writeSamples, gt_iff_lt, Nat.lt_irrefl, if_false]
    rw [writeSamples_pos rest 1 _ Nat.one_pos]
    simp [commaSeparated]

theorem writeTimeDeltas_eq (samples : List CpuProfileSample) (previous : Int)
    (stream : List Char) :
    writeTimeDeltas previous samples stream
      = stream ++ ((timeDeltasSpec previous samples).map decimalInt).flatMap
          (fun item => text "," ++ item) := by
  induction samples generalizing previous stream with
  | nil => simp [writeTimeDeltas, timeDeltasSpec]
  | cons sample rest ih =>
    simp only [writeTimeDeltas, timeDeltasSpec]
    rw [ih]
    simp

theorem timeDeltasSpec_length (samples : List CpuProfileSample) (previous : Int) :
    (timeDeltasSpec previous samples).length = samples.length := by
  induction samples generalizing previous with
  | nil => rfl
  | cons sample rest ih => simp [timeDeltasSpec, ih]

theorem writeNode_eq (node : CpuProfileNode) (stream : List Char)
    (nodes : List CpuProfileNode) :
    writeNode node stream nodes
      = (stream ++ nodeObjectSpec node
            ++ (if (nodes ++ node.children).isEmpty then [] else text ","),
          nodes ++ node.children) := by
  have e1 : text ",\"callFrame\":\x7b\"functionName\":\""
      = text ",\"callFrame\":" ++ text "\x7b\"functionName\":\"" := rfl
  have e2 : text "\x7d,\"hitCount\":" = text "\x7d" ++ text ",\"hitCount\":" := rfl
  unfold writeNode
  simp only [writeEscapedString_eq, writeChildren_zero, writeLineTicks_zero]
  unfold nodeObjectSpec callFrameSpec optionalMembersSpec childrenSpec
  rw [e1, e2]
  cases node.info.GetBailoutReason <;>
    by_cases ht : node.info.lineTicks.length > 0 <;>
    by_cases hq : (nodes ++ node.children).isEmpty <;>
    simp [ht, hq, List.append_assoc]

theorem CpuProfileNode.count_eq (node : CpuProfileNode) :
    node.count = 1 + countNodes node.children := by
  cases node; simp [CpuProfileNode.count, CpuProfileNode.children]

theorem CpuProfileNode.height_eq (node : CpuProfileNode) :
    node.height = 1 + heightNodes node.children := by
  cases node; simp [CpuProfileNode.height, CpuProfileNode.children]

theorem CpuProfileNode.preorder_eq (node : CpuProfileNode) :
    node.preorder = node :: preorderNodes node.children := by
  cases node; simp [CpuProfileNode.preorder, CpuProfileNode.children]

theorem countNodes_cons (node : CpuProfileNode) (rest : List CpuProfileNode) :
    countNodes (node :: rest) = 1 + countNodes node.children + countNodes rest := by
  simp [countNodes, CpuProfileNode.count_eq]

theorem countNodes_append (xs ys : List CpuProfileNode) :
    countNodes (xs ++ ys) = countNodes xs + countNodes ys := by
  induction xs with
  | nil => simp [countNodes]
  | cons x xs ih => simp [countNodes, ih, Nat.add_assoc]

theorem preorderNodes_append (xs ys : List CpuProfileNode) :
    preorderNodes (xs ++ ys) = preorderNodes xs ++ preorderNodes ys := by
  induction xs with
  | nil => simp [preorderNodes]
  | cons x xs ih => simp [preorderNodes, ih]

theorem countNodes_flatMap_children (nodes : List CpuProfileNode) :
    countNodes nodes = nodes.length + countNodes (nodes.flatMap CpuProfileNode.children) := by
  induction nodes with
  | nil => simp [countNodes]
  | cons x xs ih =>
    rw [countNodes_cons, List.flatMap_cons, countNodes_append, ih, List.length_cons]
    omega

theorem height_le_heightNodes (nodes : List CpuProfileNode) (node : CpuProfileNode)
    (h : node ∈ nodes) : node.height ≤ heightNodes nodes := by
  induction nodes with
  | nil => cases h
  | cons x xs ih =>
    simp only [heightNodes]
    rcases List.mem_cons.1 h with rfl | hm
    · exact Nat.le_max_left _ _
    · exact Nat.le_trans (ih hm) (Nat.le_max_right _ _)

theorem queueOrder_nil (fuel : Nat) : queueOrder fuel [] = [] := by
  cases fuel <;> rfl

/-- More fuel than the nodes need changes nothing. -/
theorem queueOrder_fuel (fuel other : Nat) (nodes : List CpuProfileNode)
    (h1 : countNodes nodes ≤ fuel) (h2 : countNodes nodes ≤ other) :
    queueOrder fuel nodes = queueOrder other nodes := by
  induction fuel generalizing other nodes with
  | zero =>
    cases nodes with
    | nil => simp [queueOrder_nil]
    | cons x xs => rw [countNodes_cons] at h1; omega
  | succ fuel ih =>
    cases nodes with
    | nil => simp [queueOrder_nil]
    | cons x xs =>
      rw [countNodes_cons] at h1 h2
      cases other with
      | zero => omega
      | succ other =>
        simp only [queueOrder]
        rw [ih other (xs ++ x.children) (by rw [countNodes_append]; omega)
          (by rw [countNodes_append]; omega)]

/-- The queue discipline lists a whole level before the children of the level. -/
theorem queueOrder_level (level next : List CpuProfileNode) (fuel : Nat)
    (h : countNodes (level ++ next) ≤ fuel) :
    queueOrder fuel (level ++ next)
      = level ++ queueOrder fuel (next ++ level.flatMap CpuProfileNode.children) := by
  induction level generalizing next fuel with
  | nil => simp
  | cons x xs ih =>
    rw [List.cons_append, countNodes_cons, countNodes_append] at h
    cases fuel with
    | zero => omega
    | succ fuel =>
      have hstep : queueOrder (fuel + 1) (x :: xs ++ next)
          = x :: queueOrder fuel (xs ++ (next ++ x.children)) := by
        simp [queueOrder]
      rw [hstep, ih (next ++ x.children) fuel (by simp only [countNodes_append]; omega),
        List.flatMap_cons, List.append_assoc, List.cons_append]
      congr 2
      apply queueOrder_fuel
      · simp only [countNodes_append]
        have := countNodes_flatMap_children xs
        omega
      · simp only [countNodes_append]
        have := countNodes_flatMap_children xs
        omega

/-- The order of the queue is the breadth-first order. -/
theorem queueOrder_eq_levelOrderSpec (depth fuel : Nat) (nodes : List CpuProfileNode)
    (hFuel : countNodes nodes ≤ fuel) (hDepth : ∀ node ∈ nodes, node.height ≤ depth) :
    queueOrder fuel nodes = levelOrderSpec depth nodes := by
  induction depth generalizing nodes with
  | zero =>
    cases nodes with
    | nil => simp [queueOrder_nil, levelOrderSpec]
    | cons x xs =>
      have := hDepth x (List.mem_cons_self _ _)
      rw [CpuProfileNode.height_eq] at this
      omega
  | succ depth ih =>
    have hstep := queueOrder_level nodes [] fuel (by simpa using hFuel)
    simp only [List.append_nil, List.nil_append] at hstep
    rw [hstep, levelOrderSpec, ih]
    · have := countNodes_flatMap_children nodes
      omega
    · intro child hchild
      obtain ⟨parent, hparent, hmem⟩ := List.mem_flatMap.1 hchild
      have h1 := hDepth parent hparent
      have h2 := height_le_heightNodes parent.children child hmem
      rw [CpuProfileNode.height_eq] at h1
      omega

theorem queueOrder_prefix (fuel : Nat) (nodes : List CpuProfileNode)
    (hFuel : countNodes nodes ≤ fuel) :
    ∃ rest, queueOrder fuel nodes = nodes ++ rest := by
  have hstep := queueOrder_level nodes [] fuel (by simpa using hFuel)
  simp only [List.append_nil, List.nil_append] at hstep
  exact ⟨_, hstep⟩

theorem queueOrder_perm (fuel : Nat) (nodes : List CpuProfileNode)
    (hFuel : countNodes nodes ≤ fuel) :
    (queueOrder fuel nodes).Perm (preorderNodes nodes) := by
  induction fuel generalizing nodes with
  | zero =>
    cases nodes with
    | nil => simp [queueOrder_nil, preorderNodes]
    | cons x xs => rw [countNodes_cons] at hFuel; omega
  | succ fuel ih =>
    cases nodes with
    | nil => simp [queueOrder_nil, preorderNodes]
    | cons x xs =>
      rw [countNodes_cons] at hFuel
      simp only [queueOrder, preorderNodes, CpuProfileNode.preorder_eq, List.cons_append]
      refine List.Perm.cons x ?_
      refine (ih (xs ++ x.children) (by rw [countNodes_append]; omega)).trans ?_
      rw [preorderNodes_append]
      exact List.perm_append_comm

theorem queueOrder_children_later (fuel : Nat) (nodes : List CpuProfileNode)
    (hFuel : countNodes nodes ≤ fuel) (k : Nat) (node : CpuProfileNode)
    (hk : (queueOrder fuel nodes)[k]? = some node) (child : CpuProfileNode)
    (hchild : child ∈ node.children) :
    ∃ j, k < j ∧ (queueOrder fuel nodes)[j]? = some child := by
  induction fuel generalizing nodes k with
  | zero =>
    cases nodes with
    | nil => simp [queueOrder_nil] at hk
    | cons x xs => rw [countNodes_cons] at hFuel; omega
  | succ fuel ih =>
    cases nodes with
    | nil => simp [queueOrder_nil] at hk
    | cons x xs =>
      rw [countNodes_cons] at hFuel
      have hrest : countNodes (xs ++ x.children) ≤ fuel := by
        rw [countNodes_append]; omega
      simp only [queueOrder] at hk ⊢
      cases k with
      | zero =>
        simp only [List.getElem?_cons_zero, Option.some.injEq] at hk
        subst hk
        obtain ⟨rest, hrestEq⟩ := queueOrder_prefix fuel _ hrest
        have hmem : child ∈ queueOrder fuel (xs ++ x.children) := by
          rw [hrestEq]; simp [hchild]
        obtain ⟨j, hj⟩ := List.getElem?_of_mem hmem
        exact ⟨j + 1, Nat.succ_pos j, by simpa using hj⟩
      | succ k =>
        simp only [List.getElem?_cons_succ] at hk
        obtain ⟨j, hlt, hj⟩ := ih _ hrest k hk
        exact ⟨j + 1, Nat.succ_lt_succ hlt, by simpa using hj⟩

theorem queueOrder_ne_nil (fuel : Nat) (node : CpuProfileNode) (nodes : List CpuProfileNode)
    (hFuel : countNodes (node :: nodes) ≤ fuel) : queueOrder fuel (node :: nodes) ≠ [] := by
  rw [countNodes_cons] at hFuel
  cases fuel with
  | zero => omega
  | succ fuel => simp [queueOrder]

theorem writeNodes_eq (fuel : Nat) (nodes : List CpuProfileNode) (stream : List Char)
    (hFuel : countNodes nodes ≤ fuel) :
    writeNodes fuel nodes stream
      = some (stream ++ commaSeparated ((queueOrder fuel nodes).map nodeObjectSpec)) := by
  induction fuel generalizing nodes stream with
  | zero =>
    cases nodes with
    | nil => simp [writeNodes, queueOrder_nil, commaSeparated]
    | cons x xs => rw [countNodes_cons] at hFuel; omega
  | succ fuel ih =>
    cases nodes with
    | nil => simp [writeNodes, queueOrder_nil, commaSeparated]
    | cons x xs =>
      have hrest : countNodes (xs ++ x.children) ≤ fuel := by
        rw [countNodes_cons] at hFuel
        rw [countNodes_append]; omega
      simp only [writeNodes, writeNode_eq, queueOrder, List.map_cons, commaSeparated_cons]
      rw [ih _ _ hrest]
      cases hq : xs ++ x.children with
      | nil => simp [queueOrder_nil, commaSeparated]
      | cons y ys =>
        rw [hq] at hrest
        have hne := queueOrder_ne_nil fuel y ys hrest
        have hne2 : (queueOrder fuel (y :: ys)).map nodeObjectSpec ≠ [] := by
          simpa using hne
        rw [flatMap_comma_of_ne_nil _ hne2]
        simp

theorem breadthFirstSpec_eq (root : CpuProfileNode) (extra : Nat) :
    queueOrder (root.count + extra) [root] = breadthFirstSpec root := by
  unfold breadthFirstSpec
  apply queueOrder_eq_levelOrderSpec
  · simp [countNodes]
  · intro node hnode
    rw [List.mem_singleton.1 hnode]

theorem writeProfile_eq (profile : CpuProfile) (extra : Nat) :
    writeProfile (profile.GetTopDownRoot.count + extra) profile
      = some (documentSpec profile) := by
  unfold writeProfile documentSpec
  rw [writeNodes_eq _ _ _ (by simp [countNodes]), breadthFirstSpec_eq]
  cases hs : profile.samples with
  | nil => simp
  | cons first later =>
    simp only [writeSamples_zero, writeTimeDeltas_eq, timeDeltasSpec, List.map_cons,
      commaSeparated_cons, List.length_cons]
    simp

theorem LoopFrame.profiler {s1 s2 : V8IsolateImpl} (h : LoopFrame s1 s2) :
    s2.m_pProfiler = s1.m_pProfiler :=
  congrArg (fun x => x.m_pProfiler) h

/-- Claim C20. For a string `s` without NUL, followed by its terminator,
`writeEscapedString` appends to the stream the characters of `s` in order, a
double quote as backslash and double quote, a backslash as two backslashes, and
every other character as itself; the stream grows by the length of `s` plus the
number of double quotes and backslashes in `s`; reading each backslash pair back
as its second character recovers `s`; and two strings with the same output are
equal. -/
theorem writeEscapedString_spec (stream s rest : List Char) (hNul : NUL ∉ s) :
    writeEscapedString stream (s ++ NUL :: rest) = stream ++ escapeSpec s ∧
      (writeEscapedString stream (s ++ NUL :: rest)).length
        = stream.length + (s.length + s.countP (fun c => c = quoteChar || c = backslashChar)) ∧
      unescapeSpec (escapeSpec s) = s ∧
      (∀ t rest2 : List Char, NUL ∉ t →
        writeEscapedString [] (t ++ NUL :: rest2) = writeEscapedString [] (s ++ NUL :: rest) →
        t = s) := by
  have hw : ∀ (out u tail : List Char), NUL ∉ u →
      writeEscapedString out (u ++ NUL :: tail) = out ++ escapeSpec u := by
    intro out u tail hu
    rw [writeEscapedString_eq, cString_terminated u tail hu]
  refine ⟨hw stream s rest hNul, ?_, unescapeSpec_escapeSpec s, ?_⟩
  · rw [hw stream s rest hNul, List.length_append, escapeSpec_length]
  · intro t rest2 ht heq
    rw [hw [] t rest2 ht, hw [] s rest hNul, List.nil_append, List.nil_append] at heq
    have := congrArg unescapeSpec heq
    rwa [unescapeSpec_escapeSpec, unescapeSpec_escapeSpec] at this

/-- Witness of claim C20 on a string with two double quotes and a backslash: the
output is five characters longer than the stream was, three more than the
string has. -/
theorem writeEscapedString_spec_witness :
    NUL ∉ text "a\"b\"\\" ∧
      writeEscapedString (text "x=") (text "a\"b\"\\" ++ NUL :: text "junk")
        = text "x=a\\\"b\\\"\\\\" ∧
      (writeEscapedString (text "x=") (text "a\"b\"\\" ++ NUL :: text "junk")).length
        = 2 + (5 + 3) :=
  ⟨by decide,
    (writeEscapedString_spec (text "x=") (text "a\"b\"\\") (text "junk") (by decide)).1.trans
      (by decide),
    (writeEscapedString_spec (text "x=") (text "a\"b\"\\") (text "junk") (by decide)).2.1.trans
      (by decide)⟩

/-- Claim C18. With a profiler and a title, and enough fuel for the nodes of the
profile tree, the document that `StopCpuProfiler` returns opens with the member
"nodes", an array that holds the node objects of the tree in breadth-first order
with one comma between neighbours and none after the last, written by the node
loop started on the top-down root; the first entry of the array is the object of
the root, with the id of the root; the order holds every node of the tree exactly
once; the "children" array of a node object holds the ids of the children in
child order; and every child of the node at a position of the order stands at a
later position. -/
theorem StopCpuProfiler_nodes (env : Env) (extra title : Nat) (profile : CpuProfile)
    (s : V8IsolateImpl) (stream : List Char) (hProfiler : s.m_pProfiler = true) :
    StopCpuProfiler env (profile.GetTopDownRoot.count + extra) (some title) profile s
        = some (Scope_enter env s,
            some (text "\x7b\"nodes\":["
              ++ commaSeparated ((breadthFirstSpec profile.GetTopDownRoot).map nodeObjectSpec)
              ++ text "],\"startTime\":" ++ decimalInt profile.GetStartTime
              ++ text ",\"endTime\":" ++ decimalInt profile.GetEndTime
              ++ (if profile.samples.length > 0 then
                    text ",\"samples\":["
                      ++ commaSeparated
                          (profile.samples.map (fun sample => decimal sample.GetNodeId))
                      ++ text "],\"timeDeltas\":["
                      ++ commaSeparated
                          ((timeDeltasSpec profile.GetStartTime profile.samples).map decimalInt)
                      ++ text "]"
                  else [])
              ++ text "\x7d")) ∧
      (∃ rest, StopCpuProfiler env (profile.GetTopDownRoot.count + extra) (some title) profile s
        = some (Scope_enter env s,
            some (text "\x7b\"nodes\":[\x7b\"id\":" ++ decimal profile.GetTopDownRoot.GetNodeId
              ++ text ",\"callFrame\":" ++ rest))) ∧
      writeNodes (profile.GetTopDownRoot.count + extra) [profile.GetTopDownRoot] stream
        = some (stream
            ++ commaSeparated ((breadthFirstSpec profile.GetTopDownRoot).map nodeObjectSpec)) ∧
      (∃ rest, breadthFirstSpec profile.GetTopDownRoot = profile.GetTopDownRoot :: rest) ∧
      (breadthFirstSpec profile.GetTopDownRoot).Perm profile.GetTopDownRoot.preorder ∧
      (∀ node : CpuProfileNode,
        nodeObjectSpec node
          = text "\x7b\"id\":" ++ decimal node.GetNodeId ++ text ",\"callFrame\":"
              ++ callFrameSpec node ++ text ",\"hitCount\":" ++ decimal node.info.GetHitCount
              ++ text ",\"children\":["
              ++ commaSeparated (node.children.map (fun child => decimal child.GetNodeId))
              ++ text "]" ++ optionalMembersSpec node ++ text "\x7d") ∧
      (∀ (k : Nat) (node : CpuProfileNode),
        (breadthFirstSpec profile.GetTopDownRoot)[k]? = some node →
        ∀ child ∈ node.children,
          ∃ j, k < j ∧ (breadthFirstSpec profile.GetTopDownRoot)[j]? = some child) := by
  have hFuel : countNodes [profile.GetTopDownRoot] ≤ profile.GetTopDownRoot.count + extra := by
    simp [countNodes]
  have hOrder := breadthFirstSpec_eq profile.GetTopDownRoot extra
  have hDocument :
      StopCpuProfiler env (profile.GetTopDownRoot.count + extra) (some title) profile s
        = some (Scope_enter env s, some (documentSpec profile)) := by
    unfold StopCpuProfiler
    simp only [(Scope_enter_spec env s).1.profiler, hProfiler, writeProfile_eq]
    rfl
  have hFirst : ∃ rest, breadthFirstSpec profile.GetTopDownRoot
      = profile.GetTopDownRoot :: rest := by
    obtain ⟨rest, hrest⟩ := queueOrder_prefix _ _ hFuel
    rw [hOrder] at hrest
    exact ⟨rest, hrest⟩
  refine ⟨hDocument, ?_, ?_, hFirst, ?_, fun _ => rfl, ?_⟩
  · obtain ⟨rest, hrest⟩ := hFirst
    have hopen : text "\x7b\"nodes\":[\x7b\"id\":" = text "\x7b\"nodes\":[" ++ text "\x7b\"id\":" :=
      rfl
    have hText : ∃ tail, documentSpec profile
        = text "\x7b\"nodes\":[\x7b\"id\":" ++ decimal profile.GetTopDownRoot.GetNodeId
            ++ text ",\"callFrame\":" ++ tail := by
      unfold documentSpec
      rw [hrest, hopen]
      simp only [List.map_cons, commaSeparated, nodeObjectSpec, List.append_assoc]
      exact ⟨_, rfl⟩
    obtain ⟨tail, htail⟩ := hText
    exact ⟨tail, by rw [hDocument, htail]⟩
  · rw [writeNodes_eq _ _ _ hFuel, hOrder]
  · have := queueOrder_perm _ _ hFuel
    rw [hOrder] at this
    simpa [preorderNodes] using this
  · intro k node hk child hchild
    have := queueOrder_children_later _ _ hFuel k node (by rw [hOrder]; exact hk) child hchild
    rwa [hOrder] at this

set_option maxRecDepth 4000 in
/-- Witness of claim C18 on `sampledProfile`, whose tree has the root `1` with the
children `2` and `3`, and the node `4` below `2`: the document that
`StopCpuProfiler` returns lists the nodes in the order `1`, `2`, `3`, `4`. -/
theorem StopCpuProfiler_nodes_witness :
    profilingState.m_pProfiler = true ∧
      (StopCpuProfiler chainEnv (sampledProfile.GetTopDownRoot.count + 0) (some 0)
          sampledProfile profilingState).map Prod.snd
        = some (some (text "\x7b\"nodes\":[\x7b\"id\":1,\"callFrame\":\x7b\"functionName\":\"(root)\",\"scriptId\":\"0\",\"url\":\"\",\"lineNumber\":-1,\"columnNumber\":-1\x7d,\"hitCount\":0,\"children\":[2,3]\x7d,\x7b\"id\":2,\"callFrame\":\x7b\"functionName\":\"f\",\"scriptId\":\"7\",\"url\":\"a.js\",\"lineNumber\":0,\"columnNumber\":0\x7d,\"hitCount\":1,\"children\":[4],\"positionTicks\":[\x7b\"line\":1,\"ticks\":1\x7d]\x7d,\x7b\"id\":3,\"callFrame\":\x7b\"functionName\":\"g\",\"scriptId\":\"7\",\"url\":\"\",\"lineNumber\":2,\"columnNumber\":0\x7d,\"hitCount\":2,\"children\":[]\x7d,\x7b\"id\":4,\"callFrame\":\x7b\"functionName\":\"h\",\"scriptId\":\"7\",\"url\":\"\",\"lineNumber\":2,\"columnNumber\":0\x7d,\"hitCount\":2,\"children\":[]\x7d],\"startTime\":100,\"endTime\":250,\"samples\":[2,4],\"timeDeltas\":[30,40]\x7d")) ∧
      (breadthFirstSpec sampledProfile.GetTopDownRoot).map (fun node => node.GetNodeId)
        = [1, 2, 3, 4] :=
  ⟨by decide,
    by rw [(StopCpuProfiler_nodes chainEnv 0 0 sampledProfile profilingState [] (by decide)).1]; rfl,
    by rfl⟩

/-- Counterexample to claim C19: the document returned for `unsampledProfile`,
which has no sample, ends after "endTime"; it has no "samples" and no
"timeDeltas" member. -/
theorem StopCpuProfiler_unsampled_document :
    (StopCpuProfiler chainEnv 1 (some 0) unsampledProfile profilingState).map Prod.snd
      = some (some (text
          "\x7b\"nodes\":[\x7b\"id\":1,\"callFrame\":\x7b\"functionName\":\"(root)\",\"scriptId\":\"7\",\"url\":\"\",\"lineNumber\":2,\"columnNumber\":0\x7d,\"hitCount\":2,\"children\":[]\x7d],\"startTime\":100,\"endTime\":250\x7d")) := by
  rfl

/-- Claim C19, amended. With a profiler and a title, and enough fuel for the
nodes, `StopCpuProfiler` returns one object: the members "nodes", "startTime" and
"endTime" in that order, followed, exactly when the profile has at least one
sample, by "samples" and "timeDeltas" in that order, two arrays with one entry for
each sample; a profile without samples has the first three members only. -/
theorem StopCpuProfiler_document (env : Env) (extra title : Nat) (profile : CpuProfile)
    (s : V8IsolateImpl) (hProfiler : s.m_pProfiler = true) :
    StopCpuProfiler env (profile.GetTopDownRoot.count + extra) (some title) profile s
        = some (Scope_enter env s, some (documentSpec profile)) ∧
      (profile.samples = [] →
        documentSpec profile
          = text "\x7b\"nodes\":["
              ++ commaSeparated ((breadthFirstSpec profile.GetTopDownRoot).map nodeObjectSpec)
              ++ text "],\"startTime\":" ++ decimalInt profile.GetStartTime
              ++ text ",\"endTime\":" ++ decimalInt profile.GetEndTime ++ text "\x7d") ∧
      (profile.samples ≠ [] →
        documentSpec profile
          = text "\x7b\"nodes\":["
              ++ commaSeparated ((breadthFirstSpec profile.GetTopDownRoot).map nodeObjectSpec)
              ++ text "],\"startTime\":" ++ decimalInt profile.GetStartTime
              ++ text ",\"endTime\":" ++ decimalInt profile.GetEndTime
              ++ text ",\"samples\":["
              ++ commaSeparated (profile.samples.map (fun sample => decimal sample.GetNodeId))
              ++ text "],\"timeDeltas\":["
              ++ commaSeparated
                  ((timeDeltasSpec profile.GetStartTime profile.samples).map decimalInt)
              ++ text "]" ++ text "\x7d") ∧
      (profile.samples.map (fun sample => decimal sample.GetNodeId)).length
        = profile.samples.length ∧
      ((timeDeltasSpec profile.GetStartTime profile.samples).map decimalInt).length
        = profile.samples.length := by
  refine ⟨?_, ?_, ?_, by simp, by simp [timeDeltasSpec_length]⟩
  · unfold StopCpuProfiler
    simp only [(Scope_enter_spec env s).1.profiler, hProfiler, writeProfile_eq]
    rfl
  · intro hs
    simp [documentSpec, hs]
  · intro hs
    have : profile.samples.length > 0 := List.length_pos.2 hs
    simp [documentSpec, this]

set_option maxRecDepth 4000 in
/-- Witness of claim C19 on `sampledProfile`, which has two samples: the document
has five members and both arrays have two entries. -/
theorem StopCpuProfiler_document_witness :
    profilingState.m_pProfiler = true ∧
      (StopCpuProfiler chainEnv (sampledProfile.GetTopDownRoot.count + 0) (some 0)
          sampledProfile profilingState).map Prod.snd
        = some (some (documentSpec sampledProfile)) ∧
      documentSpec sampledProfile
        = text "\x7b\"nodes\":[\x7b\"id\":1,\"callFrame\":\x7b\"functionName\":\"(root)\",\"scriptId\":\"0\",\"url\":\"\",\"lineNumber\":-1,\"columnNumber\":-1\x7d,\"hitCount\":0,\"children\":[2,3]\x7d,\x7b\"id\":2,\"callFrame\":\x7b\"functionName\":\"f\",\"scriptId\":\"7\",\"url\":\"a.js\",\"lineNumber\":0,\"columnNumber\":0\x7d,\"hitCount\":1,\"children\":[4],\"positionTicks\":[\x7b\"line\":1,\"ticks\":1\x7d]\x7d,\x7b\"id\":3,\"callFrame\":\x7b\"functionName\":\"g\",\"scriptId\":\"7\",\"url\":\"\",\"lineNumber\":2,\"columnNumber\":0\x7d,\"hitCount\":2,\"children\":[]\x7d,\x7b\"id\":4,\"callFrame\":\x7b\"functionName\":\"h\",\"scriptId\":\"7\",\"url\":\"\",\"lineNumber\":2,\"columnNumber\":0\x7d,\"hitCount\":2,\"children\":[]\x7d],\"startTime\":100,\"endTime\":250,\"samples\":[2,4],\"timeDeltas\":[30,40]\x7d" :=
  ⟨by decide,
    by rw [(StopCpuProfiler_document chainEnv 0 0 sampledProfile profilingState (by decide)).1]; rfl,
    by rfl⟩

/-! ## A failed entry into an execution scope -/

/-- What a throwing `EnterExecutionScope` call leaves: the heap part has run, so
the controller is the one `enterHeapWatch` gives; the stack level, the stack
bound and the execution scope are as before, and the heap level is one higher
whenever heap monitoring is in progress or a heap limit is configured. -/
theorem EnterExecutionScope_failure (W : Nat) (env : Env) (pExecutionScope pStackMarker : Nat)
    (heap : HeapReadings) (s : V8IsolateImpl) (ex : V8Exception)
    (h : (EnterExecutionScope W env pExecutionScope pStackMarker heap s).2 = Except.error ex) :
    (EnterExecutionScope W env pExecutionScope pStackMarker heap s).1 = enterHeapWatch env heap s ∧
      (EnterExecutionScope W env pExecutionScope pStackMarker heap s).1.m_StackWatchLevel
        = s.m_StackWatchLevel ∧
      (EnterExecutionScope W env pExecutionScope pStackMarker heap s).1.m_pStackLimit
        = s.m_pStackLimit ∧
      (EnterExecutionScope W env pExecutionScope pStackMarker heap s).1.m_pExecutionScope
        = s.m_pExecutionScope ∧
      (s.m_HeapWatchLevel ≠ 0 ∨ s.m_MaxHeapSize > 0 →
        (EnterExecutionScope W env pExecutionScope pStackMarker heap s).1.m_HeapWatchLevel
          = s.m_HeapWatchLevel + 1) := by
  obtain ⟨f1, f2, -, -, -, -, -, f8⟩ := enterHeapWatch_fields env heap s
  obtain ⟨l1, -, -⟩ := enterHeapWatch_level env heap s
  have hstate : (EnterExecutionScope W env pExecutionScope pStackMarker heap s).1
      = enterHeapWatch env heap s := by
    dsimp only [EnterExecutionScope, markExecutionScope] at h ⊢
    split_ifs at h ⊢
    rfl
  rw [hstate]
  refine ⟨rfl, f1, f2, f8, ?_⟩
  intro hmon
  rw [l1]
  by_cases h0 : s.m_HeapWatchLevel = 0
  · rcases hmon with hne | hmax
    · exact absurd h0 hne
    · simp [h0, hmax]
  · simp [h0]

/-- Claim C22, the code at the failing input: `activeState` is inside one
execution scope, with heap level `1` and stack level `1`.  The nested entry
`failedEntry` throws the General stack-limit error and leaves the stack level at
`1`, but the heap level at `2`; the exit of the outer scope then brings the heap
level back to `1` only and keeps the heap-watch timer, whereas without the failed
entry it ends heap monitoring. -/
theorem EnterExecutionScope_failed_entry_raises_heap_level :
    activeState.m_HeapWatchLevel = 1 ∧ activeState.m_StackWatchLevel = 1 ∧
      failedEntry.2 = Except.error (stackLimitExceeded activeState) ∧
      (stackLimitExceeded activeState).type = V8ExceptionType.General ∧
      failedEntry.1.m_StackWatchLevel = 1 ∧
      failedEntry.1.m_HeapWatchLevel = 2 ∧
      (ExitExecutionScope 8 0 failedEntry.1).m_HeapWatchLevel = 1 ∧
      (ExitExecutionScope 8 0 failedEntry.1).m_spHeapWatchTimer
        = activeState.m_spHeapWatchTimer ∧
      activeState.m_spHeapWatchTimer ≠ none ∧
      (ExitExecutionScope 8 0 activeState).m_HeapWatchLevel = 0 ∧
      (ExitExecutionScope 8 0 activeState).m_spHeapWatchTimer = none := by
  refine ⟨by decide, by decide, ?_, rfl, by decide, by decide, by decide, by decide,
    by decide, by decide, by decide⟩
  exact (EnterExecutionScope_active 8 chainEnv 2 2147352568 smallHeap activeState
    (by decide)).1.trans (if_pos ⟨by decide, by decide⟩)

/-! ## Drain triggers of the queue -/

theorem schedulerStart_pending (name : String) : DrainPending (schedulerStart name) :=
  ⟨rfl, Nat.le_refl 0, fun h => absurd rfl h⟩

/-- Every step of the scheduler model keeps `DrainPending`. -/
theorem schedulerStep_pending (env : Env) (step : SchedulerStep) (t t1 : Scheduler)
    (ht : DrainPending t) (h : schedulerStep env step t = some t1) : DrainPending t1 := by
  obtain ⟨hloop, hle, hpend⟩ := ht
  cases step with
  | submit callback =>
    simp only [schedulerStep, Option.some.injEq] at h
    subst h
    cases callback with
    | none => exact ⟨hloop, hle, hpend⟩
    | some cb =>
      have hsub := CallWithLockAsync_submitted cb t.self
      have hframe := (CallWithLockAsync_frame (some cb) t.self).toLoopFrame
      have hreq := hsub.interruptRequests
      rw [hloop] at hreq
      simp only [Bool.false_eq_true, if_false] at hreq
      refine ⟨hframe.inMessageLoop.trans hloop, ?_, ?_⟩
      · show t.interruptsServiced ≤ (CallWithLockAsync (some cb) t.self).interruptRequests
        rw [hreq]
        exact Nat.le_trans hle (Nat.le_add_right _ _)
      · intro _
        show t.interruptsServiced < (CallWithLockAsync (some cb) t.self).interruptRequests
        rw [hreq]
        by_cases hq : t.self.m_CallWithLockQueue = []
        · have hone : interruptsFor t.self.m_CallWithLockQueue [cb] = 1 := by
            simp [interruptsFor, hq]
          rw [hone]
          omega
        · exact Nat.lt_of_lt_of_le (hpend hq) (Nat.le_add_right _ _)
  | interrupt =>
    simp only [schedulerStep] at h
    split_ifs at h with hlt
    simp only [Option.some.injEq] at h
    subst h
    obtain ⟨-, -, -, -, h5, subs, h6⟩ :=
      ProcessCallWithLockQueue_queue_spec env t.self.m_CallWithLockQueue
        { t.self with m_CallWithLockQueue := [] }
    have hq : (ProcessCallWithLockQueue env t.self).self.m_CallWithLockQueue = subs := by
      have := h6.queue
      simpa using this
    have hreq : (ProcessCallWithLockQueue env t.self).self.interruptRequests
        = t.self.interruptRequests + interruptsFor [] subs := by
      have := h6.interruptRequests
      have hl : ({ t.self with m_CallWithLockQueue := [] } : V8IsolateImpl).m_InMessageLoop
          = false := hloop
      rw [hl] at this
      simpa using this
    refine ⟨?_, ?_, ?_⟩
    · exact (h5.inMessageLoop : _ = ({ t.self with m_CallWithLockQueue := [] } :
        V8IsolateImpl).m_InMessageLoop).trans hloop
    · show t.interruptsServiced + 1 ≤ (ProcessCallWithLockQueue env t.self).self.interruptRequests
      rw [hreq]
      omega
    · intro hne
      show t.interruptsServiced + 1 < (ProcessCallWithLockQueue env t.self).self.interruptRequests
      rw [hq] at hne
      have hone : interruptsFor [] subs = 1 := by simp [interruptsFor, hne]
      rw [hreq, hone]
      omega
  | runMessageLoop fuel awaitingDebugger wakeups =>
    simp only [schedulerStep, Option.map_eq_some'] at h
    obtain ⟨r, hr, rfl⟩ := h
    obtain ⟨-, -, -, -, -, -, -, c1, c2, c3, -⟩ :=
      RunMessageLoop_stages env fuel awaitingDebugger wakeups t.self r hloop hr
    refine ⟨c1, ?_, fun hne => absurd c2 hne⟩
    show t.interruptsServiced ≤ r.self.interruptRequests
    rw [c3]
    exact hle

theorem schedulerRun_pending (env : Env) (steps : List SchedulerStep) (t t1 : Scheduler)
    (ht : DrainPending t) (h : schedulerRun env steps t = some t1) : DrainPending t1 := by
  induction steps generalizing t with
  | nil =>
    simp only [schedulerRun, Option.some.injEq] at h
    rw [← h]; exact ht
  | cons step steps ih =>
    simp only [schedulerRun] at h
    cases hs : schedulerStep env step t with
    | none => rw [hs] at h; simp at h
    | some t2 =>
      rw [hs] at h
      exact ih t2 (schedulerStep_pending env step t t2 ht hs) h

/-- Claim C23. In every state that the sequential scheduler model reaches from a
constructed controller by submissions, serviced interrupts and message-loop runs
that return, the message loop is not active and no more interrupts are serviced
than were requested; whenever the queue is not empty, a requested interrupt is
not yet serviced.  A message-loop run from such a state has the queue empty on the
controller whose in-loop flag it clears, and on the controller it returns. -/
theorem no_queued_entry_stranded (env : Env) (steps : List SchedulerStep) (name : String)
    (t : Scheduler) (hReach : schedulerRun env steps (schedulerStart name) = some t) :
    t.self.m_InMessageLoop = false ∧
      t.interruptsServiced ≤ t.self.interruptRequests ∧
      (t.self.m_CallWithLockQueue ≠ [] → t.self.m_InMessageLoop = false →
        t.interruptsServiced < t.self.interruptRequests) ∧
      (∀ fuel awaitingDebugger wakeups r,
        RunMessageLoop env fuel awaitingDebugger wakeups t.self = some r →
        ∃ r0 r1,
          ProcessCallWithLockQueue_lock env fuel (messageLoopEntry awaitingDebugger t.self)
            = some r0 ∧
          messageLoop env fuel wakeups r0.self = some r1 ∧
          r1.self.m_InMessageLoop = true ∧ r1.self.m_CallWithLockQueue = [] ∧
          r.self = endPulseValueScopes false t.self.m_AwaitingDebugger r1.self ∧
          r.self.m_InMessageLoop = false ∧ r.self.m_CallWithLockQueue = []) := by
  obtain ⟨hloop, hle, hpend⟩ :=
    schedulerRun_pending env steps _ t (schedulerStart_pending name) hReach
  refine ⟨hloop, hle, fun hne _ => hpend hne, ?_⟩
  intro fuel awaitingDebugger wakeups r hr
  obtain ⟨r0, r1, c1, c2, c3, c4, c5, c6, c7, -⟩ :=
    RunMessageLoop_stages env fuel awaitingDebugger wakeups t.self r hloop hr
  exact ⟨r0, r1, c1, c2, c3, c4, c5, c6, c7⟩

/-- Witness of claim C23: three steps under `chainEnv` lead to `pendingScheduler`,
where two entries wait and the second requested interrupt is not yet serviced; the
message loop run from there and quit during its first wait returns `drainedRun`
with the queue empty. -/
theorem no_queued_entry_stranded_witness :
    schedulerRun chainEnv
        [SchedulerStep.submit (some (Callback.host 0)), SchedulerStep.interrupt,
          SchedulerStep.submit (some (Callback.host 2))] (schedulerStart "engine")
        = some pendingScheduler ∧
      pendingScheduler.self.m_CallWithLockQueue ≠ [] ∧
      pendingScheduler.interruptsServiced < pendingScheduler.self.interruptRequests ∧
      RunMessageLoop chainEnv 3 false [[Op.quitMessageLoopOnPause]] pendingScheduler.self
        = some drainedRun ∧
      drainedRun.self.m_CallWithLockQueue = [] :=
  ⟨by decide, by decide,
    (no_queued_entry_stranded chainEnv
      [SchedulerStep.submit (some (Callback.host 0)), SchedulerStep.interrupt,
        SchedulerStep.submit (some (Callback.host 2))] "engine" pendingScheduler
      (by decide)).2.2.1 (by decide) (by decide),
    by decide,
    ((no_queued_entry_stranded chainEnv
      [SchedulerStep.submit (some (Callback.host 0)), SchedulerStep.interrupt,
        SchedulerStep.submit (some (Callback.host 2))] "engine" pendingScheduler
      (by decide)).2.2.2 3 false [[Op.quitMessageLoopOnPause]] drainedRun (by decide)).elim
      (fun _ h => h.elim (fun _ h2 => h2.2.2.2.2.2.2))⟩

/-! ## Delayed tasks -/

theorem TimersKept.of_eq {s1 s2 : V8IsolateImpl} (ht : s2.m_TaskTimers = s1.m_TaskTimers)
    (hc : s2.timersCreated = s1.timersCreated) : TimersKept s1 s2 := by
  unfold TimersKept
  rw [ht, hc]
  exact ⟨List.Sublist.refl _, Nat.le_refl _⟩

theorem TimersKept.chain {s1 s2 s3 : V8IsolateImpl} (h12 : TimersKept s1 s2)
    (h23 : TimersKept s2 s3) : TimersKept s1 s3 :=
  ⟨h23.1.trans h12.1, Nat.le_trans h12.2 h23.2⟩

theorem LoopFrame.timersKept {s1 s2 : V8IsolateImpl} (h : LoopFrame s1 s2) : TimersKept s1 s2 :=
  TimersKept.of_eq (congrArg (fun x => x.m_TaskTimers) h) (congrArg (fun x => x.timersCreated) h)

theorem TimerIdsUnique.of_kept {s1 s2 : V8IsolateImpl} (hu : TimerIdsUnique s1)
    (hk : TimersKept s1 s2) : TimerIdsUnique s2 := by
  refine ⟨?_, ?_⟩
  · intro t ht
    exact Nat.lt_of_lt_of_le (hu.1 t (hk.1.subset ht)) hk.2
  · exact hu.2.sublist (hk.1.map _)

/-- A submitted delayed task adds one timer with an id no held timer has. -/
theorem TimerIdsUnique.push (s : V8IsolateImpl) (hu : TimerIdsUnique s) (timer : TaskTimer)
    (hid : timer.id = s.timersCreated) :
    TimerIdsUnique { s with
      timersCreated := s.timersCreated + 1
      m_TaskTimers := s.m_TaskTimers ++ [timer] } := by
  refine ⟨?_, ?_⟩
  · intro t ht
    rcases List.mem_append.1 ht with h | h
    · exact Nat.lt_succ_of_lt (hu.1 t h)
    · rw [List.mem_singleton.1 h, hid]
      exact Nat.lt_succ_self _
  · show ((s.m_TaskTimers ++ [timer]).map (fun t => t.id)).Nodup
    rw [List.map_append, List.nodup_append]
    refine ⟨hu.2, List.nodup_singleton _, ?_⟩
    intro a ha hb
    obtain ⟨t, ht, rfl⟩ := List.mem_map.1 ha
    simp only [List.map_cons, List.map_nil, List.mem_singleton] at hb
    have := hu.1 t ht
    omega

theorem Scope_enter_timersKept (env : Env) (s : V8IsolateImpl) :
    TimersKept s (Scope_enter env s) :=
  (Scope_enter_spec env s).1.timersKept

theorem CheckHeapSize_timersKept (env : Env) (maxHeapSize : Nat) (heap : HeapReadings)
    (s : V8IsolateImpl) : TimersKept s (CheckHeapSize env maxHeapSize heap s) := by
  have hstart : TimersKept s { s with checkHeapSizeCalls := s.checkHeapSizeCalls + 1 } :=
    TimersKept.of_eq rfl rfl
  have hscope : ∀ t : V8IsolateImpl, TimersKept t (GetHeapInfo env t) :=
    fun t => Scope_enter_timersKept env t
  have hset : ∀ (m : Nat) (t : V8IsolateImpl), TimersKept t (SetUpHeapWatchTimer m t) :=
    fun _ t => ⟨List.Sublist.refl _, Nat.le_succ _⟩
  have hlow : ∀ t : V8IsolateImpl, TimersKept t (LowMemoryNotification t) :=
    fun _ => TimersKept.of_eq rfl rfl
  have hterm : ∀ t : V8IsolateImpl,
      TimersKept t (TerminateExecution { t with m_IsOutOfMemory := true }) :=
    fun _ => TimersKept.of_eq rfl rfl
  dsimp only [CheckHeapSize]
  split_ifs
  · exact (((hstart.chain (hscope _)).chain (hlow _)).chain (hscope _)).chain (hterm _)
  · exact (((hstart.chain (hscope _)).chain (hlow _)).chain (hscope _)).chain (hset _ _)
  · exact (hstart.chain (hscope _)).chain (hset _ _)

theorem enterHeapWatch_timersKept (env : Env) (heap : HeapReadings) (s : V8IsolateImpl) :
    TimersKept s (enterHeapWatch env heap s) := by
  dsimp only [enterHeapWatch]
  split_ifs
  · exact (CheckHeapSize_timersKept env _ heap s).chain (TimersKept.of_eq rfl rfl)
  · exact TimersKept.of_eq rfl rfl
  · exact TimersKept.of_eq rfl rfl

theorem EnterExecutionScope_timersKept (W : Nat) (env : Env) (pExecutionScope pStackMarker : Nat)
    (heap : HeapReadings) (s : V8IsolateImpl) :
    TimersKept s (EnterExecutionScope W env pExecutionScope pStackMarker heap s).1 := by
  have h := enterHeapWatch_timersKept env heap s
  dsimp only [EnterExecutionScope, markExecutionScope]
  split_ifs <;> exact h.chain (TimersKept.of_eq rfl rfl)

theorem AwaitDebuggerAndPause_timersKept (env : Env) (fuel : Nat) (wakeups : List (List Op))
    (s : V8IsolateImpl) (r : V8IsolateImpl × Option Thrown)
    (h : AwaitDebuggerAndPause env fuel wakeups s = some r) : TimersKept s r.1 := by
  have hs := Scope_enter_timersKept env s
  have hpause : ∀ t : V8IsolateImpl, TimersKept t (schedulePause t) := by
    intro t
    unfold schedulePause
    split <;> exact TimersKept.of_eq rfl rfl
  dsimp only [AwaitDebuggerAndPause] at h
  split_ifs at h with h1 h2
  · cases hrun : RunMessageLoop env fuel true wakeups (Scope_enter env s) with
    | none => rw [hrun] at h; simp at h
    | some run =>
      have hf := (RunMessageLoop_frame env fuel true wakeups _ run hrun).timersKept
      have hthrown := (RunMessageLoop_returned env fuel true wakeups _ run hrun).1
      rw [hrun] at h
      simp only [hthrown] at h
      split_ifs at h
      · simp only [Option.some.injEq] at h
        subst h
        exact hs.chain hf
      · simp only [Option.some.injEq] at h
        subst h
        exact (hs.chain hf).chain (hpause _)
  · simp only [Option.some.injEq] at h
    subst h
    exact hs.chain (hpause _)
  · simp only [Option.some.injEq] at h
    subst h
    exact hs

theorem RunTaskDelayed_callback_timersKept (env : Env) (pTimer : TaskTimer)
    (s : V8IsolateImpl) : TimersKept s (RunTaskDelayed_callback env pTimer s).2.1 := by
  unfold RunTaskDelayed_callback
  cases hsp : pTimer.spTask with
  | none => exact TimersKept.of_eq rfl rfl
  | some task =>
    have hcall := (runTaskDirect_spec env task s).1.timersKept
    simp only
    split_ifs
    · split
      · rename_i s2 e heq
        rw [heq] at hcall; exact hcall
      · rename_i s2 heq
        rw [heq] at hcall
        exact hcall.chain ⟨List.filter_sublist _, Nat.le_refl _⟩
    · exact TimersKept.of_eq rfl rfl

theorem RunTaskWithLockDelayed_callback_timersKept (env : Env) (tryLock : Bool)
    (pTimer : TaskTimer) (s : V8IsolateImpl) :
    TimersKept s (RunTaskWithLockDelayed_callback env tryLock pTimer s).2.1 := by
  unfold RunTaskWithLockDelayed_callback
  cases hsp : pTimer.spTask with
  | none => exact TimersKept.of_eq rfl rfl
  | some task =>
    have hcall := (CallWithLockNoWait_frame env tryLock (Callback.runTask task) s).timersKept
    simp only
    split_ifs
    · split
      · rename_i s2 e heq
        rw [heq] at hcall; exact hcall
      · rename_i s2 heq
        rw [heq] at hcall
        exact hcall.chain ⟨List.filter_sublist _, Nat.le_refl _⟩
    · exact TimersKept.of_eq rfl rfl

theorem constructed_timerIdsUnique (name : String) : TimerIdsUnique { m_Name := name } :=
  ⟨fun _ ht => absurd ht (List.not_mem_nil _), List.nodup_nil⟩

/-- Every operation of the controller keeps the ids of the held timers unique. -/
theorem perform_timerIdsUnique (env : Env) (op : Operation) (s s1 : V8IsolateImpl)
    (hu : TimerIdsUnique s) (h : perform env op s = some s1) : TimerIdsUnique s1 := by
  cases op with
  | callWithLockAsync callback =>
    simp only [perform, Option.some.injEq] at h
    subst h
    exact hu.of_kept (CallWithLockAsync_frame callback s).toLoopFrame.timersKept
  | callWithLockNoWait tryLock callback =>
    simp only [perform, Option.some.injEq] at h
    subst h
    exact hu.of_kept (CallWithLockNoWait_frame env tryLock callback s).timersKept
  | processCallWithLockQueue =>
    simp only [perform, Option.some.injEq] at h
    subst h
    exact hu.of_kept (Scope_enter_timersKept env s)
  | processCallWithLockQueueLocked fuel =>
    simp only [perform, Option.map_eq_some'] at h
    obtain ⟨r, hr, rfl⟩ := h
    exact hu.of_kept (ProcessCallWithLockQueue_lock_frame env fuel s r hr).2.2.timersKept
  | runTaskAsync pTask =>
    simp only [perform, Option.some.injEq] at h
    subst h
    refine hu.of_kept ?_
    unfold RunTaskAsync Task_Run
    split_ifs <;> exact TimersKept.of_eq rfl rfl
  | runTaskAsyncNotification task =>
    simp only [perform, Option.some.injEq] at h
    subst h
    refine hu.of_kept ?_
    unfold RunTaskAsync_notification Task_Run
    split_ifs <;> exact TimersKept.of_eq rfl rfl
  | runTaskDelayed pTask delay =>
    simp only [perform, Option.some.injEq] at h
    subst h
    unfold RunTaskDelayed
    split_ifs
    · exact hu.of_kept (TimersKept.of_eq rfl rfl)
    · exact hu.push s _ rfl
  | runTaskDelayedCallback pTimer =>
    simp only [perform, Option.some.injEq] at h
    subst h
    exact hu.of_kept (RunTaskDelayed_callback_timersKept env pTimer s)
  | runTaskWithLockAsync pTask =>
    simp only [perform, Option.some.injEq] at h
    subst h
    refine hu.of_kept ?_
    unfold RunTaskWithLockAsync Task_Run
    split_ifs
    · exact TimersKept.of_eq rfl rfl
    · exact (CallWithLockAsync_frame _ s).toLoopFrame.timersKept
  | runTaskWithLockDelayed pTask delay =>
    simp only [perform, Option.some.injEq] at h
    subst h
    unfold RunTaskWithLockDelayed
    split_ifs
    · exact hu.of_kept (TimersKept.of_eq rfl rfl)
    · exact hu.push s _ rfl
  | runTaskWithLockDelayedCallback tryLock pTimer =>
    simp only [perform, Option.some.injEq] at h
    subst h
    exact hu.of_kept (RunTaskWithLockDelayed_callback_timersKept env tryLock pTimer s)
  | disableDebugging =>
    simp only [perform, Option.some.injEq] at h
    subst h
    refine hu.of_kept ?_
    unfold DisableDebugging
    split_ifs <;> exact TimersKept.of_eq rfl rfl
  | setMaxHeapSize value =>
    simp only [perform, Option.some.injEq] at h
    subst h
    exact hu.of_kept (TimersKept.of_eq rfl rfl)
  | setMaxStackUsage value =>
    simp only [perform, Option.some.injEq] at h
    subst h
    exact hu.of_kept (TimersKept.of_eq rfl rfl)
  | checkHeapSize maxHeapSize heap =>
    simp only [perform, Option.some.injEq] at h
    subst h
    exact hu.of_kept (CheckHeapSize_timersKept env maxHeapSize heap s)
  | setUpHeapWatchTimer maxHeapSize =>
    simp only [perform, Option.some.injEq] at h
    subst h
    exact hu.of_kept ⟨List.Sublist.refl _, Nat.le_succ _⟩
  | enterExecutionScope W pExecutionScope pStackMarker heap =>
    simp only [perform, Option.some.injEq] at h
    subst h
    exact hu.of_kept (EnterExecutionScope_timersKept W env _ _ heap s)
  | exitExecutionScope W pPreviousExecutionScope =>
    simp only [perform, Option.some.injEq] at h
    subst h
    refine hu.of_kept ?_
    dsimp only [ExitExecutionScope, CancelTerminateExecution, exitHeapWatch, exitStackWatch]
    split_ifs <;> exact TimersKept.of_eq rfl rfl
  | destructor =>
    simp only [perform, Option.some.injEq] at h
    subst h
    have hnil : (Destructor env s).m_TaskTimers = [] := by
      simp only [Destructor, runAsyncTasks_eq]
    unfold TimerIdsUnique
    rw [hnil]
    exact ⟨fun _ ht => absurd ht (List.not_mem_nil _), List.nodup_nil⟩
  | enableDebugging port remote =>
    simp only [perform, Option.some.injEq] at h
    subst h
    refine hu.of_kept ?_
    unfold EnableDebugging
    split_ifs <;> exact TimersKept.of_eq rfl rfl
  | addContext pContextImpl options =>
    simp only [perform, Option.some.injEq] at h
    subst h
    refine hu.of_kept ?_
    dsimp only [AddContext, announceContext, EnableDebugging]
    split_ifs <;> exact TimersKept.of_eq rfl rfl
  | removeContext pContextImpl =>
    simp only [perform, Option.some.injEq] at h
    subst h
    refine hu.of_kept ?_
    dsimp only [RemoveContext]
    split_ifs <;> exact TimersKept.of_eq rfl rfl
  | compile =>
    simp only [perform, Option.some.injEq] at h
    subst h
    exact hu.of_kept (Scope_enter_timersKept env s)
  | connectDebugClientCallback =>
    simp only [perform, Option.some.injEq] at h
    subst h
    refine hu.of_kept ?_
    unfold ConnectDebugClient_callback
    split_ifs <;> exact TimersKept.of_eq rfl rfl
  | sendDebugCommandCallback command =>
    simp only [perform, Option.some.injEq] at h
    subst h
    refine hu.of_kept ?_
    unfold SendDebugCommand_callback
    split_ifs <;> exact TimersKept.of_eq rfl rfl
  | disconnectDebugClientCallback =>
    simp only [perform, Option.some.injEq] at h
    subst h
    exact hu.of_kept (TimersKept.of_eq rfl rfl)
  | quitMessageLoopOnPause =>
    simp only [perform, Option.some.injEq] at h
    subst h
    exact hu.of_kept (TimersKept.of_eq rfl rfl)
  | abortMessageLoop =>
    simp only [perform, Option.some.injEq] at h
    subst h
    exact hu.of_kept (TimersKept.of_eq rfl rfl)
  | runMessageLoop fuel awaitingDebugger wakeups =>
    simp only [perform, Option.map_eq_some'] at h
    obtain ⟨r, hr, rfl⟩ := h
    exact hu.of_kept (RunMessageLoop_frame env fuel awaitingDebugger wakeups s r hr).timersKept
  | awaitDebuggerAndPause fuel wakeups =>
    simp only [perform, Option.map_eq_some'] at h
    obtain ⟨r, hr, rfl⟩ := h
    exact hu.of_kept (AwaitDebuggerAndPause_timersKept env fuel wakeups s r hr)

/-- In every state reached from a constructed controller by operations of the
controller the ids of the held timers are unique. -/
theorem performAll_timerIdsUnique (env : Env) (ops : List Operation) (s s1 : V8IsolateImpl)
    (hu : TimerIdsUnique s) (h : performAll env ops s = some s1) : TimerIdsUnique s1 := by
  induction ops generalizing s with
  | nil =>
    simp only [performAll, Option.some.injEq] at h
    rw [← h]; exact hu
  | cons op ops ih =>
    simp only [performAll] at h
    cases hp : perform env op s with
    | none => rw [hp] at h; simp at h
    | some s2 =>
      rw [hp] at h
      exact ih s2 (perform_timerIdsUnique env op s s2 hu hp) h

end V8IsolateImpl

end ClearScript
